import Mathlib

/-!
serverMonitor: the time-series append-and-query model.

A shallow embedding of `backend/server/model/model.go` (the storage functions
`InsertHostInfo`, `InsertSystemInfo`, `InsertHostandToken`, the four readers and
`ReadDB`) and of the ingestion handler
`backend/server/handle/server/monitor/addSystemInfo.go`.

Modelling decisions, all visible in the definitions below:

* The relational store is an explicit value `Store` holding the three tables the
  statements of `model.go` touch, with the columns those statements name.
  A statement is a pure function on `Store`; statement failures of the storage
  engine itself (lost connection) are not modelled.
* A `jsonb` column holds a JSON value or SQL `NULL` (`Option Json`); the text
  level of `encoding/json` is not modelled, its behaviour is described on values.
* The four reading structs (`CPUInfo`, `MemoryInfo`, `ProcessInfo`,
  `NetworkInfo`) contain `float64` and `time.Time` fields whose JSON form is fixed
  by the Go standard library.  They are a parameter (`Payloads`) of the
  development: a type with its zero value and its marshal/unmarshal functions.
* `time.Parse(time.RFC3339, s)` is a parameter `parse : String → Option Int`
  giving the instant denoted by `s` (`none` when `s` is malformed); `Equal`,
  `After` and `Before` compare instants.
* `strconv.ParseFloat(literal, 64)`, by which `encoding/json` turns a number into
  a `float64` when it decodes into `interface{}` (the readers decode into
  `[]map[string]interface{}`), is a parameter `float64 : ToFloat64`: the nearest
  float64 of a decimal, `none` when the number is out of range and the decode
  fails.
* `time.Now()` and the `CURRENT_TIMESTAMP` of the store are inputs of each call.
* Concurrent calls are modelled at the grain of storage statements, each statement
  atomic: `InsertSystemInfo` is its query (`scanLatest`) followed by the rest of its
  body (`appendAndWrite`), and `runSteps` runs the statements of several calls in a
  given order.
* The bearer-token check (`jwt.ParseWithClaims`) is a parameter `verifyJWT`.
-/

namespace ServerMonitor

/-! ## JSON values -/

/-- JSON values, as a `jsonb` column stores them and as `encoding/json` decodes
them into `interface{}`.  A number `num m e` denotes the decimal `m * 10 ^ e`. -/
inductive Json where
  | null : Json
  | bool (b : Bool) : Json
  | num (mantissa exponent : Int) : Json
  | str (s : String) : Json
  | arr (items : List Json) : Json
  | obj (members : List (String × Json)) : Json

/-- The value bound to key `k` in a list of object members; the last binding wins,
as when `encoding/json` fills a Go map. -/
def lookupLast (k : String) : List (String × Json) → Option Json
  | [] => none
  | (k', v) :: rest =>
    match lookupLast k rest with
    | some w => some w
    | none => if k' = k then some v else none

/-- Go expression `m[key].(string)` on a decoded record `m` of type
`map[string]interface{}`: the string bound to `key`, or `none` when the key is
missing, bound to a non-string, or the map is nil (a JSON `null` element). -/
def Json.getString (j : Json) (key : String) : Option String :=
  match j with
  | .obj members =>
    match lookupLast key members with
    | some (.str s) => some s
    | _ => none
  | _ => none

/-- Case folding of an object key as `encoding/json` applies it when it matches a
key against the field names `time` and `data` (ASCII letters only). -/
def foldKey (k : String) : List Char := k.data.map Char.toLower

/-- What `encoding/json` does with a number that it decodes into `interface{}`
(`strconv.ParseFloat(literal, 64)`): applied to the mantissa and exponent of the
decimal `m * 10 ^ e` it gives the nearest float64, again as the mantissa and
exponent of a decimal, or `none` when the number lies outside the float64 range
(`Unmarshal` then returns an error). -/
abbrev ToFloat64 := Int → Int → Option (Int × Int)

/-! ## Reading types and the series codec -/

/-- What `encoding/json` does with one reading struct: its Go zero value,
`json.Marshal` (which may fail) and `json.Unmarshal` into an existing value. -/
structure PayloadCodec (α : Type) where
  zero : α
  marshal : α → Option Json
  unmarshal : α → Json → Option α

/-- A codec is lawful when unmarshalling what it marshalled, into a zero value,
gives the value back. -/
def PayloadCodec.Lawful {α : Type} (c : PayloadCodec α) : Prop :=
  ∀ x j, c.marshal x = some j → c.unmarshal c.zero j = some x

/-- The four reading structs of `model.go` with their JSON behaviour. -/
structure Payloads where
  CPUInfo : Type
  MemoryInfo : Type
  ProcessInfo : Type
  NetworkInfo : Type
  cpu : PayloadCodec CPUInfo
  memory : PayloadCodec MemoryInfo
  process : PayloadCodec ProcessInfo
  network : PayloadCodec NetworkInfo

/-- All four reading codecs are lawful. -/
def Payloads.Lawful (P : Payloads) : Prop :=
  P.cpu.Lawful ∧ P.memory.Lawful ∧ P.process.Lawful ∧ P.network.Lawful

/-- The shape shared by `CPUData`, `MemoryData`, `ProcessData` and `NetworkData`:
a reading with the time it was captured, under the JSON keys `time` and `data`. -/
structure TimedData (α : Type) where
  Time : String
  Data : α

/-- Go struct `CPUData`. -/
abbrev CPUData (P : Payloads) := TimedData P.CPUInfo

/-- Go struct `MemoryData`. -/
abbrev MemoryData (P : Payloads) := TimedData P.MemoryInfo

/-- Go struct `ProcessData`. -/
abbrev ProcessData (P : Payloads) := TimedData P.ProcessInfo

/-- Go struct `NetworkData`. -/
abbrev NetworkData (P : Payloads) := TimedData P.NetworkInfo

/-- One object member decoded into a record: the key selects the field `time` or
`data` (exactly or up to case), other keys are ignored; `null` leaves a string
field as it is and a non-string for `time` is a type error. -/
def setField {α : Type} (c : PayloadCodec α) (acc : TimedData α) (kv : String × Json) :
    Option (TimedData α) :=
  if foldKey kv.1 = "time".data then
    match kv.2 with
    | .null => some acc
    | .str s => some { acc with Time := s }
    | _ => none
  else if foldKey kv.1 = "data".data then
    (c.unmarshal acc.Data kv.2).map fun d => { acc with Data := d }
  else some acc

/-- The fields of an object, set one after the other on a record. -/
def setFields {α : Type} (c : PayloadCodec α) :
    TimedData α → List (String × Json) → Option (TimedData α)
  | acc, [] => some acc
  | acc, kv :: rest =>
    match setField c acc kv with
    | none => none
    | some acc' => setFields c acc' rest

/-- One array element decoded into a record struct: `null` leaves the zero
record, an object sets the fields it names, anything else is a type error. -/
def unmarshalData {α : Type} (c : PayloadCodec α) : Json → Option (TimedData α)
  | .null => some ⟨"", c.zero⟩
  | .obj members => setFields c ⟨"", c.zero⟩ members
  | _ => none

/-- The elements of an array decoded in order; the first failure fails the whole. -/
def unmarshalAll {α : Type} (c : PayloadCodec α) : List Json → Option (List (TimedData α))
  | [] => some []
  | j :: rest =>
    match unmarshalData c j with
    | none => none
    | some d =>
      match unmarshalAll c rest with
      | none => none
      | some ds => some (d :: ds)

/-- Call `json.Unmarshal(column, &array)` with `array` a nil slice of record
structs.  A `NULL` column scans to an empty byte slice, on which `Unmarshal`
fails; JSON `null` leaves the slice nil; an array decodes element by element. -/
def unmarshalSeries {α : Type} (c : PayloadCodec α) : Option Json → Option (List (TimedData α))
  | none => none
  | some .null => some []
  | some (.arr items) => unmarshalAll c items
  | some _ => none

/-- One record struct marshalled: an object with the members `time` and `data`. -/
def marshalData {α : Type} (c : PayloadCodec α) (d : TimedData α) : Option Json :=
  (c.marshal d.Data).map fun j => .obj [("time", .str d.Time), ("data", j)]

/-- The records of a slice marshalled in order. -/
def marshalAll {α : Type} (c : PayloadCodec α) : List (TimedData α) → Option (List Json)
  | [] => some []
  | d :: rest =>
    match marshalData c d with
    | none => none
    | some j =>
      match marshalAll c rest with
      | none => none
      | some js => some (j :: js)

/-- Call `json.Marshal(array)` on a slice of record structs: a JSON array.
(The callers only marshal a slice they have just appended to.) -/
def marshalSeries {α : Type} (c : PayloadCodec α) (ds : List (TimedData α)) : Option Json :=
  (marshalAll c ds).map Json.arr

/-! ## The store -/

/-- A row of `host_info`, with the columns `InsertHostInfo` and `ReadDB` name. -/
structure HostInfoRow where
  id : Int
  hostname : String
  os : String
  platform : String
  kernel_arch : String
  host_info_created_at : Int
  user_name : String
deriving DecidableEq

/-- A row of `system_info`, with the columns `InsertSystemInfo` and the readers
name.  `host_info_id` is what `InsertSystemInfo` keys on, `hostname` what the
readers filter on; both are nullable. -/
structure SystemInfoRow where
  id : Int
  host_info_id : Option Int
  hostname : Option String
  cpu_info : Option Json
  memory_info : Option Json
  process_info : Option Json
  network_info : Option Json
  created_at : Int

/-- A row of `hostandtoken`.  The handler looks a token up by the column
`hostname`; `InsertHostandToken` and the heartbeat update use `host_name`. -/
structure HostAndTokenRow where
  id : Int
  host_name : Option String
  hostname : Option String
  token : String
  last_heartbeat : Int
  status : String
deriving DecidableEq

/-- The database: three tables in storage order and the next value of the
`SERIAL` sequence behind each `id` column.  A query without `ORDER BY` returns
rows in storage order, an `UPDATE` keeps a row at its place and an `INSERT` adds
the row at the end. -/
structure Store where
  host_info : List HostInfoRow
  host_info_seq : Int
  system_info : List SystemInfoRow
  system_info_seq : Int
  hostandtoken : List HostAndTokenRow
  hostandtoken_seq : Int

/-- The value of a Go `error`: `none` is `nil`, otherwise the message. -/
abbrev GoError := Option String

/-- The rows of `system_info` selected by `WHERE host_info_id = $1`. -/
def rowsOfHost (rows : List SystemInfoRow) (hostInfoID : Int) : List SystemInfoRow :=
  rows.filter fun r => r.host_info_id = some hostInfoID

/-- Clause `ORDER BY created_at DESC LIMIT 1`: a row with the greatest
`created_at`; among equal timestamps the first in storage order. -/
def latestRow : List SystemInfoRow → Option SystemInfoRow
  | [] => none
  | r :: rest =>
    match latestRow rest with
    | none => some r
    | some r' => if r.created_at < r'.created_at then some r' else some r

/-- The `UPDATE system_info SET ... WHERE id = $5` statement of `InsertSystemInfo`. -/
def updateSystemInfo (rows : List SystemInfoRow) (existingID : Int)
    (cpu memory process network : Json) (dbNow : Int) : List SystemInfoRow :=
  rows.map fun r =>
    if r.id = existingID then
      { r with cpu_info := some cpu, memory_info := some memory, process_info := some process,
               network_info := some network, created_at := dbNow }
    else r

/-- The `INSERT INTO system_info (host_info_id, cpu_info, ...)` statement of
`InsertSystemInfo`: the id comes from the sequence, `hostname` is not set. -/
def insertSystemInfoRow (db : Store) (hostInfoID : Int)
    (cpu memory process network : Json) (dbNow : Int) : Store :=
  { db with
    system_info := db.system_info ++
      [{ id := db.system_info_seq, host_info_id := some hostInfoID, hostname := none,
         cpu_info := some cpu, memory_info := some memory, process_info := some process,
         network_info := some network, created_at := dbNow }]
    system_info_seq := db.system_info_seq + 1 }

/-- The existing array of one metric kind as `InsertSystemInfo` obtains it: the
column is unmarshalled only when a row was found (`existingID > 0`), otherwise the
array starts nil. -/
def existingArray {α : Type} (c : PayloadCodec α) (existingID : Int) (column : Option Json) :
    Option (List (TimedData α)) :=
  if existingID > 0 then unmarshalSeries c column else some []

/-- Function `InsertSystemInfo` of `model.go`.  `currentTime` is
`time.Now().UTC().Format(time.RFC3339)`, `dbNow` the `CURRENT_TIMESTAMP` of the
write.  Returns the error and the store after the call. -/
def InsertSystemInfo (P : Payloads) (db : Store) (hostInfoID : Int)
    (cpuInfo : P.CPUInfo) (memoryInfo : P.MemoryInfo) (processInfo : P.ProcessInfo)
    (networkInfo : P.NetworkInfo) (currentTime : String) (dbNow : Int) : GoError × Store :=
  let found := latestRow (rowsOfHost db.system_info hostInfoID)
  let existingID : Int := match found with
    | some r => r.id
    | none => 0
  let cpuInfoJSON := found.bind fun r => r.cpu_info
  let memoryInfoJSON := found.bind fun r => r.memory_info
  let processInfoJSON := found.bind fun r => r.process_info
  let networkInfoJSON := found.bind fun r => r.network_info
  let cpuData : CPUData P := ⟨currentTime, cpuInfo⟩
  let memoryData : MemoryData P := ⟨currentTime, memoryInfo⟩
  let processData : ProcessData P := ⟨currentTime, processInfo⟩
  let networkData : NetworkData P := ⟨currentTime, networkInfo⟩
  match existingArray P.cpu existingID cpuInfoJSON with
  | none => (some "failed to unmarshal existing cpu_info", db)
  | some cpuInfoArray =>
  match marshalSeries P.cpu (cpuInfoArray ++ [cpuData]) with
  | none => (some "failed to marshal updated cpu_info", db)
  | some cpuInfoData =>
  match existingArray P.memory existingID memoryInfoJSON with
  | none => (some "failed to unmarshal existing memory_info", db)
  | some memoryInfoArray =>
  match marshalSeries P.memory (memoryInfoArray ++ [memoryData]) with
  | none => (some "failed to marshal updated memory_info", db)
  | some memoryInfoData =>
  match existingArray P.process existingID processInfoJSON with
  | none => (some "failed to unmarshal existing process_info", db)
  | some processInfoArray =>
  match marshalSeries P.process (processInfoArray ++ [processData]) with
  | none => (some "failed to marshal updated process_info", db)
  | some processInfoData =>
  match existingArray P.network existingID networkInfoJSON with
  | none => (some "failed to unmarshal existing network_info", db)
  | some networkInfoArray =>
  match marshalSeries P.network (networkInfoArray ++ [networkData]) with
  | none => (some "failed to marshal updated network_info", db)
  | some networkInfoData =>
  if existingID > 0 then
    (none, { db with system_info := updateSystemInfo db.system_info existingID
                        cpuInfoData memoryInfoData processInfoData networkInfoData dbNow })
  else
    (none, insertSystemInfoRow db hostInfoID
              cpuInfoData memoryInfoData processInfoData networkInfoData dbNow)

/-! ## The readers -/

mutual
/-- Decode of a JSON value into `interface{}`: `nil`, `bool`, `string`,
`[]interface{}` and `map[string]interface{}` as stored, and every number as the
`float64` that `float64` gives for it; a number outside the float64 range fails
the decode. -/
def decodeValue (float64 : ToFloat64) : Json → Option Json
  | .null => some .null
  | .bool b => some (.bool b)
  | .num m e =>
    match float64 m e with
    | some (m', e') => some (.num m' e')
    | none => none
  | .str s => some (.str s)
  | .arr items =>
    match decodeValues float64 items with
    | some items' => some (.arr items')
    | none => none
  | .obj members =>
    match decodeMembers float64 members with
    | some members' => some (.obj members')
    | none => none
/-- Decode of the elements of an array into `interface{}` values. -/
def decodeValues (float64 : ToFloat64) : List Json → Option (List Json)
  | [] => some []
  | j :: rest =>
    match decodeValue float64 j, decodeValues float64 rest with
    | some j', some rest' => some (j' :: rest')
    | _, _ => none
/-- Decode of the members of an object into the entries of a
`map[string]interface{}`. -/
def decodeMembers (float64 : ToFloat64) : List (String × Json) → Option (List (String × Json))
  | [] => some []
  | (k, j) :: rest =>
    match decodeValue float64 j, decodeMembers float64 rest with
    | some j', some rest' => some ((k, j') :: rest')
    | _, _ => none
end

/-- Decode of one array element into a `map[string]interface{}`: an object
becomes the map of its decoded members, `null` leaves the map nil, and any other
value is a type error. -/
def decodeMap (float64 : ToFloat64) : Json → Option Json
  | .obj members =>
    match decodeMembers float64 members with
    | some members' => some (.obj members')
    | none => none
  | .null => some .null
  | _ => none

/-- Decode of the elements of an array into a `[]map[string]interface{}`; one
element that does not decode fails the whole call. -/
def decodeMaps (float64 : ToFloat64) : List Json → Option (List Json)
  | [] => some []
  | j :: rest =>
    match decodeMap float64 j, decodeMaps float64 rest with
    | some m, some ms => some (m :: ms)
    | _, _ => none

/-- Call `json.Unmarshal(column, &infos)` with `infos` of type
`[]map[string]interface{}`, as the readers do: the decoded records.  A `NULL`
column scans to an empty byte slice, on which `Unmarshal` fails; JSON `null`
leaves the slice nil. -/
def unmarshalMaps (float64 : ToFloat64) : Option Json → Option (List Json)
  | none => none
  | some .null => some []
  | some (.arr items) => decodeMaps float64 items
  | some _ => none

/-- Go condition `(updatedAt.Equal(fromtime) || updatedAt.After(fromtime)) &&
updatedAt.Before(totime)` on instants. -/
def inWindow (updatedAt fromtime totime : Int) : Bool :=
  (updatedAt = fromtime || updatedAt > fromtime) && updatedAt < totime

/-- The inner loop of a reader over the records of one row: a record without a
string `updated_at` is skipped; otherwise `updated_at`, `from` and `to` are parsed
in that order, each failure returning its error, and the record is appended to
the accumulated result when it lies in the window. -/
def filterRecords (parse : String → Option Int) (from_ to_ : String) :
    List Json → List Json → Except String (List Json)
  | acc, [] => .ok acc
  | acc, info :: rest =>
    match info.getString "updated_at" with
    | none => filterRecords parse from_ to_ acc rest
    | some updatedAtStr =>
      match parse updatedAtStr with
      | none => .error "解析 updated_at 字段时发生错误"
      | some updatedAt =>
        match parse from_ with
        | none => .error "解析 from 字段时发生错误"
        | some fromtime =>
          match parse to_ with
          | none => .error "解析 to 字段时发生错误"
          | some totime =>
            if inWindow updatedAt fromtime totime then
              filterRecords parse from_ to_ (acc ++ [info]) rest
            else filterRecords parse from_ to_ acc rest

/-- The outer loop of a reader over the selected rows (`rows.Next()`): each row's
column is unmarshalled (failure returns the error) and its records filtered. -/
def readRows (parse : String → Option Int) (float64 : ToFloat64)
    (column : SystemInfoRow → Option Json) (from_ to_ : String) :
    List Json → List SystemInfoRow → Except String (List Json)
  | acc, [] => .ok acc
  | acc, row :: rest =>
    match unmarshalMaps float64 (column row) with
    | none => .error "解析 JSON 数据时发生错误"
    | some infos =>
      match filterRecords parse from_ to_ acc infos with
      | .error e => .error e
      | .ok acc' => readRows parse float64 column from_ to_ acc' rest

/-- The rows selected by `SELECT id, <column> FROM system_info WHERE hostname = $1`. -/
def rowsOfHostname (rows : List SystemInfoRow) (hostname : String) : List SystemInfoRow :=
  rows.filter fun r => r.hostname = some hostname

/-- The host attributes `ReadDB` puts under the key `host`. -/
structure HostAttrs where
  id : Int
  hostname : String
  os : String
  platform : String
  kernel_arch : String
  host_info_created_at : Int
deriving DecidableEq

/-- The `map[string]interface{}` that `ReadDB` returns: one optional entry for
each of the keys `host`, `memory`, `net`, `cpu` and `process` (`none`: key absent). -/
structure Bundle where
  host : Option HostAttrs
  memory : Option (List Json)
  net : Option (List Json)
  cpu : Option (List Json)
  process : Option (List Json)

/-- The map `make(map[string]interface{})`. -/
def Bundle.empty : Bundle := ⟨none, none, none, none, none⟩

/-- Function `ReadMemoryInfo`: on success sets `result["memory"]`. -/
def ReadMemoryInfo (parse : String → Option Int) (float64 : ToFloat64) (db : Store)
    (hostname from_ to_ : String) (result : Bundle) : GoError × Bundle :=
  match readRows parse float64 (fun r => r.memory_info) from_ to_ []
      (rowsOfHostname db.system_info hostname) with
  | .error e => (some e, result)
  | .ok memoryData => (none, { result with memory := some memoryData })

/-- Function `ReadCPUInfo`: on success sets `result["cpu"]`. -/
def ReadCPUInfo (parse : String → Option Int) (float64 : ToFloat64) (db : Store)
    (hostname from_ to_ : String) (result : Bundle) : GoError × Bundle :=
  match readRows parse float64 (fun r => r.cpu_info) from_ to_ []
      (rowsOfHostname db.system_info hostname) with
  | .error e => (some e, result)
  | .ok cpuData => (none, { result with cpu := some cpuData })

/-- Function `ReadNetInfo`: on success sets `result["net"]`. -/
def ReadNetInfo (parse : String → Option Int) (float64 : ToFloat64) (db : Store)
    (hostname from_ to_ : String) (result : Bundle) : GoError × Bundle :=
  match readRows parse float64 (fun r => r.network_info) from_ to_ []
      (rowsOfHostname db.system_info hostname) with
  | .error e => (some e, result)
  | .ok netData => (none, { result with net := some netData })

/-- Function `ReadProcessInfo`: on success sets `result["process"]`. -/
def ReadProcessInfo (parse : String → Option Int) (float64 : ToFloat64) (db : Store)
    (hostname from_ to_ : String) (result : Bundle) : GoError × Bundle :=
  match readRows parse float64 (fun r => r.process_info) from_ to_ []
      (rowsOfHostname db.system_info hostname) with
  | .error e => (some e, result)
  | .ok processData => (none, { result with process := some processData })

/-- The first row of `SELECT ... FROM host_info WHERE hostname = $1`. -/
def findHostByName (rows : List HostInfoRow) (hostname : String) : Option HostInfoRow :=
  rows.find? fun r => r.hostname = hostname

/-- The host part of `ReadDB`, run for the query types `host` and `all`. -/
def readHost (db : Store) (queryType hostname : String) (result : Bundle) : Except String Bundle :=
  if queryType = "host" ∨ queryType = "all" then
    match findHostByName db.host_info hostname with
    | none => .error "未找到指定的主机记录"
    | some row =>
      .ok { result with host := some ⟨row.id, row.hostname, row.os, row.platform,
                                       row.kernel_arch, row.host_info_created_at⟩ }
  else .ok result

/-- One metric part of `ReadDB`: the reader runs when the query type is the given
selector or `all`. -/
def readPart (selector queryType : String) (reader : Bundle → GoError × Bundle)
    (result : Bundle) : Except String Bundle :=
  if queryType = selector ∨ queryType = "all" then
    match reader result with
    | (some e, _) => .error e
    | (none, result') => .ok result'
  else .ok result

/-- Function `ReadDB`: the host attributes, then memory, net, cpu and process in
that order; the first error is returned with a nil map. -/
def ReadDB (parse : String → Option Int) (float64 : ToFloat64) (db : Store)
    (queryType from_ to_ hostname : String) : Except String Bundle :=
  match readHost db queryType hostname Bundle.empty with
  | .error e => .error e
  | .ok r0 =>
  match readPart "memory" queryType (ReadMemoryInfo parse float64 db hostname from_ to_) r0 with
  | .error e => .error e
  | .ok r1 =>
  match readPart "net" queryType (ReadNetInfo parse float64 db hostname from_ to_) r1 with
  | .error e => .error e
  | .ok r2 =>
  match readPart "cpu" queryType (ReadCPUInfo parse float64 db hostname from_ to_) r2 with
  | .error e => .error e
  | .ok r3 =>
  match readPart "process" queryType (ReadProcessInfo parse float64 db hostname from_ to_) r3 with
  | .error e => .error e
  | .ok r4 => .ok r4

/-! ## The host registry -/

/-- Go struct `HostInfo` as the request carries it. -/
structure HostInfo where
  ID : Int
  Hostname : String
  OS : String
  Platform : String
  KernelArch : String
  CreatedAt : Int
  Token : String
deriving DecidableEq

/-- The condition `hostname = $1 AND os = $2 AND platform = $3 AND kernel_arch = $4`. -/
def hostMatches (hostInfo : HostInfo) (r : HostInfoRow) : Bool :=
  r.hostname = hostInfo.Hostname && r.os = hostInfo.OS && r.platform = hostInfo.Platform
    && r.kernel_arch = hostInfo.KernelArch

/-- What a call of `InsertHostInfo` leaves: the returned error, the store, and the
value of its local variable `hostInfoID` (which it prints and does not return). -/
structure HostInsertOutcome where
  err : GoError
  db : Store
  hostInfoID : Int

/-- Function `InsertHostInfo`: the first row matching all four attributes gets its
`host_info_created_at` set to the current timestamp; when none matches a new row
is inserted with the next id of the sequence. -/
def InsertHostInfo (db : Store) (hostInfo : HostInfo) (username : String) (dbNow : Int) :
    HostInsertOutcome :=
  match db.host_info.find? (hostMatches hostInfo) with
  | some row =>
    { err := none
      db := { db with host_info := db.host_info.map fun r =>
                if r.id = row.id then { r with host_info_created_at := dbNow } else r }
      hostInfoID := row.id }
  | none =>
    { err := none
      db := { db with
              host_info := db.host_info ++
                [{ id := db.host_info_seq, hostname := hostInfo.Hostname, os := hostInfo.OS,
                   platform := hostInfo.Platform, kernel_arch := hostInfo.KernelArch,
                   host_info_created_at := dbNow, user_name := username }]
              host_info_seq := db.host_info_seq + 1 }
      hostInfoID := db.host_info_seq }

/-- Function `InsertHostandToken`: always inserts a row `(host_name, token)`; the
other columns take their defaults (`last_heartbeat` the current timestamp,
`status` the string `offline`). -/
def InsertHostandToken (db : Store) (UserName Token : String) (dbNow : Int) : GoError × Store :=
  (none, { db with
           hostandtoken := db.hostandtoken ++
             [{ id := db.hostandtoken_seq, host_name := some UserName, hostname := none,
                token := Token, last_heartbeat := dbNow, status := "offline" }]
           hostandtoken_seq := db.hostandtoken_seq + 1 })

/-! ## The ingestion handler -/

/-- Go struct `RequestData` of the handler. -/
structure RequestData (P : Payloads) where
  CPUInfo : P.CPUInfo
  HostInfo : HostInfo
  MemInfo : P.MemoryInfo
  ProInfo : P.ProcessInfo
  NetInfo : P.NetworkInfo

/-- An HTTP submission: the bound JSON body (`none` when `ShouldBindJSON` fails)
and the `Authorization` header (empty when absent). -/
structure Request (P : Payloads) where
  body : Option (RequestData P)
  authorization : String

/-- The statements and storage calls the handler issues, in the order of its text. -/
inductive DbAccess where
  | selectToken
  | updateHeartbeat
  | callInsertHostInfo
  | callInsertHostandToken
  | callInsertSystemInfo
deriving DecidableEq

/-- The timestamps one submission observes: the store's clock at the heartbeat
update and at each of the three storage calls, and the formatted `time.Now()`. -/
structure Clock where
  heartbeat : Int
  hostInfo : Int
  hostandtoken : Int
  systemInfo : Int
  currentTime : String

/-- What the handler leaves: the HTTP status, the message of the JSON body, the
store, and the storage accesses it made in order. -/
structure Outcome where
  status : Nat
  message : String
  db : Store
  trace : List DbAccess

/-- The `SELECT token FROM hostandtoken WHERE hostname = $1` of the handler,
scanned into `tokens`, which stays empty when no row is returned. -/
def lookupToken (rows : List HostAndTokenRow) (hostname : String) : String :=
  match rows.find? fun r => r.hostname = some hostname with
  | some r => r.token
  | none => ""

/-- The `UPDATE hostandtoken SET last_heartbeat = NOW(), status = 'online' WHERE
host_name = $1` of the handler. -/
def touchHeartbeat (db : Store) (hostname : String) (dbNow : Int) : Store :=
  { db with hostandtoken := db.hostandtoken.map fun r =>
      if r.host_name = some hostname then { r with last_heartbeat := dbNow, status := "online" }
      else r }

/-- Call `strings.TrimPrefix(authHeader, "Bearer ")` together with the test
`tokenString == authHeader`: `none` when the header lacks the prefix. -/
def trimBearer (authHeader : String) : Option String :=
  if "Bearer ".data.isPrefixOf authHeader.data then some ⟨authHeader.data.drop 7⟩ else none

/-- Function `ReceiveAndStoreSystemMetrics`.  `verifyJWT` stands for
`jwt.ParseWithClaims` with the validity test: the user name of a valid token.
Go's `len` counts bytes, hence `utf8ByteSize`. -/
def ReceiveAndStoreSystemMetrics (P : Payloads) (verifyJWT : String → Option String)
    (db : Store) (clock : Clock) (req : Request P) : Outcome :=
  match req.body with
  | none => ⟨400, "Invalid JSON data", db, []⟩
  | some requestData =>
  let tokenh := requestData.HostInfo.Token
  let tokens := lookupToken db.hostandtoken requestData.HostInfo.Hostname
  let t1 := [DbAccess.selectToken]
  if tokenh.utf8ByteSize ≠ 16 then ⟨400, "Wrong token length", db, t1⟩
  else if tokenh ≠ tokens then ⟨400, "Unequal string", db, t1⟩
  else if req.authorization = "" then ⟨401, "Authorization header is missing", db, t1⟩
  else
  match trimBearer req.authorization with
  | none => ⟨401, "Invalid token format", db, t1⟩
  | some tokenString =>
  match verifyJWT tokenString with
  | none => ⟨401, "Invalid or expired token", db, t1⟩
  | some username =>
  let db1 := touchHeartbeat db requestData.HostInfo.Hostname clock.heartbeat
  let t2 := t1 ++ [DbAccess.updateHeartbeat]
  let h := InsertHostInfo db1 requestData.HostInfo username clock.hostInfo
  let t3 := t2 ++ [DbAccess.callInsertHostInfo]
  match h.err with
  | some _ => ⟨500, "Failed to insert system info", h.db, t3⟩
  | none =>
  let k := InsertHostandToken h.db requestData.HostInfo.Hostname tokenh clock.hostandtoken
  let t4 := t3 ++ [DbAccess.callInsertHostandToken]
  match k.1 with
  | some _ => ⟨500, "Failed to insert system info", k.2, t4⟩
  | none =>
  let s := InsertSystemInfo P k.2 requestData.HostInfo.ID requestData.CPUInfo
    requestData.MemInfo requestData.ProInfo requestData.NetInfo clock.currentTime clock.systemInfo
  let t5 := t4 ++ [DbAccess.callInsertSystemInfo]
  match s.1 with
  | some _ => ⟨500, "Failed to insert system info", s.2, t5⟩
  | none => ⟨201, "System information inserted successfully", s.2, t5⟩


/-! ## Sample instances used to evaluate the definitions -/

/-- A sample reading codec: a reading that is one integer, marshalled as the
object with the single member `percent`. -/
def percentCodec : PayloadCodec Int where
  zero := 0
  marshal := fun p => some (.obj [("percent", .num p 0)])
  unmarshal := fun acc j =>
    match j with
    | .null => some acc
    | .obj members =>
      match lookupLast "percent" members with
      | none => some acc
      | some (.num m 0) => some m
      | some _ => none
    | _ => none

/-- Sample readings: every kind is one integer under the key `percent`. -/
@[reducible]
def samplePayloads : Payloads where
  CPUInfo := Int
  MemoryInfo := Int
  ProcessInfo := Int
  NetworkInfo := Int
  cpu := percentCodec
  memory := percentCodec
  process := percentCodec
  network := percentCodec

/-- The value of a decimal digit character. -/
def digitValue (c : Char) : Option Nat :=
  if c.isDigit then some (c.toNat - 48) else none

/-- The number written by two decimal digits. -/
def twoDigits (a b : Char) : Option Nat :=
  match digitValue a, digitValue b with
  | some x, some y => some (10 * x + y)
  | _, _ => none

/-- Days from 1970-01-01 to the given civil date (years from 1 on). -/
def daysFromCivil (y m d : Nat) : Int :=
  let y1 : Nat := if m ≤ 2 then y - 1 else y
  let era : Nat := y1 / 400
  let yoe : Nat := y1 - era * 400
  let mp : Nat := if m > 2 then m - 3 else m + 9
  let doy : Nat := (153 * mp + 2) / 5 + d - 1
  let doe : Nat := yoe * 365 + yoe / 4 - yoe / 100 + doy
  (era * 146097 + doe : Nat) - 719468

/-- The number of days of a month of the civil calendar. -/
def daysIn (y m : Nat) : Nat :=
  if m = 2 then (if y % 4 = 0 ∧ (y % 100 ≠ 0 ∨ y % 400 = 0) then 29 else 28)
  else if m = 4 ∨ m = 6 ∨ m = 9 ∨ m = 11 then 30
  else 31

/-- A sample of `time.Parse(time.RFC3339, s)` for the UTC form
`2006-01-02T15:04:05Z` that `InsertSystemInfo` writes: the seconds since the
epoch, `none` for any other text. -/
def parseUTC (s : String) : Option Int :=
  match s.data with
  | [y1, y2, y3, y4, '-', m1, m2, '-', d1, d2, 'T', h1, h2, ':', n1, n2, ':', s1, s2, 'Z'] =>
    match twoDigits y1 y2, twoDigits y3 y4, twoDigits m1 m2, twoDigits d1 d2,
          twoDigits h1 h2, twoDigits n1 n2, twoDigits s1 s2 with
    | some yh, some yl, some mo, some dd, some hh, some mi, some ss =>
      if 1 ≤ 100 * yh + yl ∧ 1 ≤ mo ∧ mo ≤ 12 ∧ 1 ≤ dd ∧ dd ≤ daysIn (100 * yh + yl) mo ∧
          hh < 24 ∧ mi < 60 ∧ ss < 60 then
        some (daysFromCivil (100 * yh + yl) mo dd * 86400 + (hh * 3600 + mi * 60 + ss : Nat))
      else none
    | _, _, _, _, _, _, _ => none
  | _ => none

/-- The number of binary digits of `n`, counted with at most `fuel` halvings. -/
def bitLength : Nat → Nat → Nat
  | 0, _ => 0
  | fuel + 1, n => if n = 0 then 0 else bitLength fuel (n / 2) + 1

/-- The float64 nearest to the positive rational `n / d`, before the range check:
a mantissa `q` of at most 53 bits and a binary exponent `x`, not below that of
the subnormal numbers, with value `q * 2 ^ x`; a tie goes to the even mantissa. -/
def nearestFloat64 (n d : Nat) : Nat × Int :=
  let a : Int := bitLength n n - 1
  let b : Int := bitLength d d - 1
  let l : Int := if d * 2 ^ (a - b).toNat ≤ n * 2 ^ (b - a).toNat then a - b else a - b - 1
  let x : Int := max (l - 52) (-1074)
  let num := n * 2 ^ (-x).toNat
  let den := d * 2 ^ x.toNat
  let q := num / den
  let r := num % den
  if den < 2 * r ∨ (2 * r = den ∧ q % 2 = 1) then (q + 1, x) else (q, x)

/-- The fraction `q / 2 ^ k` in lowest terms: the remaining exponent and mantissa. -/
def reduceDyadic : Nat → Nat → Nat × Nat
  | 0, q => (0, q)
  | k + 1, q => if q % 2 = 0 then reduceDyadic k (q / 2) else (k + 1, q)

/-- A sample of `strconv.ParseFloat(literal, 64)` on the decimal `m * 10 ^ e`: the
nearest float64 (ties to even), written as an integer or as a decimal with the
least number of fraction digits; a number that rounds to nothing finite
(`1e400`) gives `none`, a number too small for a float64 gives zero. -/
def parseFloat64 : ToFloat64 := fun m e =>
  if m = 0 then some (0, 0)
  else if 309 ≤ e then none
  else
    match nearestFloat64 (m.natAbs * 10 ^ e.toNat) (10 ^ (-e).toNat) with
    | (q, x) =>
      if 972 ≤ x ∨ (x = 971 ∧ q = 2 ^ 53) then none
      else if 0 ≤ x then some (m.sign * (q * 2 ^ x.toNat : Nat), 0)
      else
        match reduceDyadic (-x).toNat q with
        | (k, q0) => some (m.sign * (q0 * 5 ^ k : Nat), -(k : Int))

/-- The store with empty tables and fresh sequences. -/
def Store.empty : Store := ⟨[], 1, [], 1, [], 1⟩


/-! ## Notions used to state the properties -/

/-- The primary key of `system_info`: ids are distinct, positive, and below the
next value of the `SERIAL` sequence. -/
def Store.SystemInfoKeyed (db : Store) : Prop :=
  (db.system_info.map fun r => r.id).Nodup ∧ 0 < db.system_info_seq ∧
    ∀ r ∈ db.system_info, 0 < r.id ∧ r.id < db.system_info_seq

/-- The arguments of one `InsertSystemInfo` call together with the two clock
readings it takes. -/
structure Submission (P : Payloads) where
  cpuInfo : P.CPUInfo
  memoryInfo : P.MemoryInfo
  processInfo : P.ProcessInfo
  networkInfo : P.NetworkInfo
  currentTime : String
  dbNow : Int

/-- Successive `InsertSystemInfo` calls for one host id, all of them successful:
the final store, or `none` as soon as a call returns an error. -/
def insertAll (P : Payloads) (hostInfoID : Int) : Store → List (Submission P) → Option Store
  | db, [] => some db
  | db, s :: rest =>
    match InsertSystemInfo P db hostInfoID s.cpuInfo s.memoryInfo s.processInfo s.networkInfo
            s.currentTime s.dbNow with
    | (none, db') => insertAll P hostInfoID db' rest
    | (some _, _) => none

/-- The four series that the host's latest row decodes to, each empty when the
host has no row; `none` when a column does not decode. -/
def decodedSeries (P : Payloads) (db : Store) (hostInfoID : Int) :
    Option (List (CPUData P) × List (MemoryData P) × List (ProcessData P) × List (NetworkData P)) :=
  match latestRow (rowsOfHost db.system_info hostInfoID) with
  | none => some ([], [], [], [])
  | some r =>
    match unmarshalSeries P.cpu r.cpu_info, unmarshalSeries P.memory r.memory_info,
          unmarshalSeries P.process r.process_info, unmarshalSeries P.network r.network_info with
    | some a1, some a2, some a3, some a4 => some (a1, a2, a3, a4)
    | _, _, _, _ => none

/-- The records that a list of calls appends to the four series, in call order:
each reading with the capture time of its call. -/
def appended (P : Payloads) (calls : List (Submission P)) :
    List (CPUData P) × List (MemoryData P) × List (ProcessData P) × List (NetworkData P) :=
  (calls.map fun s => ⟨s.currentTime, s.cpuInfo⟩, calls.map fun s => ⟨s.currentTime, s.memoryInfo⟩,
   calls.map fun s => ⟨s.currentTime, s.processInfo⟩,
   calls.map fun s => ⟨s.currentTime, s.networkInfo⟩)

/-- The store's clock does not run backwards: the timestamps of the calls are in
non-decreasing order and none is earlier than a timestamp already stored for the
host. -/
def ClockAdvances {P : Payloads} (db : Store) (hostInfoID : Int) (calls : List (Submission P)) :
    Prop :=
  (calls.map fun s => s.dbNow).Pairwise (fun a b => a ≤ b) ∧
    ∀ r ∈ rowsOfHost db.system_info hostInfoID, ∀ s ∈ calls, r.created_at ≤ s.dbNow

/-- Every reading marshals: `json.Marshal` fails on no value of the four types. -/
def Payloads.MarshalTotal (P : Payloads) : Prop :=
  (∀ x, (P.cpu.marshal x).isSome) ∧ (∀ x, (P.memory.marshal x).isSome) ∧
    (∀ x, (P.process.marshal x).isSome) ∧ (∀ x, (P.network.marshal x).isSome)

/-- The capture time a reader extracts from a record: the parsed string under
the key `updated_at`, if there is one and it parses. -/
def captureTime (parse : String → Option Int) (info : Json) : Option Int :=
  (info.getString "updated_at").bind parse

/-- The half-open window test `from ≤ t < to` on the capture time of a record; a
record without capture time is outside every window. -/
def inRange (parse : String → Option Int) (fromtime totime : Int) (info : Json) : Bool :=
  match captureTime parse info with
  | some t => decide (fromtime ≤ t ∧ t < totime)
  | none => false

/-- The records of the selected rows as the readers decode them (every number a
float64), in stored order: row after row, and within a row in the order of its
array. -/
def decodedRecords (float64 : ToFloat64) (column : SystemInfoRow → Option Json) :
    List SystemInfoRow → List Json
  | [] => []
  | row :: rest =>
    (unmarshalMaps float64 (column row)).getD [] ++ decodedRecords float64 column rest

/-- The records of one row are well timed: every `updated_at` string in them is a
well-formed timestamp. -/
def wellTimed (parse : String → Option Int) (infos : List Json) : Bool :=
  infos.all fun info =>
    match info.getString "updated_at" with
    | none => true
    | some s => (parse s).isSome

/-- The selected rows are readable: every column decodes to a list of records (it
is JSON `null` or an array of objects and `null`s, and no number in it is outside
the float64 range) and every `updated_at` string in them is a well-formed
timestamp. -/
def readable (parse : String → Option Int) (float64 : ToFloat64)
    (column : SystemInfoRow → Option Json) (rows : List SystemInfoRow) : Bool :=
  rows.all fun row =>
    match unmarshalMaps float64 (column row) with
    | none => false
    | some infos => wellTimed parse infos

/-- The primary key of `host_info`: ids are distinct and below the next value of
the `SERIAL` sequence. -/
def Store.HostInfoKeyed (db : Store) : Prop :=
  (db.host_info.map fun r => r.id).Nodup ∧ ∀ r ∈ db.host_info, r.id < db.host_info_seq

/-! ## Sample stores and calls -/

/-- A capture time, and the two seconds after it. -/
def sampleT1 : String := "2025-03-11T13:13:30Z"

/-- One second after `sampleT1`. -/
def sampleT2 : String := "2025-03-11T13:13:31Z"

/-- Two seconds after `sampleT1`. -/
def sampleT3 : String := "2025-03-11T13:13:32Z"

/-- A stored record in the shape the readers look for: a capture time under
`updated_at` and a reading. -/
def recordAt (t : String) (percent : Int) : Json :=
  .obj [("updated_at", .str t), ("percent", .num percent 0)]

/-- A store seeded with one series row of host `web01` whose cpu column holds a
record at `sampleT1`, a record without `updated_at` and a record at `sampleT2`. -/
def seededStore : Store :=
  { Store.empty with
    system_info := [⟨1, some 1, some "web01",
      some (.arr [recordAt sampleT1 10, .obj [("percent", .num 15 0)], recordAt sampleT2 20]),
      some (.arr []), some .null, some (.arr [recordAt sampleT2 5]), 50⟩]
    system_info_seq := 2 }

/-- A store whose cpu series holds a record at `sampleT1` followed by a record
whose `updated_at` is not a timestamp. -/
def malformedStore : Store :=
  { Store.empty with
    system_info := [⟨1, some 1, some "web01",
      some (.arr [recordAt sampleT1 10, recordAt "yesterday" 20]),
      some (.arr []), some (.arr []), some (.arr []), 50⟩]
    system_info_seq := 2 }

/-- A store with one series row of host id 1 (`web01`) whose cpu column is SQL
`NULL`; the other three columns hold the empty array. -/
def nullColumnStore : Store :=
  { Store.empty with
    system_info := [⟨1, some 1, some "web01", none, some (.arr []), some (.arr []),
      some (.arr []), 50⟩]
    system_info_seq := 2 }

/-- A store with one series row of host id 1 (`web01`) whose columns are empty:
the empty array for cpu and memory, JSON `null` for process and network. -/
def emptyColumnStore : Store :=
  { Store.empty with
    system_info := [⟨1, some 1, some "web01", some (.arr []), some (.arr []), some .null,
      some .null, 50⟩]
    system_info_seq := 2 }

/-- A store whose cpu series holds one record at `sampleT1` with the reading
18446744073709551615, which no float64 equals. -/
def wideNumberStore : Store :=
  { Store.empty with
    system_info := [⟨1, some 1, some "web01",
      some (.arr [recordAt sampleT1 18446744073709551615]),
      some (.arr []), some (.arr []), some (.arr []), 50⟩]
    system_info_seq := 2 }

/-- A store whose cpu series holds one record at `sampleT1` with the reading
`1e400`, which lies outside the float64 range. -/
def outOfRangeStore : Store :=
  { Store.empty with
    system_info := [⟨1, some 1, some "web01",
      some (.arr [.obj [("updated_at", .str sampleT1), ("percent", .num 1 400)]]),
      some (.arr []), some (.arr []), some (.arr []), 50⟩]
    system_info_seq := 2 }

/-- Two calls with the same capture time: cpu readings 10 and 20. -/
def sampleCalls : List (Submission samplePayloads) :=
  [⟨10, 1, 2, 3, sampleT1, 100⟩, ⟨20, 4, 5, 6, sampleT1, 100⟩]

/-- The host of the scenario, with a token of sixteen bytes. -/
def web01 : HostInfo := ⟨0, "web01", "linux", "ubuntu", "x86_64", 0, "0123456789abcdef"⟩

/-- The scenario store: host `web01` is registered in the empty store, then
submits cpu reading 10 at `sampleT1` and cpu reading 20 at `sampleT2` under the
id the registry resolved. -/
def scenarioStore : Store :=
  let h := InsertHostInfo Store.empty web01 "alice" 90
  let s1 := (InsertSystemInfo samplePayloads h.db h.hostInfoID 10 0 0 0 sampleT1 100).2
  (InsertSystemInfo samplePayloads s1 h.hostInfoID 20 0 0 0 sampleT2 101).2

/-- The same two submissions appended to a series row that already exists for
`web01` and carries its hostname, all columns empty. -/
def namedScenarioStore : Store :=
  let h := InsertHostInfo Store.empty web01 "alice" 90
  let s0 : Store := { h.db with
    system_info := [⟨1, some 1, some "web01", some (.arr []), some (.arr []), some (.arr []),
      some (.arr []), 95⟩]
    system_info_seq := 2 }
  let s1 := (InsertSystemInfo samplePayloads s0 h.hostInfoID 10 0 0 0 sampleT1 100).2
  (InsertSystemInfo samplePayloads s1 h.hostInfoID 20 0 0 0 sampleT2 101).2

/-- An empty stored payload: JSON `null` or the empty array (a `jsonb` column
cannot hold empty text). -/
def isEmptyPayload : Option Json → Bool
  | some .null => true
  | some (.arr []) => true
  | _ => false

/-- A submission of `web01` whose static token has ten bytes. -/
def shortTokenRequest : Request samplePayloads :=
  { body := some ⟨10, { web01 with Token := "0123456789" }, 1, 2, 3⟩
    authorization := "Bearer abc" }

/-- Sample clock readings of one submission. -/
def sampleClock : Clock := ⟨100, 101, 102, 103, sampleT1⟩

/-- A store in which `web01` is registered twice, with kernel architectures
`x86_64` (id 1) and `arm64` (id 2). -/
def twoArchStore : Store :=
  (InsertHostInfo (InsertHostInfo Store.empty web01 "alice" 90).db
    { web01 with KernelArch := "arm64" } "alice" 91).db

/-! ## Notions for the handler and for interleaved calls -/

/-- The request body as `ShouldBindJSON` fills it from a payload that carries only
some of the four metric sub-objects: the fields of `RequestData` are structs, not
pointers, so a kind the payload omits is left at its Go zero value. -/
def bindRequestData (P : Payloads) (hostInfo : HostInfo) (cpuInfo : Option P.CPUInfo)
    (memInfo : Option P.MemoryInfo) (proInfo : Option P.ProcessInfo)
    (netInfo : Option P.NetworkInfo) : RequestData P :=
  ⟨cpuInfo.getD P.cpu.zero, hostInfo, memInfo.getD P.memory.zero, proInfo.getD P.process.zero,
    netInfo.getD P.network.zero⟩

/-- The handler rejected the submission at its static-token stage: one of the two
responses of lines 67 to 73. -/
def Outcome.rejectedAtTokenStage (o : Outcome) : Prop :=
  o.status = 400 ∧ (o.message = "Wrong token length" ∨ o.message = "Unequal string")

/-- The submission got as far as the token-binding step: the handler called
`InsertHostandToken`. -/
def Outcome.reachedTokenBinding (o : Outcome) : Prop :=
  DbAccess.callInsertHostandToken ∈ o.trace

/-- The rows of `hostandtoken` bound to a hostname, as `InsertHostandToken` binds
them (column `host_name`). -/
def tokenRowsOf (db : Store) (hostname : String) : List HostAndTokenRow :=
  db.hostandtoken.filter fun r => r.host_name = some hostname

/-- Successive submissions handled one after the other: the final store. -/
def submitAll (P : Payloads) (verifyJWT : String → Option String) :
    Store → List (Clock × Request P) → Store
  | db, [] => db
  | db, (clock, req) :: rest =>
    submitAll P verifyJWT (ReceiveAndStoreSystemMetrics P verifyJWT db clock req).db rest

/-- Every submission of the list comes from the given hostname and, handled in its
turn, gets as far as the token-binding step. -/
def allReachBinding (P : Payloads) (verifyJWT : String → Option String) (hostname : String) :
    Store → List (Clock × Request P) → Prop
  | _, [] => True
  | db, (clock, req) :: rest =>
    (∃ requestData, req.body = some requestData ∧ requestData.HostInfo.Hostname = hostname) ∧
    (ReceiveAndStoreSystemMetrics P verifyJWT db clock req).reachedTokenBinding ∧
    allReachBinding P verifyJWT hostname
      (ReceiveAndStoreSystemMetrics P verifyJWT db clock req).db rest

/-- What the `SELECT ... ORDER BY created_at DESC LIMIT 1` of `InsertSystemInfo`
scans into its local variables (lines 163 to 176); `existingID` stays 0 when no
row is returned. -/
structure LatestScan where
  existingID : Int
  cpuInfoJSON : Option Json
  memoryInfoJSON : Option Json
  processInfoJSON : Option Json
  networkInfoJSON : Option Json

/-- The first statement of `InsertSystemInfo`: the query for the latest row. -/
def scanLatest (db : Store) (hostInfoID : Int) : LatestScan :=
  let found := latestRow (rowsOfHost db.system_info hostInfoID)
  { existingID := match found with
      | some r => r.id
      | none => 0
    cpuInfoJSON := found.bind fun r => r.cpu_info
    memoryInfoJSON := found.bind fun r => r.memory_info
    processInfoJSON := found.bind fun r => r.process_info
    networkInfoJSON := found.bind fun r => r.network_info }

/-- The rest of `InsertSystemInfo` (lines 178 to 281), run on the store as it is
when the write is issued, with the values the query scanned earlier: decode,
append, encode, then the `UPDATE` or the `INSERT`. -/
def appendAndWrite (P : Payloads) (db : Store) (hostInfoID : Int) (scan : LatestScan)
    (cpuInfo : P.CPUInfo) (memoryInfo : P.MemoryInfo) (processInfo : P.ProcessInfo)
    (networkInfo : P.NetworkInfo) (currentTime : String) (dbNow : Int) : GoError × Store :=
  let cpuData : CPUData P := ⟨currentTime, cpuInfo⟩
  let memoryData : MemoryData P := ⟨currentTime, memoryInfo⟩
  let processData : ProcessData P := ⟨currentTime, processInfo⟩
  let networkData : NetworkData P := ⟨currentTime, networkInfo⟩
  match existingArray P.cpu scan.existingID scan.cpuInfoJSON with
  | none => (some "failed to unmarshal existing cpu_info", db)
  | some cpuInfoArray =>
  match marshalSeries P.cpu (cpuInfoArray ++ [cpuData]) with
  | none => (some "failed to marshal updated cpu_info", db)
  | some cpuInfoData =>
  match existingArray P.memory scan.existingID scan.memoryInfoJSON with
  | none => (some "failed to unmarshal existing memory_info", db)
  | some memoryInfoArray =>
  match marshalSeries P.memory (memoryInfoArray ++ [memoryData]) with
  | none => (some "failed to marshal updated memory_info", db)
  | some memoryInfoData =>
  match existingArray P.process scan.existingID scan.processInfoJSON with
  | none => (some "failed to unmarshal existing process_info", db)
  | some processInfoArray =>
  match marshalSeries P.process (processInfoArray ++ [processData]) with
  | none => (some "failed to marshal updated process_info", db)
  | some processInfoData =>
  match existingArray P.network scan.existingID scan.networkInfoJSON with
  | none => (some "failed to unmarshal existing network_info", db)
  | some networkInfoArray =>
  match marshalSeries P.network (networkInfoArray ++ [networkData]) with
  | none => (some "failed to marshal updated network_info", db)
  | some networkInfoData =>
  if scan.existingID > 0 then
    (none, { db with system_info := updateSystemInfo db.system_info scan.existingID
                        cpuInfoData memoryInfoData processInfoData networkInfoData dbNow })
  else
    (none, insertSystemInfoRow db hostInfoID
              cpuInfoData memoryInfoData processInfoData networkInfoData dbNow)

/-- One storage statement of a running `InsertSystemInfo` call: its query, or its
write with the arguments of the call.  The number names the call. -/
inductive CallStep (P : Payloads) where
  | scan (call : Nat) : CallStep P
  | write (call : Nat) (args : Submission P) : CallStep P

/-- What a call scanned, by call number; the most recent entry first. -/
def scannedBy (call : Nat) : List (Nat × LatestScan) → Option LatestScan
  | [] => none
  | (n, scan) :: rest => if n = call then some scan else scannedBy call rest

/-- Calls for one host id running against the same store, their statements taken
in the given order, each statement atomic.  A write uses what its own call
scanned; a write of a call that has not scanned is skipped. -/
def runSteps (P : Payloads) (hostInfoID : Int) :
    Store → List (Nat × LatestScan) → List (CallStep P) → Store
  | db, _, [] => db
  | db, scans, .scan call :: rest =>
    runSteps P hostInfoID db ((call, scanLatest db hostInfoID) :: scans) rest
  | db, scans, .write call args :: rest =>
    match scannedBy call scans with
    | none => runSteps P hostInfoID db scans rest
    | some scan =>
      runSteps P hostInfoID
        (appendAndWrite P db hostInfoID scan args.cpuInfo args.memoryInfo args.processInfo
          args.networkInfo args.currentTime args.dbNow).2 scans rest

/-- The calls run one after the other: each call's query is directly followed by
its own write.  Calls are numbered from `first` on. -/
def serialSteps {P : Payloads} (first : Nat) : List (Submission P) → List (CallStep P)
  | [] => []
  | args :: rest => .scan first :: .write first args :: serialSteps (first + 1) rest

/-- Two calls interleaved: both query before either writes. -/
def interleavedSteps {P : Payloads} (a b : Submission P) : List (CallStep P) :=
  [.scan 0, .scan 1, .write 0 a, .write 1 b]

/-! ## Sample stores and requests of the handler -/

/-- A sample of the token check: every bearer token is valid, for user `alice`. -/
def acceptAll : String → Option String := fun _ => some "alice"

/-- A store in which the token `0123456789abcdef` is bound to `web01`, under both
hostname columns of `hostandtoken`. -/
def tokenStore : Store :=
  { Store.empty with
    hostandtoken := [⟨1, some "web01", some "web01", "0123456789abcdef", 0, "offline"⟩]
    hostandtoken_seq := 2 }

/-- A submission of `web01` with the bound token, a bearer token and cpu reading
10, whose body carries the given host id. -/
def acceptedRequest (id : Int) : Request samplePayloads :=
  { body := some ⟨10, { web01 with ID := id }, 1, 2, 3⟩
    authorization := "Bearer abc" }

/-- A submission of `web01` whose static token has sixteen bytes and is not the
bound one. -/
def wrongTokenRequest : Request samplePayloads :=
  { body := some ⟨10, { web01 with Token := "fedcba9876543210" }, 1, 2, 3⟩
    authorization := "Bearer abc" }

/-- A token of eight characters, each of two bytes in UTF-8: sixteen bytes. -/
def eightCharToken : String := "éééééééé"

/-- A token of sixteen characters, each of two bytes in UTF-8: thirty-two bytes. -/
def sixteenCharToken : String := "éééééééééééééééé"

/-- A store in which the given token is bound to `web01`, under both hostname
columns of `hostandtoken`. -/
def tokenStoreOf (token : String) : Store :=
  { Store.empty with
    hostandtoken := [⟨1, some "web01", some "web01", token, 0, "offline"⟩]
    hostandtoken_seq := 2 }

/-- A submission of `web01` carrying the given static token, with a bearer token
and cpu reading 10. -/
def requestWithToken (token : String) : Request samplePayloads :=
  { body := some ⟨10, { web01 with Token := token }, 1, 2, 3⟩
    authorization := "Bearer abc" }

/-- The token store with the series row of host id 1 whose cpu column is `NULL`. -/
def corruptTokenStore : Store :=
  { tokenStore with
    system_info := nullColumnStore.system_info
    system_info_seq := 2 }

/-- The seeded series of `web01` together with its host row. -/
def seededHostStore : Store :=
  { seededStore with
    host_info := [⟨1, "web01", "linux", "ubuntu", "x86_64", 40, "alice"⟩]
    host_info_seq := 2 }

/-- Two calls of the same host at different capture times: cpu readings 10 and 20. -/
def callA : Submission samplePayloads := ⟨10, 1, 2, 3, sampleT1, 100⟩

/-- The second of the two calls. -/
def callB : Submission samplePayloads := ⟨20, 4, 5, 6, sampleT2, 101⟩

/-! ## Properties of `InsertSystemInfo` -/

theorem InsertSystemInfo_error_keeps_store (P : Payloads) (db : Store) (hostInfoID : Int)
    (cpuInfo : P.CPUInfo) (memoryInfo : P.MemoryInfo) (processInfo : P.ProcessInfo)
    (networkInfo : P.NetworkInfo) (currentTime : String) (dbNow : Int)
    (herr : (InsertSystemInfo P db hostInfoID cpuInfo memoryInfo processInfo networkInfo
              currentTime dbNow).1 ≠ none) :
    (InsertSystemInfo P db hostInfoID cpuInfo memoryInfo processInfo networkInfo
              currentTime dbNow).2 = db := by
  unfold InsertSystemInfo at herr ⊢
  simp only at herr ⊢
  repeat' split
  all_goals first
    | rfl
    | (exfalso; simp_all)

theorem InsertSystemInfo_found_inv (P : Payloads) (db : Store) (hostInfoID : Int)
    (cpuInfo : P.CPUInfo) (memoryInfo : P.MemoryInfo) (processInfo : P.ProcessInfo)
    (networkInfo : P.NetworkInfo) (currentTime : String) (dbNow : Int) (r : SystemInfoRow)
    (hfound : latestRow (rowsOfHost db.system_info hostInfoID) = some r) (hid : 0 < r.id)
    (hok : (InsertSystemInfo P db hostInfoID cpuInfo memoryInfo processInfo networkInfo
              currentTime dbNow).1 = none) :
    ∃ a1 a2 a3 a4 j1 j2 j3 j4,
      unmarshalSeries P.cpu r.cpu_info = some a1 ∧
      unmarshalSeries P.memory r.memory_info = some a2 ∧
      unmarshalSeries P.process r.process_info = some a3 ∧
      unmarshalSeries P.network r.network_info = some a4 ∧
      marshalSeries P.cpu (a1 ++ [⟨currentTime, cpuInfo⟩]) = some j1 ∧
      marshalSeries P.memory (a2 ++ [⟨currentTime, memoryInfo⟩]) = some j2 ∧
      marshalSeries P.process (a3 ++ [⟨currentTime, processInfo⟩]) = some j3 ∧
      marshalSeries P.network (a4 ++ [⟨currentTime, networkInfo⟩]) = some j4 ∧
      (InsertSystemInfo P db hostInfoID cpuInfo memoryInfo processInfo networkInfo
              currentTime dbNow).2 =
        { db with system_info := updateSystemInfo db.system_info r.id j1 j2 j3 j4 dbNow } := by
  unfold InsertSystemInfo at hok ⊢
  simp only [hfound, existingArray, hid, if_true, Option.bind_some, gt_iff_lt] at hok ⊢
  cases h1 : unmarshalSeries P.cpu r.cpu_info with
  | none => simp [h1] at hok
  | some a1 =>
  cases g1 : marshalSeries P.cpu (a1 ++ [⟨currentTime, cpuInfo⟩]) with
  | none => simp [h1, g1] at hok
  | some j1 =>
  cases h2 : unmarshalSeries P.memory r.memory_info with
  | none => simp [h1, g1, h2] at hok
  | some a2 =>
  cases g2 : marshalSeries P.memory (a2 ++ [⟨currentTime, memoryInfo⟩]) with
  | none => simp [h1, g1, h2, g2] at hok
  | some j2 =>
  cases h3 : unmarshalSeries P.process r.process_info with
  | none => simp [h1, g1, h2, g2, h3] at hok
  | some a3 =>
  cases g3 : marshalSeries P.process (a3 ++ [⟨currentTime, processInfo⟩]) with
  | none => simp [h1, g1, h2, g2, h3, g3] at hok
  | some j3 =>
  cases h4 : unmarshalSeries P.network r.network_info with
  | none => simp [h1, g1, h2, g2, h3, g3, h4] at hok
  | some a4 =>
  cases g4 : marshalSeries P.network (a4 ++ [⟨currentTime, networkInfo⟩]) with
  | none => simp [h1, g1, h2, g2, h3, g3, h4, g4] at hok
  | some j4 =>
  refine ⟨a1, a2, a3, a4, j1, j2, j3, j4, rfl, rfl, rfl, rfl, g1, g2, g3, g4, ?_⟩
  simp [h1, g1, h2, g2, h3, g3, h4, g4]

theorem InsertSystemInfo_found_ok (P : Payloads) (db : Store) (hostInfoID : Int)
    (cpuInfo : P.CPUInfo) (memoryInfo : P.MemoryInfo) (processInfo : P.ProcessInfo)
    (networkInfo : P.NetworkInfo) (currentTime : String) (dbNow : Int) (r : SystemInfoRow)
    (hfound : latestRow (rowsOfHost db.system_info hostInfoID) = some r) (hid : 0 < r.id)
    {a1 a2 a3 a4} {j1 j2 j3 j4 : Json}
    (h1 : unmarshalSeries P.cpu r.cpu_info = some a1)
    (h2 : unmarshalSeries P.memory r.memory_info = some a2)
    (h3 : unmarshalSeries P.process r.process_info = some a3)
    (h4 : unmarshalSeries P.network r.network_info = some a4)
    (g1 : marshalSeries P.cpu (a1 ++ [⟨currentTime, cpuInfo⟩]) = some j1)
    (g2 : marshalSeries P.memory (a2 ++ [⟨currentTime, memoryInfo⟩]) = some j2)
    (g3 : marshalSeries P.process (a3 ++ [⟨currentTime, processInfo⟩]) = some j3)
    (g4 : marshalSeries P.network (a4 ++ [⟨currentTime, networkInfo⟩]) = some j4) :
    InsertSystemInfo P db hostInfoID cpuInfo memoryInfo processInfo networkInfo
        currentTime dbNow =
      (none, { db with system_info := updateSystemInfo db.system_info r.id j1 j2 j3 j4 dbNow }) := by
  unfold InsertSystemInfo
  simp [hfound, existingArray, hid, h1, h2, h3, h4, g1, g2, g3, g4]

theorem InsertSystemInfo_absent_inv (P : Payloads) (db : Store) (hostInfoID : Int)
    (cpuInfo : P.CPUInfo) (memoryInfo : P.MemoryInfo) (processInfo : P.ProcessInfo)
    (networkInfo : P.NetworkInfo) (currentTime : String) (dbNow : Int)
    (hfound : latestRow (rowsOfHost db.system_info hostInfoID) = none)
    (hok : (InsertSystemInfo P db hostInfoID cpuInfo memoryInfo processInfo networkInfo
              currentTime dbNow).1 = none) :
    ∃ j1 j2 j3 j4,
      marshalSeries P.cpu [⟨currentTime, cpuInfo⟩] = some j1 ∧
      marshalSeries P.memory [⟨currentTime, memoryInfo⟩] = some j2 ∧
      marshalSeries P.process [⟨currentTime, processInfo⟩] = some j3 ∧
      marshalSeries P.network [⟨currentTime, networkInfo⟩] = some j4 ∧
      (InsertSystemInfo P db hostInfoID cpuInfo memoryInfo processInfo networkInfo
              currentTime dbNow).2 = insertSystemInfoRow db hostInfoID j1 j2 j3 j4 dbNow := by
  unfold InsertSystemInfo at hok ⊢
  simp only [hfound, existingArray, gt_iff_lt, lt_self_iff_false, if_false, List.nil_append]
    at hok ⊢
  cases g1 : marshalSeries P.cpu [⟨currentTime, cpuInfo⟩] with
  | none => simp [g1] at hok
  | some j1 =>
  cases g2 : marshalSeries P.memory [⟨currentTime, memoryInfo⟩] with
  | none => simp [g1, g2] at hok
  | some j2 =>
  cases g3 : marshalSeries P.process [⟨currentTime, processInfo⟩] with
  | none => simp [g1, g2, g3] at hok
  | some j3 =>
  cases g4 : marshalSeries P.network [⟨currentTime, networkInfo⟩] with
  | none => simp [g1, g2, g3, g4] at hok
  | some j4 =>
  exact ⟨j1, j2, j3, j4, rfl, rfl, rfl, rfl, by simp⟩

theorem InsertSystemInfo_absent_ok (P : Payloads) (db : Store) (hostInfoID : Int)
    (cpuInfo : P.CPUInfo) (memoryInfo : P.MemoryInfo) (processInfo : P.ProcessInfo)
    (networkInfo : P.NetworkInfo) (currentTime : String) (dbNow : Int)
    (hfound : latestRow (rowsOfHost db.system_info hostInfoID) = none)
    {j1 j2 j3 j4 : Json}
    (g1 : marshalSeries P.cpu [⟨currentTime, cpuInfo⟩] = some j1)
    (g2 : marshalSeries P.memory [⟨currentTime, memoryInfo⟩] = some j2)
    (g3 : marshalSeries P.process [⟨currentTime, processInfo⟩] = some j3)
    (g4 : marshalSeries P.network [⟨currentTime, networkInfo⟩] = some j4) :
    InsertSystemInfo P db hostInfoID cpuInfo memoryInfo processInfo networkInfo
        currentTime dbNow = (none, insertSystemInfoRow db hostInfoID j1 j2 j3 j4 dbNow) := by
  unfold InsertSystemInfo
  simp [hfound, existingArray, g1, g2, g3, g4]

/-- C2. When the host's latest row (found by `InsertSystemInfo`, its id positive as
a `SERIAL` key is) has a column among cpu, memory, process and network that does
not decode, `InsertSystemInfo` returns an error and the store it leaves is the
store it was given: no column is written and no row is inserted. -/
theorem InsertSystemInfo_corrupt_series_aborts (P : Payloads) (db : Store) (hostInfoID : Int)
    (cpuInfo : P.CPUInfo) (memoryInfo : P.MemoryInfo) (processInfo : P.ProcessInfo)
    (networkInfo : P.NetworkInfo) (currentTime : String) (dbNow : Int) (r : SystemInfoRow)
    (hfound : latestRow (rowsOfHost db.system_info hostInfoID) = some r) (hid : 0 < r.id)
    (hbad : unmarshalSeries P.cpu r.cpu_info = none ∨ unmarshalSeries P.memory r.memory_info = none ∨
      unmarshalSeries P.process r.process_info = none ∨
      unmarshalSeries P.network r.network_info = none) :
    (InsertSystemInfo P db hostInfoID cpuInfo memoryInfo processInfo networkInfo
        currentTime dbNow).1 ≠ none ∧
    (InsertSystemInfo P db hostInfoID cpuInfo memoryInfo processInfo networkInfo
        currentTime dbNow).2 = db := by
  have herr : (InsertSystemInfo P db hostInfoID cpuInfo memoryInfo processInfo networkInfo
      currentTime dbNow).1 ≠ none := by
    intro hok
    obtain ⟨a1, a2, a3, a4, _, _, _, _, h1, h2, h3, h4, _⟩ :=
      InsertSystemInfo_found_inv P db hostInfoID cpuInfo memoryInfo processInfo networkInfo
        currentTime dbNow r hfound hid hok
    rcases hbad with h | h | h | h
    · rw [h1] at h; cases h
    · rw [h2] at h; cases h
    · rw [h3] at h; cases h
    · rw [h4] at h; cases h
  exact ⟨herr, InsertSystemInfo_error_keeps_store P db hostInfoID cpuInfo memoryInfo processInfo
    networkInfo currentTime dbNow herr⟩


/-! ## The latest row and the in-place update -/

theorem latestRow_eq_none {l : List SystemInfoRow} : latestRow l = none ↔ l = [] := by
  cases l with
  | nil => simp [latestRow]
  | cons a rest =>
    simp only [latestRow]
    cases latestRow rest with
    | none => simp
    | some r' => by_cases h : a.created_at < r'.created_at <;> simp [h]

theorem latestRow_split {l : List SystemInfoRow} {r : SystemInfoRow} (h : latestRow l = some r) :
    ∃ pre post, l = pre ++ r :: post ∧ (∀ x ∈ pre, x.created_at < r.created_at) ∧
      (∀ x ∈ post, x.created_at ≤ r.created_at) := by
  induction l generalizing r with
  | nil => simp [latestRow] at h
  | cons a rest ih =>
    simp only [latestRow] at h
    cases hr : latestRow rest with
    | none =>
      rw [hr] at h
      simp only [Option.some.injEq] at h
      subst h
      rw [latestRow_eq_none] at hr
      subst hr
      exact ⟨[], [], rfl, by simp, by simp⟩
    | some r' =>
      rw [hr] at h
      obtain ⟨pre, post, hl, hpre, hpost⟩ := ih hr
      by_cases hlt : a.created_at < r'.created_at
      · simp only [hlt, if_true, Option.some.injEq] at h
        subst h
        refine ⟨a :: pre, post, by simp [hl], ?_, hpost⟩
        intro x hx
        rcases List.mem_cons.mp hx with rfl | hx
        · exact hlt
        · exact hpre x hx
      · simp only [hlt, if_false, Option.some.injEq] at h
        subst h
        refine ⟨[], rest, rfl, by simp, ?_⟩
        intro x hx
        have hxr : x.created_at ≤ r'.created_at := by
          rw [hl] at hx
          rcases List.mem_append.mp hx with hx | hx
          · exact le_of_lt (hpre x hx)
          · rcases List.mem_cons.mp hx with rfl | hx
            · exact le_refl _
            · exact hpost x hx
        omega

theorem latestRow_mem {l : List SystemInfoRow} {r : SystemInfoRow} (h : latestRow l = some r) :
    r ∈ l := by
  obtain ⟨pre, post, hl, _, _⟩ := latestRow_split h
  simp [hl]

theorem latestRow_max {l : List SystemInfoRow} {r : SystemInfoRow} (h : latestRow l = some r) :
    ∀ x ∈ l, x.created_at ≤ r.created_at := by
  obtain ⟨pre, post, hl, hpre, hpost⟩ := latestRow_split h
  intro x hx
  rw [hl] at hx
  rcases List.mem_append.mp hx with hx | hx
  · exact le_of_lt (hpre x hx)
  · rcases List.mem_cons.mp hx with rfl | hx
    · exact le_refl _
    · exact hpost x hx

theorem latestRow_of_split (pre post : List SystemInfoRow) (r : SystemInfoRow)
    (hpre : ∀ x ∈ pre, x.created_at < r.created_at)
    (hpost : ∀ x ∈ post, x.created_at ≤ r.created_at) :
    latestRow (pre ++ r :: post) = some r := by
  induction pre with
  | nil =>
    simp only [List.nil_append, latestRow]
    cases hr : latestRow post with
    | none => rfl
    | some r' =>
      have := hpost r' (latestRow_mem hr)
      have hn : ¬ r.created_at < r'.created_at := by omega
      simp [hn]
  | cons a pre ih =>
    have ih' := ih (fun x hx => hpre x (List.mem_cons_of_mem _ hx))
    have ha := hpre a (List.mem_cons_self _ _)
    show latestRow (a :: (pre ++ r :: post)) = some r
    simp only [latestRow, ih', ha, if_true]

/-- The row an update writes in place of `r`. -/
theorem updateSystemInfo_split (pre post : List SystemInfoRow) (r : SystemInfoRow)
    (cpu memory process network : Json) (dbNow : Int)
    (hpre : ∀ x ∈ pre, x.id ≠ r.id) (hpost : ∀ x ∈ post, x.id ≠ r.id) :
    updateSystemInfo (pre ++ r :: post) r.id cpu memory process network dbNow =
      pre ++ { r with cpu_info := some cpu, memory_info := some memory,
                      process_info := some process, network_info := some network,
                      created_at := dbNow } :: post := by
  unfold updateSystemInfo
  rw [List.map_append, List.map_cons]
  congr 1
  · conv_rhs => rw [← List.map_id pre]
    apply List.map_congr_left
    intro x hx
    simp [hpre x hx]
  · congr 1
    · simp
    · conv_rhs => rw [← List.map_id post]
      apply List.map_congr_left
      intro x hx
      simp [hpost x hx]

theorem rowsOfHost_updateSystemInfo (rows : List SystemInfoRow) (hostInfoID existingID : Int)
    (cpu memory process network : Json) (dbNow : Int) :
    rowsOfHost (updateSystemInfo rows existingID cpu memory process network dbNow) hostInfoID =
      updateSystemInfo (rowsOfHost rows hostInfoID) existingID cpu memory process network dbNow := by
  unfold rowsOfHost updateSystemInfo
  induction rows with
  | nil => rfl
  | cons a rest ih =>
    by_cases hid : a.id = existingID <;> by_cases hh : a.host_info_id = some hostInfoID <;>
      simp [List.filter_cons, hid, hh, ih]

theorem ids_updateSystemInfo (rows : List SystemInfoRow) (existingID : Int)
    (cpu memory process network : Json) (dbNow : Int) :
    (updateSystemInfo rows existingID cpu memory process network dbNow).map (fun r => r.id) =
      rows.map fun r => r.id := by
  unfold updateSystemInfo
  rw [List.map_map]
  apply List.map_congr_left
  intro x _
  by_cases h : x.id = existingID <;> simp [h]

theorem split_ids_of_nodup {pre post : List SystemInfoRow} {r : SystemInfoRow}
    (h : ((pre ++ r :: post).map fun x => x.id).Nodup) :
    (∀ x ∈ pre, x.id ≠ r.id) ∧ (∀ x ∈ post, x.id ≠ r.id) := by
  rw [List.map_append, List.map_cons, List.nodup_append] at h
  obtain ⟨_, h2, h3⟩ := h
  rw [List.nodup_cons] at h2
  constructor
  · intro x hx heq
    exact h3 (List.mem_map_of_mem _ hx) (by rw [heq]; exact List.mem_cons_self _ _)
  · intro x hx heq
    exact h2.1 (by rw [← heq]; exact List.mem_map_of_mem _ hx)

theorem mem_rowsOfHost {rows : List SystemInfoRow} {hostInfoID : Int} {r : SystemInfoRow} :
    r ∈ rowsOfHost rows hostInfoID ↔ r ∈ rows ∧ r.host_info_id = some hostInfoID := by
  simp [rowsOfHost, List.mem_filter]

/-! ## The series codec round trip -/

theorem unmarshalData_marshalData {α : Type} (c : PayloadCodec α) (hc : c.Lawful)
    (d : TimedData α) (j : Json) (h : marshalData c d = some j) : unmarshalData c j = some d := by
  unfold marshalData at h
  cases hm : c.marshal d.Data with
  | none => simp [hm] at h
  | some v =>
    simp only [hm, Option.map_some', Option.some.injEq] at h
    subst h
    have h1 : foldKey "time" = "time".data := by decide
    have h2 : ¬ foldKey "data" = "time".data := by decide
    have h3 : foldKey "data" = "data".data := by decide
    simp [unmarshalData, setFields, setField, h1, h2, h3, hc d.Data v hm]

theorem unmarshalAll_marshalAll {α : Type} (c : PayloadCodec α) (hc : c.Lawful)
    (ds : List (TimedData α)) (js : List Json) (h : marshalAll c ds = some js) :
    unmarshalAll c js = some ds := by
  induction ds generalizing js with
  | nil =>
    simp only [marshalAll, Option.some.injEq] at h
    subst h
    rfl
  | cons d rest ih =>
    simp only [marshalAll] at h
    cases hd : marshalData c d with
    | none => simp [hd] at h
    | some j =>
      cases hr : marshalAll c rest with
      | none => simp [hd, hr] at h
      | some js' =>
        simp only [hd, hr, Option.some.injEq] at h
        subst h
        simp [unmarshalAll, unmarshalData_marshalData c hc d j hd, ih js' hr]

theorem unmarshalSeries_marshalSeries {α : Type} (c : PayloadCodec α) (hc : c.Lawful)
    (ds : List (TimedData α)) (j : Json) (h : marshalSeries c ds = some j) :
    unmarshalSeries c (some j) = some ds := by
  unfold marshalSeries at h
  cases hm : marshalAll c ds with
  | none => simp [hm] at h
  | some js =>
    simp only [hm, Option.map_some', Option.some.injEq] at h
    subst h
    exact unmarshalAll_marshalAll c hc ds js hm

theorem marshalSeries_isSome {α : Type} (c : PayloadCodec α) (hc : ∀ x, (c.marshal x).isSome)
    (ds : List (TimedData α)) : ∃ j, marshalSeries c ds = some j := by
  have hall : ∃ js, marshalAll c ds = some js := by
    induction ds with
    | nil => exact ⟨[], rfl⟩
    | cons d rest ih =>
      obtain ⟨js, hjs⟩ := ih
      obtain ⟨v, hv⟩ := Option.isSome_iff_exists.mp (hc d.Data)
      exact ⟨.obj [("time", .str d.Time), ("data", v)] :: js,
        by simp [marshalAll, marshalData, hv, hjs]⟩
  obtain ⟨js, hjs⟩ := hall
  exact ⟨.arr js, by simp [marshalSeries, hjs]⟩

/-! ## The one row a call changes -/

/-- C3. A successful `InsertSystemInfo`, on a store whose `system_info` ids form a
primary key, leaves the other tables and their sequences alone and changes one
series row.
* When the host id has rows, the row `r` that the query selects (a row of that
  host with the greatest `created_at`) is rewritten in place: its four columns
  become the encodings `j1 .. j4` of the series decoded from `r` with the new
  record appended, its `created_at` becomes the time of the write, and its id,
  host id and hostname stay.  Every row before and after it is kept, the sequence
  is not advanced and the host keeps its number of rows; with lawful codecs the
  rewritten row differs from `r`.
* When it has none, one row is appended: its id is the next value of the
  sequence, its host id the given one, its hostname unset, its columns the
  encodings of the one-record series, and it is the host's only row. -/
theorem InsertSystemInfo_changes_one_row (P : Payloads) (db db' : Store) (hostInfoID : Int)
    (cpuInfo : P.CPUInfo) (memoryInfo : P.MemoryInfo) (processInfo : P.ProcessInfo)
    (networkInfo : P.NetworkInfo) (currentTime : String) (dbNow : Int)
    (hkey : db.SystemInfoKeyed)
    (hcall : InsertSystemInfo P db hostInfoID cpuInfo memoryInfo processInfo networkInfo
        currentTime dbNow = (none, db')) :
    db'.host_info = db.host_info ∧ db'.host_info_seq = db.host_info_seq ∧
    db'.hostandtoken = db.hostandtoken ∧ db'.hostandtoken_seq = db.hostandtoken_seq ∧
    (rowsOfHost db.system_info hostInfoID ≠ [] →
      ∃ pre r post a1 a2 a3 a4 j1 j2 j3 j4,
        latestRow (rowsOfHost db.system_info hostInfoID) = some r ∧
        r.host_info_id = some hostInfoID ∧
        (∀ x ∈ rowsOfHost db.system_info hostInfoID, x.created_at ≤ r.created_at) ∧
        unmarshalSeries P.cpu r.cpu_info = some a1 ∧
        unmarshalSeries P.memory r.memory_info = some a2 ∧
        unmarshalSeries P.process r.process_info = some a3 ∧
        unmarshalSeries P.network r.network_info = some a4 ∧
        marshalSeries P.cpu (a1 ++ [⟨currentTime, cpuInfo⟩]) = some j1 ∧
        marshalSeries P.memory (a2 ++ [⟨currentTime, memoryInfo⟩]) = some j2 ∧
        marshalSeries P.process (a3 ++ [⟨currentTime, processInfo⟩]) = some j3 ∧
        marshalSeries P.network (a4 ++ [⟨currentTime, networkInfo⟩]) = some j4 ∧
        db.system_info = pre ++ r :: post ∧
        db'.system_info =
          pre ++ { r with cpu_info := some j1, memory_info := some j2, process_info := some j3,
                          network_info := some j4, created_at := dbNow } :: post ∧
        db'.system_info_seq = db.system_info_seq ∧
        (rowsOfHost db'.system_info hostInfoID).length =
          (rowsOfHost db.system_info hostInfoID).length ∧
        (P.Lawful →
          { r with cpu_info := some j1, memory_info := some j2, process_info := some j3,
                   network_info := some j4, created_at := dbNow } ≠ r)) ∧
    (rowsOfHost db.system_info hostInfoID = [] →
      ∃ j1 j2 j3 j4,
        marshalSeries P.cpu [⟨currentTime, cpuInfo⟩] = some j1 ∧
        marshalSeries P.memory [⟨currentTime, memoryInfo⟩] = some j2 ∧
        marshalSeries P.process [⟨currentTime, processInfo⟩] = some j3 ∧
        marshalSeries P.network [⟨currentTime, networkInfo⟩] = some j4 ∧
        db'.system_info = db.system_info ++
          [⟨db.system_info_seq, some hostInfoID, none, some j1, some j2, some j3, some j4, dbNow⟩] ∧
        db'.system_info_seq = db.system_info_seq + 1 ∧
        rowsOfHost db'.system_info hostInfoID =
          [⟨db.system_info_seq, some hostInfoID, none, some j1, some j2, some j3, some j4,
            dbNow⟩]) := by
  have hok : (InsertSystemInfo P db hostInfoID cpuInfo memoryInfo processInfo networkInfo
      currentTime dbNow).1 = none := by rw [hcall]
  have hdb : (InsertSystemInfo P db hostInfoID cpuInfo memoryInfo processInfo networkInfo
      currentTime dbNow).2 = db' := by rw [hcall]
  cases hfound : latestRow (rowsOfHost db.system_info hostInfoID) with
  | none =>
    obtain ⟨j1, j2, j3, j4, g1, g2, g3, g4, h2⟩ := InsertSystemInfo_absent_inv P db hostInfoID
      cpuInfo memoryInfo processInfo networkInfo currentTime dbNow hfound hok
    rw [hdb] at h2
    have hnil := latestRow_eq_none.mp hfound
    subst h2
    refine ⟨rfl, rfl, rfl, rfl, fun h => absurd hnil h,
      fun _ => ⟨j1, j2, j3, j4, g1, g2, g3, g4, rfl, rfl, ?_⟩⟩
    show rowsOfHost (db.system_info ++ _) hostInfoID = _
    unfold rowsOfHost at hnil ⊢
    rw [List.filter_append, hnil]
    simp
  | some r =>
    have hmem := mem_rowsOfHost.mp (latestRow_mem hfound)
    have hid := (hkey.2.2 r hmem.1).1
    obtain ⟨a1, a2, a3, a4, j1, j2, j3, j4, h1, h2', h3, h4, g1, g2, g3, g4, h2⟩ :=
      InsertSystemInfo_found_inv P db hostInfoID cpuInfo memoryInfo processInfo networkInfo
        currentTime dbNow r hfound hid hok
    rw [hdb] at h2
    subst h2
    refine ⟨rfl, rfl, rfl, rfl, fun _ => ?_, fun h => ?_⟩
    · obtain ⟨pre, post, hl⟩ := List.append_of_mem hmem.1
      have hnd := hkey.1
      rw [hl] at hnd
      obtain ⟨hpre, hpost⟩ := split_ids_of_nodup hnd
      have heq := updateSystemInfo_split pre post r j1 j2 j3 j4 dbNow hpre hpost
      rw [← hl] at heq
      have hlen : (rowsOfHost (updateSystemInfo db.system_info r.id j1 j2 j3 j4 dbNow)
          hostInfoID).length = (rowsOfHost db.system_info hostInfoID).length := by
        rw [rowsOfHost_updateSystemInfo]
        simp [updateSystemInfo]
      have hne : P.Lawful →
          ({ r with cpu_info := some j1, memory_info := some j2, process_info := some j3,
                    network_info := some j4, created_at := dbNow } : SystemInfoRow) ≠ r := by
        intro hP hsame
        have hcol : some j1 = r.cpu_info := congrArg SystemInfoRow.cpu_info hsame
        have hdec := unmarshalSeries_marshalSeries P.cpu hP.1 _ j1 g1
        rw [hcol, h1] at hdec
        have hlen2 := congrArg List.length (Option.some.inj hdec)
        simp at hlen2
      exact ⟨pre, r, post, a1, a2, a3, a4, j1, j2, j3, j4, rfl, hmem.2, latestRow_max hfound,
        h1, h2', h3, h4, g1, g2, g3, g4, hl, heq, rfl, hlen, hne⟩
    · rw [h] at hfound
      simp [latestRow] at hfound

/-! ## One append, then many -/

theorem decodedSeries_found {P : Payloads} {db : Store} {hostInfoID : Int} {r : SystemInfoRow}
    (hfound : latestRow (rowsOfHost db.system_info hostInfoID) = some r)
    {s1 s2 s3 s4} (hdec : decodedSeries P db hostInfoID = some (s1, s2, s3, s4)) :
    unmarshalSeries P.cpu r.cpu_info = some s1 ∧ unmarshalSeries P.memory r.memory_info = some s2 ∧
    unmarshalSeries P.process r.process_info = some s3 ∧
    unmarshalSeries P.network r.network_info = some s4 := by
  unfold decodedSeries at hdec
  simp only [hfound] at hdec
  split at hdec
  · next h1 h2 h3 h4 =>
    simp only [Option.some.injEq, Prod.mk.injEq] at hdec
    obtain ⟨rfl, rfl, rfl, rfl⟩ := hdec
    exact ⟨h1, h2, h3, h4⟩
  · cases hdec

theorem decodedSeries_of_latest {P : Payloads} {db : Store} {hostInfoID : Int} {r : SystemInfoRow}
    (hfound : latestRow (rowsOfHost db.system_info hostInfoID) = some r)
    {s1 s2 s3 s4} (h1 : unmarshalSeries P.cpu r.cpu_info = some s1)
    (h2 : unmarshalSeries P.memory r.memory_info = some s2)
    (h3 : unmarshalSeries P.process r.process_info = some s3)
    (h4 : unmarshalSeries P.network r.network_info = some s4) :
    decodedSeries P db hostInfoID = some (s1, s2, s3, s4) := by
  unfold decodedSeries
  simp [hfound, h1, h2, h3, h4]

theorem InsertSystemInfo_step (P : Payloads) (hP : P.Lawful) (db db' : Store) (hostInfoID : Int)
    (sub : Submission P) (s1 : List (CPUData P)) (s2 : List (MemoryData P))
    (s3 : List (ProcessData P)) (s4 : List (NetworkData P))
    (hkey : db.SystemInfoKeyed)
    (hclock : ∀ r ∈ rowsOfHost db.system_info hostInfoID, r.created_at ≤ sub.dbNow)
    (hdec : decodedSeries P db hostInfoID = some (s1, s2, s3, s4))
    (hcall : InsertSystemInfo P db hostInfoID sub.cpuInfo sub.memoryInfo sub.processInfo
        sub.networkInfo sub.currentTime sub.dbNow = (none, db')) :
    db'.SystemInfoKeyed ∧
    (∀ r ∈ rowsOfHost db'.system_info hostInfoID, r.created_at ≤ sub.dbNow) ∧
    decodedSeries P db' hostInfoID =
      some (s1 ++ [⟨sub.currentTime, sub.cpuInfo⟩], s2 ++ [⟨sub.currentTime, sub.memoryInfo⟩],
            s3 ++ [⟨sub.currentTime, sub.processInfo⟩],
            s4 ++ [⟨sub.currentTime, sub.networkInfo⟩]) := by
  have hok : (InsertSystemInfo P db hostInfoID sub.cpuInfo sub.memoryInfo sub.processInfo
      sub.networkInfo sub.currentTime sub.dbNow).1 = none := by rw [hcall]
  have hdb : (InsertSystemInfo P db hostInfoID sub.cpuInfo sub.memoryInfo sub.processInfo
      sub.networkInfo sub.currentTime sub.dbNow).2 = db' := by rw [hcall]
  obtain ⟨hnd, hseq, hids⟩ := hkey
  cases hfound : latestRow (rowsOfHost db.system_info hostInfoID) with
  | none =>
    obtain ⟨j1, j2, j3, j4, g1, g2, g3, g4, h2⟩ := InsertSystemInfo_absent_inv P db hostInfoID
      sub.cpuInfo sub.memoryInfo sub.processInfo sub.networkInfo sub.currentTime sub.dbNow
      hfound hok
    rw [hdb] at h2
    have hnil := latestRow_eq_none.mp hfound
    have hs : s1 = [] ∧ s2 = [] ∧ s3 = [] ∧ s4 = [] := by
      unfold decodedSeries at hdec
      simp only [hfound, Option.some.injEq, Prod.mk.injEq] at hdec
      obtain ⟨rfl, rfl, rfl, rfl⟩ := hdec
      exact ⟨rfl, rfl, rfl, rfl⟩
    obtain ⟨rfl, rfl, rfl, rfl⟩ := hs
    have hrows : rowsOfHost db'.system_info hostInfoID =
        [{ id := db.system_info_seq, host_info_id := some hostInfoID, hostname := none,
           cpu_info := some j1, memory_info := some j2, process_info := some j3,
           network_info := some j4, created_at := sub.dbNow }] := by
      subst h2
      show rowsOfHost (db.system_info ++ _) hostInfoID = _
      unfold rowsOfHost at hnil ⊢
      rw [List.filter_append, hnil]
      simp
    refine ⟨?_, ?_, ?_⟩
    · subst h2
      refine ⟨?_, ?_, ?_⟩
      · show ((db.system_info ++ _).map fun r => r.id).Nodup
        rw [List.map_append, List.nodup_append]
        refine ⟨hnd, by simp, ?_⟩
        intro a ha hb
        simp only [List.map_cons, List.map_nil, List.mem_singleton] at hb
        obtain ⟨x, hx, rfl⟩ := List.mem_map.mp ha
        have := (hids x hx).2
        omega
      · show 0 < db.system_info_seq + 1
        omega
      · intro r hr
        have hr' : r ∈ db.system_info ++ _ := hr
        rcases List.mem_append.mp hr' with h | h
        · have := hids r h
          exact ⟨this.1, by show r.id < db.system_info_seq + 1; omega⟩
        · simp only [List.mem_singleton] at h
          subst h
          exact ⟨hseq, by show db.system_info_seq < db.system_info_seq + 1; omega⟩
    · intro r hr
      rw [hrows, List.mem_singleton] at hr
      subst hr
      exact le_refl _
    · exact decodedSeries_of_latest ((congrArg latestRow hrows).trans rfl)
        (unmarshalSeries_marshalSeries P.cpu hP.1 _ _ g1)
        (unmarshalSeries_marshalSeries P.memory hP.2.1 _ _ g2)
        (unmarshalSeries_marshalSeries P.process hP.2.2.1 _ _ g3)
        (unmarshalSeries_marshalSeries P.network hP.2.2.2 _ _ g4)
  | some r =>
    have hmem := mem_rowsOfHost.mp (latestRow_mem hfound)
    have hid := (hids r hmem.1).1
    obtain ⟨a1, a2, a3, a4, j1, j2, j3, j4, u1, u2, u3, u4, g1, g2, g3, g4, h2⟩ :=
      InsertSystemInfo_found_inv P db hostInfoID sub.cpuInfo sub.memoryInfo sub.processInfo
        sub.networkInfo sub.currentTime sub.dbNow r hfound hid hok
    rw [hdb] at h2
    obtain ⟨d1, d2, d3, d4⟩ := decodedSeries_found hfound hdec
    rw [u1] at d1; rw [u2] at d2; rw [u3] at d3; rw [u4] at d4
    simp only [Option.some.injEq] at d1 d2 d3 d4
    subst d1 d2 d3 d4
    obtain ⟨pre, post, hl, hpre, hpost⟩ := latestRow_split hfound
    have hsub : ((rowsOfHost db.system_info hostInfoID).map fun x => x.id).Nodup := by
      refine List.Nodup.sublist ?_ hnd
      exact List.Sublist.map _ (List.filter_sublist _)
    rw [hl] at hsub
    obtain ⟨ipre, ipost⟩ := split_ids_of_nodup hsub
    have hrows : rowsOfHost db'.system_info hostInfoID =
        pre ++ { r with cpu_info := some j1, memory_info := some j2, process_info := some j3,
                        network_info := some j4, created_at := sub.dbNow } :: post := by
      subst h2
      show rowsOfHost (updateSystemInfo db.system_info r.id j1 j2 j3 j4 sub.dbNow) hostInfoID = _
      rw [rowsOfHost_updateSystemInfo, hl]
      exact updateSystemInfo_split pre post r j1 j2 j3 j4 sub.dbNow ipre ipost
    have hr := hclock r (latestRow_mem hfound)
    refine ⟨?_, ?_, ?_⟩
    · subst h2
      have hidl := ids_updateSystemInfo db.system_info r.id j1 j2 j3 j4 sub.dbNow
      refine ⟨?_, hseq, ?_⟩
      · show ((updateSystemInfo db.system_info r.id j1 j2 j3 j4 sub.dbNow).map fun r => r.id).Nodup
        rw [hidl]; exact hnd
      · intro x hx
        have hx' : x.id ∈ (updateSystemInfo db.system_info r.id j1 j2 j3 j4 sub.dbNow).map
            fun r => r.id := List.mem_map_of_mem _ hx
        rw [hidl] at hx'
        obtain ⟨y, hy, hyx⟩ := List.mem_map.mp hx'
        have := hids y hy
        rw [← hyx]
        exact this
    · intro x hx
      rw [hrows] at hx
      rcases List.mem_append.mp hx with h | h
      · have := hpre x h; omega
      · rcases List.mem_cons.mp h with h | h
        · subst h; exact le_refl _
        · have := hpost x h; omega
    · have hlat := latestRow_of_split pre post
        ⟨r.id, r.host_info_id, r.hostname, some j1, some j2, some j3, some j4, sub.dbNow⟩
        (show ∀ x ∈ pre, x.created_at < sub.dbNow from fun x hx => by
          have := hpre x hx
          omega)
        (show ∀ x ∈ post, x.created_at ≤ sub.dbNow from fun x hx => by
          have := hpost x hx
          omega)
      rw [← hrows] at hlat
      exact decodedSeries_of_latest hlat
        (unmarshalSeries_marshalSeries P.cpu hP.1 _ _ g1)
        (unmarshalSeries_marshalSeries P.memory hP.2.1 _ _ g2)
        (unmarshalSeries_marshalSeries P.process hP.2.2.1 _ _ g3)
        (unmarshalSeries_marshalSeries P.network hP.2.2.2 _ _ g4)

theorem InsertSystemInfo_succeeds (P : Payloads) (hM : P.MarshalTotal) (db : Store)
    (hostInfoID : Int) (sub : Submission P) (hkey : db.SystemInfoKeyed)
    {s1 s2 s3 s4} (hdec : decodedSeries P db hostInfoID = some (s1, s2, s3, s4)) :
    ∃ db', InsertSystemInfo P db hostInfoID sub.cpuInfo sub.memoryInfo sub.processInfo
        sub.networkInfo sub.currentTime sub.dbNow = (none, db') := by
  cases hfound : latestRow (rowsOfHost db.system_info hostInfoID) with
  | none =>
    obtain ⟨j1, g1⟩ := marshalSeries_isSome P.cpu hM.1 [⟨sub.currentTime, sub.cpuInfo⟩]
    obtain ⟨j2, g2⟩ := marshalSeries_isSome P.memory hM.2.1 [⟨sub.currentTime, sub.memoryInfo⟩]
    obtain ⟨j3, g3⟩ := marshalSeries_isSome P.process hM.2.2.1 [⟨sub.currentTime, sub.processInfo⟩]
    obtain ⟨j4, g4⟩ := marshalSeries_isSome P.network hM.2.2.2 [⟨sub.currentTime, sub.networkInfo⟩]
    exact ⟨_, InsertSystemInfo_absent_ok P db hostInfoID _ _ _ _ _ _ hfound g1 g2 g3 g4⟩
  | some r =>
    have hmem := mem_rowsOfHost.mp (latestRow_mem hfound)
    have hid := (hkey.2.2 r hmem.1).1
    obtain ⟨d1, d2, d3, d4⟩ := decodedSeries_found hfound hdec
    obtain ⟨j1, g1⟩ := marshalSeries_isSome P.cpu hM.1 (s1 ++ [⟨sub.currentTime, sub.cpuInfo⟩])
    obtain ⟨j2, g2⟩ := marshalSeries_isSome P.memory hM.2.1
      (s2 ++ [⟨sub.currentTime, sub.memoryInfo⟩])
    obtain ⟨j3, g3⟩ := marshalSeries_isSome P.process hM.2.2.1
      (s3 ++ [⟨sub.currentTime, sub.processInfo⟩])
    obtain ⟨j4, g4⟩ := marshalSeries_isSome P.network hM.2.2.2
      (s4 ++ [⟨sub.currentTime, sub.networkInfo⟩])
    exact ⟨_, InsertSystemInfo_found_ok P db hostInfoID _ _ _ _ _ _ r hfound hid d1 d2 d3 d4
      g1 g2 g3 g4⟩

theorem ClockAdvances_head {P : Payloads} {db : Store} {hostInfoID : Int} {c : Submission P}
    {rest : List (Submission P)} (h : ClockAdvances db hostInfoID (c :: rest)) :
    ∀ r ∈ rowsOfHost db.system_info hostInfoID, r.created_at ≤ c.dbNow :=
  fun r hr => h.2 r hr c (List.mem_cons_self _ _)

theorem ClockAdvances_tail {P : Payloads} {db db1 : Store} {hostInfoID : Int} {c : Submission P}
    {rest : List (Submission P)} (h : ClockAdvances db hostInfoID (c :: rest))
    (h1 : ∀ r ∈ rowsOfHost db1.system_info hostInfoID, r.created_at ≤ c.dbNow) :
    ClockAdvances db1 hostInfoID rest := by
  obtain ⟨hp, _⟩ := h
  rw [List.map_cons, List.pairwise_cons] at hp
  refine ⟨hp.2, ?_⟩
  intro r hr s hs
  have := h1 r hr
  have := hp.1 s.dbNow (List.mem_map_of_mem _ hs)
  omega

theorem insertAll_decoded (P : Payloads) (hP : P.Lawful) (hostInfoID : Int)
    (calls : List (Submission P)) :
    ∀ (db db' : Store) (s1 : List (CPUData P)) (s2 : List (MemoryData P))
      (s3 : List (ProcessData P)) (s4 : List (NetworkData P)),
      db.SystemInfoKeyed → ClockAdvances db hostInfoID calls →
      decodedSeries P db hostInfoID = some (s1, s2, s3, s4) →
      insertAll P hostInfoID db calls = some db' →
      decodedSeries P db' hostInfoID =
        some (s1 ++ (appended P calls).1, s2 ++ (appended P calls).2.1,
              s3 ++ (appended P calls).2.2.1, s4 ++ (appended P calls).2.2.2) := by
  induction calls with
  | nil =>
    intro db db' s1 s2 s3 s4 _ _ hdec hrun
    simp only [insertAll, Option.some.injEq] at hrun
    subst hrun
    simpa [appended] using hdec
  | cons c rest ih =>
    intro db db' s1 s2 s3 s4 hkey hclock hdec hrun
    simp only [insertAll] at hrun
    cases hcall : InsertSystemInfo P db hostInfoID c.cpuInfo c.memoryInfo c.processInfo
        c.networkInfo c.currentTime c.dbNow with
    | mk e db1 =>
      rw [hcall] at hrun
      cases e with
      | some msg => simp at hrun
      | none =>
        simp only at hrun
        obtain ⟨hkey1, hclock1, hdec1⟩ := InsertSystemInfo_step P hP db db1 hostInfoID c
          s1 s2 s3 s4 hkey (ClockAdvances_head hclock) hdec hcall
        have := ih db1 db' _ _ _ _ hkey1 (ClockAdvances_tail hclock hclock1) hdec1 hrun
        simpa [appended, List.append_assoc] using this

theorem insertAll_succeeds (P : Payloads) (hP : P.Lawful) (hM : P.MarshalTotal)
    (hostInfoID : Int) (calls : List (Submission P)) :
    ∀ (db : Store) (s1 : List (CPUData P)) (s2 : List (MemoryData P))
      (s3 : List (ProcessData P)) (s4 : List (NetworkData P)),
      db.SystemInfoKeyed → ClockAdvances db hostInfoID calls →
      decodedSeries P db hostInfoID = some (s1, s2, s3, s4) →
      ∃ db', insertAll P hostInfoID db calls = some db' := by
  induction calls with
  | nil => intro db _ _ _ _ _ _ _; exact ⟨db, rfl⟩
  | cons c rest ih =>
    intro db s1 s2 s3 s4 hkey hclock hdec
    obtain ⟨db1, hcall⟩ := InsertSystemInfo_succeeds P hM db hostInfoID c hkey hdec
    obtain ⟨hkey1, hclock1, hdec1⟩ := InsertSystemInfo_step P hP db db1 hostInfoID c
      s1 s2 s3 s4 hkey (ClockAdvances_head hclock) hdec hcall
    obtain ⟨db', h⟩ := ih db1 _ _ _ _ hkey1 (ClockAdvances_tail hclock hclock1) hdec1
    exact ⟨db', by simp only [insertAll, hcall]; exact h⟩

/-- C1. Append-only growth.  Take lawful reading codecs, a store whose
`system_info` ids form a primary key, a host id whose latest row decodes to
`s1, s2, s3, s4` (all empty when the host has no row), and calls whose store
timestamps do not run backwards.  If the `N` calls of `calls` all succeed, then
each series decoded from the host's latest row is the old series followed by the
`N` new records, the i-th being the reading of call i with the capture time of
call i, whatever the capture times are; starting from no row, each series is just
those `N` records.  When every reading marshals, the calls do all succeed. -/
theorem insertAll_appends_in_call_order (P : Payloads) (hP : P.Lawful) (hostInfoID : Int)
    (calls : List (Submission P)) (db : Store) (s1 : List (CPUData P))
    (s2 : List (MemoryData P)) (s3 : List (ProcessData P)) (s4 : List (NetworkData P))
    (hkey : db.SystemInfoKeyed) (hclock : ClockAdvances db hostInfoID calls)
    (hdec : decodedSeries P db hostInfoID = some (s1, s2, s3, s4)) :
    (P.MarshalTotal → ∃ db', insertAll P hostInfoID db calls = some db') ∧
    ∀ db', insertAll P hostInfoID db calls = some db' →
      decodedSeries P db' hostInfoID =
        some (s1 ++ calls.map (fun s => ⟨s.currentTime, s.cpuInfo⟩),
              s2 ++ calls.map (fun s => ⟨s.currentTime, s.memoryInfo⟩),
              s3 ++ calls.map (fun s => ⟨s.currentTime, s.processInfo⟩),
              s4 ++ calls.map (fun s => ⟨s.currentTime, s.networkInfo⟩)) ∧
      (rowsOfHost db.system_info hostInfoID = [] →
        decodedSeries P db' hostInfoID = some (appended P calls) ∧
        (appended P calls).1.length = calls.length ∧
        (appended P calls).2.1.length = calls.length ∧
        (appended P calls).2.2.1.length = calls.length ∧
        (appended P calls).2.2.2.length = calls.length) := by
  refine ⟨fun hM => insertAll_succeeds P hP hM hostInfoID calls db s1 s2 s3 s4 hkey hclock hdec,
    fun db' hrun => ?_⟩
  have h := insertAll_decoded P hP hostInfoID calls db db' s1 s2 s3 s4 hkey hclock hdec hrun
  refine ⟨h, fun hnil => ?_⟩
  have hs : s1 = [] ∧ s2 = [] ∧ s3 = [] ∧ s4 = [] := by
    have hl := latestRow_eq_none.mpr hnil
    unfold decodedSeries at hdec
    simp only [hl, Option.some.injEq, Prod.mk.injEq] at hdec
    obtain ⟨rfl, rfl, rfl, rfl⟩ := hdec
    exact ⟨rfl, rfl, rfl, rfl⟩
  obtain ⟨rfl, rfl, rfl, rfl⟩ := hs
  refine ⟨?_, ?_, ?_, ?_, ?_⟩
  · simpa using h
  all_goals simp [appended]

/-! ## The readers -/

theorem inWindow_eq (u f t : Int) : inWindow u f t = decide (f ≤ u ∧ u < t) := by
  unfold inWindow
  by_cases h1 : u = f <;> by_cases h2 : u > f <;> by_cases h3 : u < t <;>
    simp [h1, h2, h3] <;> omega

theorem filterRecords_ok (parse : String → Option Int) (from_ to_ : String) (f t : Int)
    (hf : parse from_ = some f) (ht : parse to_ = some t) (infos : List Json) :
    ∀ acc : List Json, wellTimed parse infos = true →
      filterRecords parse from_ to_ acc infos = .ok (acc ++ infos.filter (inRange parse f t)) := by
  induction infos with
  | nil => intro acc _; simp [filterRecords]
  | cons info rest ih =>
    intro acc hwf
    simp only [wellTimed, List.all_cons, Bool.and_eq_true] at hwf
    obtain ⟨hinfo, hrest⟩ := hwf
    cases hs : info.getString "updated_at" with
    | none =>
      simp [filterRecords, hs, ih acc hrest, List.filter_cons, inRange, captureTime]
    | some s =>
      rw [hs] at hinfo
      obtain ⟨u, hu⟩ := Option.isSome_iff_exists.mp hinfo
      by_cases hw : f ≤ u ∧ u < t
      · have hin : inWindow u f t = true := by rw [inWindow_eq]; exact decide_eq_true hw
        simp [filterRecords, hs, hu, hf, ht, hin, ih (acc ++ [info]) hrest, List.filter_cons,
          inRange, captureTime, hw]
      · have hin : inWindow u f t = false := by rw [inWindow_eq]; exact decide_eq_false hw
        simp [filterRecords, hs, hu, hf, ht, hin, ih acc hrest, List.filter_cons,
          inRange, captureTime, hw]

theorem readRows_ok (parse : String → Option Int) (float64 : ToFloat64)
    (column : SystemInfoRow → Option Json) (from_ to_ : String) (f t : Int)
    (hf : parse from_ = some f) (ht : parse to_ = some t) (rows : List SystemInfoRow) :
    ∀ acc : List Json, readable parse float64 column rows = true →
      readRows parse float64 column from_ to_ acc rows =
        .ok (acc ++ (decodedRecords float64 column rows).filter (inRange parse f t)) := by
  induction rows with
  | nil => intro acc _; simp [readRows, decodedRecords]
  | cons row rest ih =>
    intro acc hwf
    simp only [readable, List.all_cons, Bool.and_eq_true] at hwf
    obtain ⟨hrow, hrest⟩ := hwf
    cases hdec : unmarshalMaps float64 (column row) with
    | none => simp [hdec] at hrow
    | some infos =>
      rw [hdec] at hrow
      simp [readRows, hdec, filterRecords_ok parse from_ to_ f t hf ht infos acc hrow,
        ih _ hrest, decodedRecords, List.filter_append]

theorem wellTimed_of_filterRecords_ok (parse : String → Option Int) (from_ to_ : String)
    (infos : List Json) :
    ∀ acc xs : List Json, filterRecords parse from_ to_ acc infos = .ok xs →
      wellTimed parse infos = true := by
  induction infos with
  | nil => intro acc xs _; rfl
  | cons info rest ih =>
    intro acc xs h
    simp only [wellTimed, List.all_cons, Bool.and_eq_true]
    cases hs : info.getString "updated_at" with
    | none =>
      simp only [filterRecords, hs] at h
      exact ⟨rfl, ih acc xs h⟩
    | some s =>
      cases hu : parse s with
      | none => simp [filterRecords, hs, hu] at h
      | some u =>
        cases hf : parse from_ with
        | none => simp [filterRecords, hs, hu, hf] at h
        | some f =>
          cases ht : parse to_ with
          | none => simp [filterRecords, hs, hu, hf, ht] at h
          | some t =>
            simp only [filterRecords, hs, hu, hf, ht] at h
            refine ⟨by simp [hu], ?_⟩
            by_cases hw : inWindow u f t = true
            · rw [if_pos hw] at h
              exact ih _ xs h
            · rw [if_neg hw] at h
              exact ih _ xs h

theorem readable_of_readRows_ok (parse : String → Option Int) (float64 : ToFloat64)
    (column : SystemInfoRow → Option Json) (from_ to_ : String) (rows : List SystemInfoRow) :
    ∀ acc xs : List Json, readRows parse float64 column from_ to_ acc rows = .ok xs →
      readable parse float64 column rows = true := by
  induction rows with
  | nil => intro acc xs _; rfl
  | cons row rest ih =>
    intro acc xs h
    simp only [readable, List.all_cons, Bool.and_eq_true]
    cases hdec : unmarshalMaps float64 (column row) with
    | none => simp [readRows, hdec] at h
    | some infos =>
      cases hfr : filterRecords parse from_ to_ acc infos with
      | error e => simp [readRows, hdec, hfr] at h
      | ok acc' =>
        simp only [readRows, hdec, hfr] at h
        exact ⟨wellTimed_of_filterRecords_ok parse from_ to_ infos acc acc' hfr, ih acc' xs h⟩

theorem decodeValue_str_iff (float64 : ToFloat64) {v v' : Json}
    (h : decodeValue float64 v = some v') (s : String) : v' = .str s ↔ v = .str s := by
  cases v with
  | null => simp [decodeValue] at h; subst h; simp
  | bool b => simp [decodeValue] at h; subst h; simp
  | num m e =>
    simp only [decodeValue] at h
    cases hf : float64 m e with
    | none => simp [hf] at h
    | some p => simp [hf] at h; subst h; simp
  | str s' => simp [decodeValue] at h; subst h; simp
  | arr items =>
    simp only [decodeValue] at h
    cases hd : decodeValues float64 items with
    | none => simp [hd] at h
    | some items' => simp [hd] at h; subst h; simp
  | obj members =>
    simp only [decodeValue] at h
    cases hd : decodeMembers float64 members with
    | none => simp [hd] at h
    | some members' => simp [hd] at h; subst h; simp

theorem lookupLast_decodeMembers (float64 : ToFloat64) (k : String) :
    ∀ ms ms' : List (String × Json), decodeMembers float64 ms = some ms' →
      (lookupLast k ms = none → lookupLast k ms' = none) ∧
      (∀ v, lookupLast k ms = some v →
        ∃ v', decodeValue float64 v = some v' ∧ lookupLast k ms' = some v') := by
  intro ms
  induction ms with
  | nil =>
    intro ms' h
    simp [decodeMembers] at h
    subst h
    simp [lookupLast]
  | cons p rest ih =>
    intro ms' h
    obtain ⟨k0, j⟩ := p
    simp only [decodeMembers] at h
    cases hj : decodeValue float64 j with
    | none => simp [hj] at h
    | some j' =>
      cases hr : decodeMembers float64 rest with
      | none => simp [hj, hr] at h
      | some rest' =>
        simp only [hj, hr, Option.some.injEq] at h
        subst h
        obtain ⟨ih1, ih2⟩ := ih rest' hr
        cases hl : lookupLast k rest with
        | none =>
          have hl' := ih1 hl
          by_cases hk : k0 = k
          · simp [lookupLast, hl, hl', hk, hj]
          · simp [lookupLast, hl, hl', hk]
        | some w =>
          obtain ⟨w', hw, hl'⟩ := ih2 w hl
          simp [lookupLast, hl, hl', hw]

theorem getString_decodeMap (float64 : ToFloat64) {j j' : Json}
    (h : decodeMap float64 j = some j') (k : String) : j'.getString k = j.getString k := by
  cases j with
  | null => simp [decodeMap] at h; subst h; rfl
  | bool b => simp [decodeMap] at h
  | num m e => simp [decodeMap] at h
  | str s => simp [decodeMap] at h
  | arr items => simp [decodeMap] at h
  | obj members =>
    simp only [decodeMap] at h
    cases hd : decodeMembers float64 members with
    | none => simp [hd] at h
    | some members' =>
      simp only [hd, Option.some.injEq] at h
      subst h
      obtain ⟨h1, h2⟩ := lookupLast_decodeMembers float64 k members members' hd
      cases hl : lookupLast k members with
      | none => simp [Json.getString, hl, h1 hl]
      | some v =>
        obtain ⟨v', hv, hl'⟩ := h2 v hl
        have hiff := decodeValue_str_iff float64 hv
        simp only [Json.getString, hl, hl']
        cases v' with
        | str s => rw [(hiff s).mp rfl]
        | null | bool _ | num _ _ | arr _ | obj _ =>
          cases v with
          | str s => exact absurd ((hiff s).mpr rfl) (by simp)
          | null | bool _ | num _ _ | arr _ | obj _ => rfl

theorem captureTime_decodeMap (parse : String → Option Int) (float64 : ToFloat64) {j j' : Json}
    (h : decodeMap float64 j = some j') : captureTime parse j' = captureTime parse j := by
  simp only [captureTime, getString_decodeMap float64 h]

theorem decodeMaps_pointwise (float64 : ToFloat64) :
    ∀ items infos : List Json, decodeMaps float64 items = some infos →
      List.Forall₂ (fun j j' => decodeMap float64 j = some j') items infos := by
  intro items
  induction items with
  | nil =>
    intro infos h
    simp [decodeMaps] at h
    subst h
    exact List.Forall₂.nil
  | cons j rest ih =>
    intro infos h
    simp only [decodeMaps] at h
    cases hj : decodeMap float64 j with
    | none => simp [hj] at h
    | some j' =>
      cases hr : decodeMaps float64 rest with
      | none => simp [hj, hr] at h
      | some rest' =>
        simp only [hj, hr, Option.some.injEq] at h
        subst h
        exact List.Forall₂.cons hj (ih rest' hr)

/-- C4, as amended.  For well-formed `from` and `to` and selected rows that are
readable (each column decodes: it is JSON `null` or an array of objects and
`null`s holding no number outside the float64 range; each `updated_at` string is
a timestamp), each of the four readers succeeds and puts under its key exactly
the records, as decoded, whose capture time `u` satisfies `from ≤ u < to`, in
stored order; a reader succeeds on readable rows only.  A record captured exactly
at `from` is in the window when `from < to`; one captured exactly at `to` is not.
The decoded records of a stored array are its elements one by one, each with
every number replaced by its float64; decoding keeps every string of a record,
hence its capture time. -/
theorem readers_return_half_open_window (parse : String → Option Int) (float64 : ToFloat64)
    (db : Store) (hostname from_ to_ : String) (result : Bundle) (f t : Int)
    (hf : parse from_ = some f) (ht : parse to_ = some t) :
    (readable parse float64 (fun r => r.cpu_info) (rowsOfHostname db.system_info hostname) = true →
      ReadCPUInfo parse float64 db hostname from_ to_ result =
        (none, { result with cpu := some ((decodedRecords float64 (fun r => r.cpu_info)
          (rowsOfHostname db.system_info hostname)).filter (inRange parse f t)) })) ∧
    (readable parse float64 (fun r => r.memory_info)
        (rowsOfHostname db.system_info hostname) = true →
      ReadMemoryInfo parse float64 db hostname from_ to_ result =
        (none, { result with memory := some ((decodedRecords float64 (fun r => r.memory_info)
          (rowsOfHostname db.system_info hostname)).filter (inRange parse f t)) })) ∧
    (readable parse float64 (fun r => r.network_info)
        (rowsOfHostname db.system_info hostname) = true →
      ReadNetInfo parse float64 db hostname from_ to_ result =
        (none, { result with net := some ((decodedRecords float64 (fun r => r.network_info)
          (rowsOfHostname db.system_info hostname)).filter (inRange parse f t)) })) ∧
    (readable parse float64 (fun r => r.process_info)
        (rowsOfHostname db.system_info hostname) = true →
      ReadProcessInfo parse float64 db hostname from_ to_ result =
        (none, { result with process := some ((decodedRecords float64 (fun r => r.process_info)
          (rowsOfHostname db.system_info hostname)).filter (inRange parse f t)) })) ∧
    ((ReadCPUInfo parse float64 db hostname from_ to_ result).1 = none →
      readable parse float64 (fun r => r.cpu_info)
        (rowsOfHostname db.system_info hostname) = true) ∧
    ((ReadMemoryInfo parse float64 db hostname from_ to_ result).1 = none →
      readable parse float64 (fun r => r.memory_info)
        (rowsOfHostname db.system_info hostname) = true) ∧
    ((ReadNetInfo parse float64 db hostname from_ to_ result).1 = none →
      readable parse float64 (fun r => r.network_info)
        (rowsOfHostname db.system_info hostname) = true) ∧
    ((ReadProcessInfo parse float64 db hostname from_ to_ result).1 = none →
      readable parse float64 (fun r => r.process_info)
        (rowsOfHostname db.system_info hostname) = true) ∧
    (∀ info, captureTime parse info = some f → f < t → inRange parse f t info = true) ∧
    (∀ info, captureTime parse info = some t → inRange parse f t info = false) ∧
    (∀ items infos, unmarshalMaps float64 (some (.arr items)) = some infos →
      List.Forall₂ (fun j j' => decodeMap float64 j = some j') items infos) ∧
    (∀ j j', decodeMap float64 j = some j' →
      (∀ k, j'.getString k = j.getString k) ∧ captureTime parse j' = captureTime parse j) := by
  have hnec : ∀ (column : SystemInfoRow → Option Json) (g : List Json → Bundle),
      (match readRows parse float64 column from_ to_ []
          (rowsOfHostname db.system_info hostname) with
        | .error e => ((some e, result) : GoError × Bundle)
        | .ok xs => (none, g xs)).1 = none →
      readable parse float64 column (rowsOfHostname db.system_info hostname) = true := by
    intro column g h
    cases hr : readRows parse float64 column from_ to_ []
        (rowsOfHostname db.system_info hostname) with
    | error e => rw [hr] at h; cases h
    | ok xs => exact readable_of_readRows_ok parse float64 column from_ to_ _ [] xs hr
  refine ⟨fun h => ?_, fun h => ?_, fun h => ?_, fun h => ?_,
    fun h => hnec (fun r => r.cpu_info) (fun xs => { result with cpu := some xs }) h,
    fun h => hnec (fun r => r.memory_info) (fun xs => { result with memory := some xs }) h,
    fun h => hnec (fun r => r.network_info) (fun xs => { result with net := some xs }) h,
    fun h => hnec (fun r => r.process_info) (fun xs => { result with process := some xs }) h,
    ?_, ?_, ?_, ?_⟩
  · simp [ReadCPUInfo, readRows_ok parse float64 _ from_ to_ f t hf ht _ [] h]
  · simp [ReadMemoryInfo, readRows_ok parse float64 _ from_ to_ f t hf ht _ [] h]
  · simp [ReadNetInfo, readRows_ok parse float64 _ from_ to_ f t hf ht _ [] h]
  · simp [ReadProcessInfo, readRows_ok parse float64 _ from_ to_ f t hf ht _ [] h]
  · intro info hc hlt
    simp [inRange, hc, hlt]
  · intro info hc
    simp [inRange, hc]
  · intro items infos h
    exact decodeMaps_pointwise float64 items infos h
  · intro j j' h
    exact ⟨getString_decodeMap float64 h, captureTime_decodeMap parse float64 h⟩

/-! ## Evaluations on the sample stores -/

theorem samplePayloads_lawful : samplePayloads.Lawful := by
  have h : percentCodec.Lawful := by
    intro x j hj
    simp only [percentCodec, Option.some.injEq] at hj
    subst hj
    simp [percentCodec, lookupLast]
  exact ⟨h, h, h, h⟩

theorem samplePayloads_marshalTotal : samplePayloads.MarshalTotal :=
  ⟨fun _ => rfl, fun _ => rfl, fun _ => rfl, fun _ => rfl⟩

theorem insertAll_appends_in_call_order_witness :
    ∃ db', insertAll samplePayloads 7 Store.empty sampleCalls = some db' ∧
      decodedSeries samplePayloads db' 7 =
        some ([⟨sampleT1, 10⟩, ⟨sampleT1, 20⟩], [⟨sampleT1, 1⟩, ⟨sampleT1, 4⟩],
              [⟨sampleT1, 2⟩, ⟨sampleT1, 5⟩], [⟨sampleT1, 3⟩, ⟨sampleT1, 6⟩]) :=
  ⟨_, rfl, ((insertAll_appends_in_call_order samplePayloads samplePayloads_lawful 7 sampleCalls
    Store.empty [] [] [] [] (by simp [Store.SystemInfoKeyed, Store.empty])
    (by simp [ClockAdvances, sampleCalls, Store.empty, rowsOfHost]) rfl).2 _ rfl).1⟩

theorem InsertSystemInfo_corrupt_series_aborts_witness :
    (InsertSystemInfo samplePayloads nullColumnStore 1 10 1 2 3 sampleT1 100).1 ≠ none ∧
    (InsertSystemInfo samplePayloads nullColumnStore 1 10 1 2 3 sampleT1 100).2 = nullColumnStore :=
  InsertSystemInfo_corrupt_series_aborts samplePayloads nullColumnStore 1 10 1 2 3 sampleT1 100
    ⟨1, some 1, some "web01", none, some (.arr []), some (.arr []), some (.arr []), 50⟩
    rfl (by decide) (Or.inl rfl)

theorem InsertSystemInfo_changes_one_row_witness :
    ∃ db', InsertSystemInfo samplePayloads emptyColumnStore 1 10 1 2 3 sampleT1 100 = (none, db') ∧
      db'.system_info =
        [⟨1, some 1, some "web01",
          some (.arr [.obj [("time", .str sampleT1), ("data", .obj [("percent", .num 10 0)])]]),
          some (.arr [.obj [("time", .str sampleT1), ("data", .obj [("percent", .num 1 0)])]]),
          some (.arr [.obj [("time", .str sampleT1), ("data", .obj [("percent", .num 2 0)])]]),
          some (.arr [.obj [("time", .str sampleT1), ("data", .obj [("percent", .num 3 0)])]]),
          100⟩] ∧
      db'.host_info = emptyColumnStore.host_info ∧
      db'.hostandtoken = emptyColumnStore.hostandtoken ∧
      (rowsOfHost db'.system_info 1).length = (rowsOfHost emptyColumnStore.system_info 1).length :=
  have h := InsertSystemInfo_changes_one_row samplePayloads emptyColumnStore _ 1 10 1 2 3
    sampleT1 100 (by simp [Store.SystemInfoKeyed, emptyColumnStore, Store.empty]) rfl
  ⟨_, rfl, rfl, h.1, h.2.2.1, by
    obtain ⟨_, _, _, _, _, _, _, _, _, _, _, _, _, _, _, _, _, _, _, _, _, _, _, _, _, hlen, _⟩ :=
      h.2.2.2.2.1 (by simp [rowsOfHost, emptyColumnStore, Store.empty])
    exact hlen⟩

theorem readers_return_half_open_window_witness :
    ReadCPUInfo parseUTC parseFloat64 seededStore "web01" sampleT1 sampleT2 Bundle.empty =
      (none, { Bundle.empty with cpu := some [recordAt sampleT1 10] }) :=
  ((readers_return_half_open_window parseUTC parseFloat64 seededStore "web01" sampleT1 sampleT2
    Bundle.empty 1741698810 1741698811 (by decide) (by decide)).1 (by decide)).trans rfl

/-- C4, the claim as stated fails.  For the well-formed window from `sampleT1` to
`sampleT3`:
* a stored cpu series holds a record captured at `sampleT1`, which lies in the
  window, followed by a record whose `updated_at` is not a timestamp:
  `ReadCPUInfo` returns an error and no records;
* a stored cpu series holds one record captured at `sampleT1` with the reading
  `1e400`: `ReadCPUInfo` returns the decode error and no records;
* a stored cpu series holds one record captured at `sampleT1` with the reading
  18446744073709551615: `ReadCPUInfo` returns a record with the reading
  18446744073709551616, which is not the stored record. -/
theorem reader_fails_or_rounds_stored_records :
    parseUTC sampleT1 = some 1741698810 ∧ parseUTC sampleT3 = some 1741698812 ∧
    inRange parseUTC 1741698810 1741698812 (recordAt sampleT1 10) = true ∧
    ReadCPUInfo parseUTC parseFloat64 malformedStore "web01" sampleT1 sampleT3 Bundle.empty =
      (some "解析 updated_at 字段时发生错误", Bundle.empty) ∧
    ReadCPUInfo parseUTC parseFloat64 outOfRangeStore "web01" sampleT1 sampleT3 Bundle.empty =
      (some "解析 JSON 数据时发生错误", Bundle.empty) ∧
    ReadCPUInfo parseUTC parseFloat64 wideNumberStore "web01" sampleT1 sampleT3 Bundle.empty =
      (none, { Bundle.empty with cpu := some [recordAt sampleT1 18446744073709551616] }) :=
  ⟨by decide, by decide, by decide, rfl, rfl, rfl⟩

/-! ## Write, then read -/

/-- C5, the scenario evaluated.  After `web01` has submitted cpu reading 10 at
`sampleT1` and 20 at `sampleT2`, the series row decodes to both records, yet
`ReadDB` for `web01` and kind `cpu` returns an empty series for the window from
`sampleT1` to `sampleT2` and for the window from `sampleT1` to `sampleT3`: the
inserted row has no `hostname`, which the reader selects on.  When the row does
carry the hostname, the result is empty all the same: the records are written
under the key `time` and the reader looks for `updated_at`. -/
theorem web01_scenario_reads_nothing :
    decodedSeries samplePayloads scenarioStore 1 =
      some ([⟨sampleT1, 10⟩, ⟨sampleT2, 20⟩], [⟨sampleT1, 0⟩, ⟨sampleT2, 0⟩],
            [⟨sampleT1, 0⟩, ⟨sampleT2, 0⟩], [⟨sampleT1, 0⟩, ⟨sampleT2, 0⟩]) ∧
    ReadDB parseUTC parseFloat64 scenarioStore "cpu" sampleT1 sampleT2 "web01" =
      .ok { Bundle.empty with cpu := some [] } ∧
    ReadDB parseUTC parseFloat64 scenarioStore "cpu" sampleT1 sampleT3 "web01" =
      .ok { Bundle.empty with cpu := some [] } ∧
    (namedScenarioStore.system_info.map fun r => r.hostname) = [some "web01"] ∧
    decodedSeries samplePayloads namedScenarioStore 1 =
      some ([⟨sampleT1, 10⟩, ⟨sampleT2, 20⟩], [⟨sampleT1, 0⟩, ⟨sampleT2, 0⟩],
            [⟨sampleT1, 0⟩, ⟨sampleT2, 0⟩], [⟨sampleT1, 0⟩, ⟨sampleT2, 0⟩]) ∧
    ReadDB parseUTC parseFloat64 namedScenarioStore "cpu" sampleT1 sampleT2 "web01" =
      .ok { Bundle.empty with cpu := some [] } ∧
    ReadDB parseUTC parseFloat64 namedScenarioStore "cpu" sampleT1 sampleT3 "web01" =
      .ok { Bundle.empty with cpu := some [] } :=
  ⟨rfl, rfl, rfl, rfl, rfl, rfl, rfl⟩

/-- C6, the failing inputs evaluated.  With `from` and `to` that are no
timestamps, `ReadDB` succeeds with an empty series when the host has no series
row, and also when its series holds the records `InsertSystemInfo` wrote (they
have no `updated_at`, so `from` and `to` are never parsed); kind `all` succeeds
as well once the host row exists.  The same `from` is rejected as soon as the
series holds a record with an `updated_at`. -/
theorem malformed_range_is_accepted :
    parseUTC "not-a-time" = none ∧ parseUTC "tomorrow" = none ∧
    ReadDB parseUTC parseFloat64 Store.empty "cpu" "not-a-time" "tomorrow" "web01" =
      .ok { Bundle.empty with cpu := some [] } ∧
    ReadDB parseUTC parseFloat64 namedScenarioStore "memory" "not-a-time" "tomorrow" "web01" =
      .ok { Bundle.empty with memory := some [] } ∧
    ReadDB parseUTC parseFloat64 namedScenarioStore "all" "not-a-time" "tomorrow" "web01" =
      .ok { host := some ⟨1, "web01", "linux", "ubuntu", "x86_64", 90⟩, memory := some [],
            net := some [], cpu := some [], process := some [] } ∧
    ReadDB parseUTC parseFloat64 seededStore "cpu" "not-a-time" "tomorrow" "web01" =
      .error "解析 from 字段时发生错误" :=
  ⟨by decide, by decide, rfl, rfl, rfl, rfl⟩

/-- C7, the claim as stated fails.  No host row exists for `ghost` in the empty
store, and `ReadDB` for kind `cpu` returns a bundle (holding an empty cpu series),
not the host-not-found error. -/
theorem unknown_host_gets_bundle_for_cpu :
    findHostByName Store.empty.host_info "ghost" = none ∧
    ReadDB parseUTC parseFloat64 Store.empty "cpu" sampleT1 sampleT2 "ghost" =
      .ok { Bundle.empty with cpu := some [] } :=
  ⟨rfl, rfl⟩

/-- C7, as amended.  For the query types `host` and `all`, when no host row exists
for the queried hostname `ReadDB` returns the host-not-found error and no bundle.
For every other query type the host table is not consulted: the result is the
same whatever `host_info` holds. -/
theorem ReadDB_host_not_found (parse : String → Option Int) (float64 : ToFloat64) (db : Store)
    (queryType from_ to_ hostname : String) :
    ((queryType = "host" ∨ queryType = "all") → findHostByName db.host_info hostname = none →
      ReadDB parse float64 db queryType from_ to_ hostname = .error "未找到指定的主机记录") ∧
    (queryType ≠ "host" → queryType ≠ "all" → ∀ hosts : List HostInfoRow,
      ReadDB parse float64 { db with host_info := hosts } queryType from_ to_ hostname =
        ReadDB parse float64 db queryType from_ to_ hostname) := by
  constructor
  · intro hq hnone
    simp [ReadDB, readHost, hq, hnone]
  · intro h1 h2 hosts
    simp only [ReadDB, readHost, h1, h2, or_self, if_false]
    rfl

theorem ReadDB_host_not_found_witness :
    ReadDB parseUTC parseFloat64 Store.empty "all" sampleT1 sampleT2 "ghost" = .error "未找到指定的主机记录" :=
  (ReadDB_host_not_found parseUTC parseFloat64 Store.empty "all" sampleT1 sampleT2 "ghost").1
    (Or.inr rfl) rfl

/-! ## Empty and `NULL` payloads -/

theorem unmarshalSeries_of_empty {α : Type} (c : PayloadCodec α) {col : Option Json}
    (h : isEmptyPayload col = true) : unmarshalSeries c col = some [] := by
  match col, h with
  | some .null, _ => rfl
  | some (.arr []), _ => rfl

theorem unmarshalMaps_of_empty (float64 : ToFloat64) {col : Option Json}
    (h : isEmptyPayload col = true) : unmarshalMaps float64 col = some [] := by
  match col, h with
  | some .null, _ => rfl
  | some (.arr []), _ => rfl

theorem readRows_of_empty (parse : String → Option Int) (float64 : ToFloat64)
    (column : SystemInfoRow → Option Json) (from_ to_ : String) (rows : List SystemInfoRow) :
    ∀ acc : List Json, rows.all (fun row => isEmptyPayload (column row)) = true →
      readRows parse float64 column from_ to_ acc rows = .ok acc := by
  induction rows with
  | nil => intro acc _; rfl
  | cons row rest ih =>
    intro acc h
    simp only [List.all_cons, Bool.and_eq_true] at h
    simp [readRows, unmarshalMaps_of_empty float64 h.1, filterRecords, ih acc h.2]

theorem readRows_of_null (parse : String → Option Int) (float64 : ToFloat64)
    (column : SystemInfoRow → Option Json) (from_ to_ : String) (rows : List SystemInfoRow) :
    ∀ acc : List Json,
      rows.all (fun row => isEmptyPayload (column row) || (column row).isNone) = true →
      rows.any (fun row => (column row).isNone) = true →
      readRows parse float64 column from_ to_ acc rows = .error "解析 JSON 数据时发生错误" := by
  induction rows with
  | nil => intro acc _ h; simp at h
  | cons row rest ih =>
    intro acc hall hany
    simp only [List.all_cons, Bool.and_eq_true, Bool.or_eq_true] at hall
    simp only [List.any_cons, Bool.or_eq_true] at hany
    cases hcol : column row with
    | none => simp [readRows, hcol, unmarshalMaps]
    | some j =>
      have he : isEmptyPayload (column row) = true := by
        rcases hall.1 with h | h
        · exact h
        · rw [hcol] at h; cases h
      have hrest : rest.any (fun row => (column row).isNone) = true := by
        rcases hany with h | h
        · rw [hcol] at h; cases h
        · exact h
      simp [readRows, unmarshalMaps_of_empty float64 he, filterRecords, ih acc hall.2 hrest]

/-- C8, the claim as stated fails.  The series row of host id 1 has a `NULL` cpu
column.  `InsertSystemInfo` does not treat it as empty: it returns an error and
leaves the store as it was; `ReadCPUInfo` returns an error and no sequence. -/
theorem null_column_is_not_empty_series :
    InsertSystemInfo samplePayloads nullColumnStore 1 10 1 2 3 sampleT1 100 =
      (some "failed to unmarshal existing cpu_info", nullColumnStore) ∧
    ReadCPUInfo parseUTC parseFloat64 nullColumnStore "web01" sampleT1 sampleT2 Bundle.empty =
      (some "解析 JSON 数据时发生错误", Bundle.empty) :=
  ⟨rfl, rfl⟩

/-- C8, as amended.  Let `r` be the latest row of the host, in a store whose ids
form a primary key, with lawful codecs whose readings all marshal, and a store
clock that is not behind the stored timestamps.
* If the four columns of `r` decode, `InsertSystemInfo` succeeds and appends one
  record to each series; a column that is empty (JSON `null` or the empty array)
  decodes to the empty series, so that series then has one record.
* If a column of `r` is SQL `NULL`, `InsertSystemInfo` returns an error and leaves
  the store as it was.
* A reader over rows whose column is empty returns the empty sequence, whatever
  `from` and `to` are; over rows whose column is empty or `NULL`, one of them
  `NULL`, it returns the decode error. -/
theorem empty_payload_decodes_empty_null_fails (P : Payloads) (hP : P.Lawful)
    (hM : P.MarshalTotal) (parse : String → Option Int) (float64 : ToFloat64) (db : Store)
    (hostInfoID : Int) (sub : Submission P) (hostname from_ to_ : String) (result : Bundle)
    (r : SystemInfoRow)
    (hkey : db.SystemInfoKeyed)
    (hfound : latestRow (rowsOfHost db.system_info hostInfoID) = some r)
    (hclock : ∀ x ∈ rowsOfHost db.system_info hostInfoID, x.created_at ≤ sub.dbNow) :
    (∀ s1 s2 s3 s4, decodedSeries P db hostInfoID = some (s1, s2, s3, s4) →
      (isEmptyPayload r.cpu_info = true → s1 = []) ∧
      (isEmptyPayload r.memory_info = true → s2 = []) ∧
      (isEmptyPayload r.process_info = true → s3 = []) ∧
      (isEmptyPayload r.network_info = true → s4 = []) ∧
      ∃ db', InsertSystemInfo P db hostInfoID sub.cpuInfo sub.memoryInfo sub.processInfo
          sub.networkInfo sub.currentTime sub.dbNow = (none, db') ∧
        decodedSeries P db' hostInfoID =
          some (s1 ++ [⟨sub.currentTime, sub.cpuInfo⟩], s2 ++ [⟨sub.currentTime, sub.memoryInfo⟩],
                s3 ++ [⟨sub.currentTime, sub.processInfo⟩],
                s4 ++ [⟨sub.currentTime, sub.networkInfo⟩])) ∧
    ((r.cpu_info = none ∨ r.memory_info = none ∨ r.process_info = none ∨ r.network_info = none) →
      (InsertSystemInfo P db hostInfoID sub.cpuInfo sub.memoryInfo sub.processInfo
          sub.networkInfo sub.currentTime sub.dbNow).1 ≠ none ∧
      (InsertSystemInfo P db hostInfoID sub.cpuInfo sub.memoryInfo sub.processInfo
          sub.networkInfo sub.currentTime sub.dbNow).2 = db) ∧
    (∀ column : SystemInfoRow → Option Json,
      (rowsOfHostname db.system_info hostname).all (fun row => isEmptyPayload (column row)) = true →
      readRows parse float64 column from_ to_ [] (rowsOfHostname db.system_info hostname) = .ok []) ∧
    ((rowsOfHostname db.system_info hostname).all (fun row => isEmptyPayload row.cpu_info) = true →
      ReadCPUInfo parse float64 db hostname from_ to_ result = (none, { result with cpu := some [] })) ∧
    ((rowsOfHostname db.system_info hostname).all (fun row => isEmptyPayload row.memory_info) = true →
      ReadMemoryInfo parse float64 db hostname from_ to_ result =
        (none, { result with memory := some [] })) ∧
    ((rowsOfHostname db.system_info hostname).all (fun row => isEmptyPayload row.network_info) = true →
      ReadNetInfo parse float64 db hostname from_ to_ result = (none, { result with net := some [] })) ∧
    ((rowsOfHostname db.system_info hostname).all (fun row => isEmptyPayload row.process_info) = true →
      ReadProcessInfo parse float64 db hostname from_ to_ result =
        (none, { result with process := some [] })) ∧
    (∀ column : SystemInfoRow → Option Json,
      (rowsOfHostname db.system_info hostname).all
        (fun row => isEmptyPayload (column row) || (column row).isNone) = true →
      (rowsOfHostname db.system_info hostname).any (fun row => (column row).isNone) = true →
      readRows parse float64 column from_ to_ [] (rowsOfHostname db.system_info hostname) =
        .error "解析 JSON 数据时发生错误") := by
  have hmem := mem_rowsOfHost.mp (latestRow_mem hfound)
  have hid := (hkey.2.2 r hmem.1).1
  refine ⟨?_, ?_, ?_, ?_, ?_, ?_, ?_, ?_⟩
  · intro s1 s2 s3 s4 hdec
    obtain ⟨d1, d2, d3, d4⟩ := decodedSeries_found hfound hdec
    refine ⟨fun h => ?_, fun h => ?_, fun h => ?_, fun h => ?_, ?_⟩
    · rw [unmarshalSeries_of_empty P.cpu h] at d1; exact (Option.some.inj d1).symm
    · rw [unmarshalSeries_of_empty P.memory h] at d2; exact (Option.some.inj d2).symm
    · rw [unmarshalSeries_of_empty P.process h] at d3; exact (Option.some.inj d3).symm
    · rw [unmarshalSeries_of_empty P.network h] at d4; exact (Option.some.inj d4).symm
    · obtain ⟨db', hcall⟩ := InsertSystemInfo_succeeds P hM db hostInfoID sub hkey hdec
      exact ⟨db', hcall, (InsertSystemInfo_step P hP db db' hostInfoID sub s1 s2 s3 s4 hkey
        hclock hdec hcall).2.2⟩
  · intro hnull
    have herr : (InsertSystemInfo P db hostInfoID sub.cpuInfo sub.memoryInfo sub.processInfo
        sub.networkInfo sub.currentTime sub.dbNow).1 ≠ none := by
      intro hok
      obtain ⟨a1, a2, a3, a4, _, _, _, _, h1, h2, h3, h4, _⟩ :=
        InsertSystemInfo_found_inv P db hostInfoID sub.cpuInfo sub.memoryInfo sub.processInfo
          sub.networkInfo sub.currentTime sub.dbNow r hfound hid hok
      rcases hnull with h | h | h | h
      · rw [h] at h1; cases h1
      · rw [h] at h2; cases h2
      · rw [h] at h3; cases h3
      · rw [h] at h4; cases h4
    exact ⟨herr, InsertSystemInfo_error_keeps_store P db hostInfoID sub.cpuInfo sub.memoryInfo
      sub.processInfo sub.networkInfo sub.currentTime sub.dbNow herr⟩
  · intro column h
    exact readRows_of_empty parse float64 column from_ to_ _ [] h
  · intro h
    simp [ReadCPUInfo, readRows_of_empty parse float64 _ from_ to_ _ [] h]
  · intro h
    simp [ReadMemoryInfo, readRows_of_empty parse float64 _ from_ to_ _ [] h]
  · intro h
    simp [ReadNetInfo, readRows_of_empty parse float64 _ from_ to_ _ [] h]
  · intro h
    simp [ReadProcessInfo, readRows_of_empty parse float64 _ from_ to_ _ [] h]
  · intro column h1 h2
    exact readRows_of_null parse float64 column from_ to_ _ [] h1 h2

theorem empty_payload_decodes_empty_null_fails_witness :
    (∃ db', InsertSystemInfo samplePayloads emptyColumnStore 1 10 1 2 3 sampleT1 100 = (none, db') ∧
      decodedSeries samplePayloads db' 1 =
        some ([⟨sampleT1, 10⟩], [⟨sampleT1, 1⟩], [⟨sampleT1, 2⟩], [⟨sampleT1, 3⟩])) ∧
    ReadCPUInfo parseUTC parseFloat64 emptyColumnStore "web01" "not-a-time" sampleT2 Bundle.empty =
      (none, { Bundle.empty with cpu := some [] }) :=
  have h := empty_payload_decodes_empty_null_fails samplePayloads samplePayloads_lawful
    samplePayloads_marshalTotal parseUTC parseFloat64 emptyColumnStore 1 ⟨10, 1, 2, 3, sampleT1, 100⟩
    "web01" "not-a-time" sampleT2 Bundle.empty
    ⟨1, some 1, some "web01", some (.arr []), some (.arr []), some .null, some .null, 50⟩
    (by simp [Store.SystemInfoKeyed, emptyColumnStore, Store.empty]) rfl
    (by simp [rowsOfHost, emptyColumnStore, Store.empty])
  ⟨(h.1 [] [] [] [] rfl).2.2.2.2, h.2.2.2.1 rfl⟩

/-! ## The host registry -/

/-- The row `InsertHostInfo` writes in place of a matched row. -/
theorem hostMatches_touch (hostInfo : HostInfo) (dbNow : Int) (id : Int) (r : HostInfoRow) :
    hostMatches hostInfo (if r.id = id then { r with host_info_created_at := dbNow } else r) =
      hostMatches hostInfo r := by
  by_cases h : r.id = id <;> simp [h, hostMatches]

theorem touch_id (dbNow : Int) (id : Int) (r : HostInfoRow) :
    (if r.id = id then { r with host_info_created_at := dbNow } else r).id = r.id := by
  by_cases h : r.id = id <;> simp [h]

theorem InsertHostInfo_found (db : Store) (hostInfo : HostInfo) (username : String) (dbNow : Int)
    (row : HostInfoRow) (h : db.host_info.find? (hostMatches hostInfo) = some row) :
    InsertHostInfo db hostInfo username dbNow =
      { err := none
        db := { db with host_info := db.host_info.map fun r =>
                  if r.id = row.id then { r with host_info_created_at := dbNow } else r }
        hostInfoID := row.id } := by
  simp [InsertHostInfo, h]

theorem InsertHostInfo_absent (db : Store) (hostInfo : HostInfo) (username : String) (dbNow : Int)
    (h : db.host_info.find? (hostMatches hostInfo) = none) :
    InsertHostInfo db hostInfo username dbNow =
      { err := none
        db := { db with
                host_info := db.host_info ++
                  [⟨db.host_info_seq, hostInfo.Hostname, hostInfo.OS, hostInfo.Platform,
                    hostInfo.KernelArch, dbNow, username⟩]
                host_info_seq := db.host_info_seq + 1 }
        hostInfoID := db.host_info_seq } := by
  simp [InsertHostInfo, h]

/-- After a call the store is still keyed and the first row matching the
attributes is the one the call resolved. -/
theorem InsertHostInfo_resolves (db : Store) (hostInfo : HostInfo) (username : String)
    (dbNow : Int) (hkey : db.HostInfoKeyed) :
    (InsertHostInfo db hostInfo username dbNow).db.HostInfoKeyed ∧
    ∃ row, (InsertHostInfo db hostInfo username dbNow).db.host_info.find? (hostMatches hostInfo)
        = some row ∧
      row.id = (InsertHostInfo db hostInfo username dbNow).hostInfoID := by
  obtain ⟨hnd, hlt⟩ := hkey
  cases hf : db.host_info.find? (hostMatches hostInfo) with
  | some row =>
    rw [InsertHostInfo_found db hostInfo username dbNow row hf]
    have hids : (db.host_info.map fun r =>
        if r.id = row.id then { r with host_info_created_at := dbNow } else r).map (fun r => r.id)
        = db.host_info.map fun r => r.id := by
      rw [List.map_map]
      apply List.map_congr_left
      intro x _
      exact touch_id dbNow row.id x
    refine ⟨⟨?_, ?_⟩, ?_⟩
    · show ((db.host_info.map fun r =>
          if r.id = row.id then { r with host_info_created_at := dbNow } else r).map
            (fun r : HostInfoRow => r.id)).Nodup
      rw [hids]; exact hnd
    · intro x hx
      have hx' : x.id ∈ (db.host_info.map fun r =>
          if r.id = row.id then { r with host_info_created_at := dbNow } else r).map
            (fun r => r.id) := List.mem_map_of_mem _ hx
      rw [hids] at hx'
      obtain ⟨y, hy, hyx⟩ := List.mem_map.mp hx'
      have := hlt y hy
      show x.id < db.host_info_seq
      rw [← hyx]; exact this
    · refine ⟨if row.id = row.id then { row with host_info_created_at := dbNow } else row, ?_, ?_⟩
      · show (db.host_info.map _).find? (hostMatches hostInfo) = _
        rw [List.find?_map]
        have hcomp : (hostMatches hostInfo ∘ fun r : HostInfoRow =>
            if r.id = row.id then { r with host_info_created_at := dbNow } else r)
            = hostMatches hostInfo := by
          funext r
          exact hostMatches_touch hostInfo dbNow row.id r
        rw [hcomp, hf]
        rfl
      · simp
  | none =>
    rw [InsertHostInfo_absent db hostInfo username dbNow hf]
    refine ⟨⟨?_, ?_⟩, ?_⟩
    · show ((db.host_info ++ _).map fun r : HostInfoRow => r.id).Nodup
      rw [List.map_append, List.nodup_append]
      refine ⟨hnd, by simp, ?_⟩
      intro a ha hb
      simp only [List.map_cons, List.map_nil, List.mem_singleton] at hb
      obtain ⟨x, hx, rfl⟩ := List.mem_map.mp ha
      have := hlt x hx
      omega
    · intro x hx
      have hx' : x ∈ db.host_info ++ _ := hx
      show x.id < db.host_info_seq + 1
      rcases List.mem_append.mp hx' with h | h
      · have := hlt x h; omega
      · simp only [List.mem_singleton] at h
        subst h
        show db.host_info_seq < db.host_info_seq + 1
        omega
    · refine ⟨⟨db.host_info_seq, hostInfo.Hostname, hostInfo.OS, hostInfo.Platform,
        hostInfo.KernelArch, dbNow, username⟩, ?_, rfl⟩
      show (db.host_info ++ _).find? (hostMatches hostInfo) = _
      rw [List.find?_append, hf]
      simp [hostMatches]

theorem id_injective_of_keyed {db : Store} (hkey : db.HostInfoKeyed) {x y : HostInfoRow}
    (hx : x ∈ db.host_info) (hy : y ∈ db.host_info) (h : x.id = y.id) : x = y :=
  List.inj_on_of_nodup_map hkey.1 hx hy h

/-- C9, the claim as stated fails.  In a store where `web01` is registered with
`x86_64` (id 1) and with `arm64` (id 2), two calls for `x86_64` resolve to id 1;
a call with the same hostname and the different architecture `arm64` then matches
the existing row 2 and creates no row: the table keeps its two rows. -/
theorem different_arch_may_match_existing_row :
    (twoArchStore.host_info.map fun r => (r.id, r.hostname, r.kernel_arch)) =
      [(1, "web01", "x86_64"), (2, "web01", "arm64")] ∧
    (InsertHostInfo twoArchStore web01 "alice" 92).hostInfoID = 1 ∧
    (InsertHostInfo (InsertHostInfo twoArchStore web01 "alice" 92).db web01 "alice" 93).hostInfoID
      = 1 ∧
    (InsertHostInfo (InsertHostInfo (InsertHostInfo twoArchStore web01 "alice" 92).db web01
      "alice" 93).db { web01 with KernelArch := "arm64" } "alice" 94).hostInfoID = 2 ∧
    ((InsertHostInfo (InsertHostInfo (InsertHostInfo twoArchStore web01 "alice" 92).db web01
      "alice" 93).db { web01 with KernelArch := "arm64" } "alice" 94).db.host_info.map
        fun r => (r.id, r.hostname, r.kernel_arch)) =
      [(1, "web01", "x86_64"), (2, "web01", "arm64")] := by
  decide

/-- C9, as amended.  In a store whose `host_info` ids form a primary key, two
calls with the same hostname, os, platform and kernel architecture resolve to the
same id, and the second adds no row: it only sets the timestamp of the row with
that id.  A following call with the same hostname, os and platform and another
kernel architecture resolves to a different id: when no row carries its four
attributes it appends one row with an id no row had, and when a row does it
resolves to the first such row and the table keeps its length. -/
theorem InsertHostInfo_find_or_create (db : Store) (hostInfo : HostInfo) (arch : String)
    (u1 u2 u3 : String) (t1 t2 t3 : Int) (o1 o2 o3 : HostInsertOutcome)
    (hkey : db.HostInfoKeyed) (harch : arch ≠ hostInfo.KernelArch)
    (h1 : InsertHostInfo db hostInfo u1 t1 = o1)
    (h2 : InsertHostInfo o1.db hostInfo u2 t2 = o2)
    (h3 : InsertHostInfo o2.db { hostInfo with KernelArch := arch } u3 t3 = o3) :
    o2.hostInfoID = o1.hostInfoID ∧
    o2.db.host_info = (o1.db.host_info.map fun r =>
      if r.id = o1.hostInfoID then { r with host_info_created_at := t2 } else r) ∧
    o2.db.host_info.length = o1.db.host_info.length ∧
    o3.hostInfoID ≠ o1.hostInfoID ∧
    (o2.db.host_info.find? (hostMatches { hostInfo with KernelArch := arch }) = none →
      o3.db.host_info = o2.db.host_info ++
        [⟨o3.hostInfoID, hostInfo.Hostname, hostInfo.OS, hostInfo.Platform, arch, t3, u3⟩] ∧
      ∀ r ∈ o2.db.host_info, r.id ≠ o3.hostInfoID) ∧
    (∀ row, o2.db.host_info.find? (hostMatches { hostInfo with KernelArch := arch }) = some row →
      o3.hostInfoID = row.id ∧ o3.db.host_info.length = o2.db.host_info.length) := by
  obtain ⟨hkey1, row1, hf1, hid1⟩ := InsertHostInfo_resolves db hostInfo u1 t1 hkey
  rw [h1] at hkey1 hf1 hid1
  have e2 := InsertHostInfo_found o1.db hostInfo u2 t2 row1 hf1
  rw [h2] at e2
  obtain ⟨hkey2, row2, hf2, hid2⟩ := InsertHostInfo_resolves o1.db hostInfo u2 t2 hkey1
  rw [h2] at hkey2 hf2 hid2
  have hid21 : o2.hostInfoID = o1.hostInfoID := by rw [e2]; exact hid1
  have hmem2 : row2 ∈ o2.db.host_info := List.mem_of_find?_eq_some hf2
  have hm2 : hostMatches hostInfo row2 = true := List.find?_some hf2
  have harch2 : row2.kernel_arch = hostInfo.KernelArch := by
    simp only [hostMatches, Bool.and_eq_true, decide_eq_true_eq] at hm2
    exact hm2.2
  refine ⟨hid21, ?_, ?_, ?_, ?_, ?_⟩
  · rw [e2, ← hid1]
  · rw [e2]; simp
  · cases hf3 : o2.db.host_info.find? (hostMatches { hostInfo with KernelArch := arch }) with
    | none =>
      have e3 := InsertHostInfo_absent o2.db { hostInfo with KernelArch := arch } u3 t3 hf3
      rw [h3] at e3
      have := hkey2.2 row2 hmem2
      rw [e3, ← hid21, ← hid2]
      show o2.db.host_info_seq ≠ row2.id
      omega
    | some row3 =>
      have e3 := InsertHostInfo_found o2.db { hostInfo with KernelArch := arch } u3 t3 row3 hf3
      rw [h3] at e3
      have hmem3 : row3 ∈ o2.db.host_info := List.mem_of_find?_eq_some hf3
      have hm3 : hostMatches { hostInfo with KernelArch := arch } row3 = true :=
        List.find?_some hf3
      have harch3 : row3.kernel_arch = arch := by
        simp only [hostMatches, Bool.and_eq_true, decide_eq_true_eq] at hm3
        exact hm3.2
      rw [e3, ← hid21, ← hid2]
      show row3.id ≠ row2.id
      intro heq
      have := id_injective_of_keyed hkey2 hmem3 hmem2 heq
      rw [this, harch2] at harch3
      exact harch harch3.symm
  · intro hf3
    have e3 := InsertHostInfo_absent o2.db { hostInfo with KernelArch := arch } u3 t3 hf3
    rw [h3] at e3
    rw [e3]
    refine ⟨rfl, ?_⟩
    intro r hr
    have := hkey2.2 r hr
    show r.id ≠ o2.db.host_info_seq
    omega
  · intro row3 hf3
    have e3 := InsertHostInfo_found o2.db { hostInfo with KernelArch := arch } u3 t3 row3 hf3
    rw [h3] at e3
    rw [e3]
    exact ⟨rfl, by simp⟩

theorem InsertHostInfo_find_or_create_witness :
    (InsertHostInfo (InsertHostInfo Store.empty web01 "alice" 90).db web01 "bob" 91).hostInfoID =
      (InsertHostInfo Store.empty web01 "alice" 90).hostInfoID ∧
    (InsertHostInfo (InsertHostInfo (InsertHostInfo Store.empty web01 "alice" 90).db web01
      "bob" 91).db { web01 with KernelArch := "arm64" } "alice" 92).hostInfoID ≠
      (InsertHostInfo Store.empty web01 "alice" 90).hostInfoID :=
  have h := InsertHostInfo_find_or_create Store.empty web01 "arm64" "alice" "bob" "alice"
    90 91 92 _ _ _ (by simp [Store.HostInfoKeyed, Store.empty]) (by decide) rfl rfl rfl
  ⟨h.1, h.2.2.2.1⟩

/-! ## The ingestion handler -/

/-- C10, the claim as stated fails.  A submission whose static token has ten bytes
is rejected with status 400, but not before any storage access: the handler has
already looked the token of the hostname up in `hostandtoken`. -/
theorem short_token_rejected_after_token_lookup :
    (ReceiveAndStoreSystemMetrics samplePayloads (fun _ => some "alice") Store.empty sampleClock
      shortTokenRequest).status = 400 ∧
    (ReceiveAndStoreSystemMetrics samplePayloads (fun _ => some "alice") Store.empty sampleClock
      shortTokenRequest).trace = [DbAccess.selectToken] := by
  decide

/-- C10, as amended.  A submission whose body binds and whose static token is not
sixteen bytes long is rejected with status 400 and the message of a wrong token
length; the store is left as it was, and the one storage access made before the
rejection is the read that looks the token of the hostname up. -/
theorem wrong_token_length_rejected (P : Payloads) (verifyJWT : String → Option String)
    (db : Store) (clock : Clock) (req : Request P) (requestData : RequestData P)
    (hbody : req.body = some requestData)
    (hlen : requestData.HostInfo.Token.utf8ByteSize ≠ 16) :
    (ReceiveAndStoreSystemMetrics P verifyJWT db clock req).status = 400 ∧
    (ReceiveAndStoreSystemMetrics P verifyJWT db clock req).message = "Wrong token length" ∧
    (ReceiveAndStoreSystemMetrics P verifyJWT db clock req).db = db ∧
    (ReceiveAndStoreSystemMetrics P verifyJWT db clock req).trace = [DbAccess.selectToken] := by
  unfold ReceiveAndStoreSystemMetrics
  rw [hbody]
  simp only [ne_eq]
  rw [if_pos hlen]
  exact ⟨rfl, rfl, rfl, rfl⟩

theorem wrong_token_length_rejected_witness :
    (ReceiveAndStoreSystemMetrics samplePayloads (fun _ => some "alice") seededStore sampleClock
      shortTokenRequest).status = 400 ∧
    (ReceiveAndStoreSystemMetrics samplePayloads (fun _ => some "alice") seededStore sampleClock
      shortTokenRequest).db = seededStore :=
  have h := wrong_token_length_rejected samplePayloads (fun _ => some "alice") seededStore
    sampleClock shortTokenRequest ⟨10, { web01 with Token := "0123456789" }, 1, 2, 3⟩ rfl
    (by decide)
  ⟨h.1, h.2.2.1⟩


/-! ## The static token stage -/

theorem handler_wrong_length (P : Payloads) (verifyJWT : String → Option String)
    (db : Store) (clock : Clock) (req : Request P) (requestData : RequestData P)
    (hbody : req.body = some requestData)
    (hlen : requestData.HostInfo.Token.utf8ByteSize ≠ 16) :
    ReceiveAndStoreSystemMetrics P verifyJWT db clock req =
      ⟨400, "Wrong token length", db, [DbAccess.selectToken]⟩ := by
  unfold ReceiveAndStoreSystemMetrics
  rw [hbody]
  simp only [ne_eq]
  rw [if_pos hlen]

theorem handler_mismatch (P : Payloads) (verifyJWT : String → Option String)
    (db : Store) (clock : Clock) (req : Request P) (requestData : RequestData P)
    (hbody : req.body = some requestData)
    (hlen : requestData.HostInfo.Token.utf8ByteSize = 16)
    (hne : requestData.HostInfo.Token ≠
      lookupToken db.hostandtoken requestData.HostInfo.Hostname) :
    ReceiveAndStoreSystemMetrics P verifyJWT db clock req =
      ⟨400, "Unequal string", db, [DbAccess.selectToken]⟩ := by
  unfold ReceiveAndStoreSystemMetrics
  rw [hbody]
  simp only [ne_eq]
  rw [if_neg (not_not.mpr hlen), if_pos hne]

/-- Past the token stage the handler answers 401, 500 or 201, never 400. -/
theorem handler_past_token_stage (P : Payloads) (verifyJWT : String → Option String)
    (db : Store) (clock : Clock) (req : Request P) (requestData : RequestData P)
    (hbody : req.body = some requestData)
    (hlen : requestData.HostInfo.Token.utf8ByteSize = 16)
    (heq : requestData.HostInfo.Token =
      lookupToken db.hostandtoken requestData.HostInfo.Hostname) :
    (ReceiveAndStoreSystemMetrics P verifyJWT db clock req).status ≠ 400 := by
  unfold ReceiveAndStoreSystemMetrics
  rw [hbody]
  simp only [ne_eq]
  rw [if_neg (not_not.mpr hlen), if_neg (not_not.mpr heq)]
  repeat' split
  all_goals simp

theorem utf8ByteSize_of_ascii (cs : List Char) (h : ∀ c ∈ cs, c.val < 128) :
    String.utf8ByteSize.go cs = cs.length := by
  induction cs with
  | nil => rfl
  | cons c rest ih =>
    have hc : c.val ≤ 127 := by
      have := h c (List.mem_cons_self _ _)
      exact Nat.le_of_lt_succ this
    have hsize : c.utf8Size = 1 := by
      simp [Char.utf8Size, hc]
    show String.utf8ByteSize.go rest + c.utf8Size = rest.length + 1
    rw [ih (fun x hx => h x (List.mem_cons_of_mem _ hx)), hsize]

/-- C11, the claim as stated fails.  The token bound to `web01` is
`0123456789abcdef`; a submission carrying another token of sixteen bytes is
rejected with status 400, not 401, which is also the status of a submission whose
token has the wrong length. -/
theorem token_mismatch_is_bad_request :
    wrongTokenRequest.body.map (fun d => d.HostInfo.Token.utf8ByteSize) = some 16 ∧
    lookupToken tokenStore.hostandtoken "web01" = "0123456789abcdef" ∧
    (ReceiveAndStoreSystemMetrics samplePayloads acceptAll tokenStore sampleClock
      wrongTokenRequest).status = 400 ∧
    (ReceiveAndStoreSystemMetrics samplePayloads acceptAll tokenStore sampleClock
      wrongTokenRequest).message = "Unequal string" ∧
    (ReceiveAndStoreSystemMetrics samplePayloads acceptAll tokenStore sampleClock
      shortTokenRequest).status = 400 := by
  decide

/-- C11, as amended.  A submission whose body binds and whose static token has
sixteen bytes but differs from the token looked up for its hostname is rejected
with status 400 and the message `Unequal string`, the store left as it was.  The
status is the one a wrong token length gets; the message alone tells the two
rejections apart. -/
theorem token_mismatch_rejected (P : Payloads) (verifyJWT : String → Option String)
    (db : Store) (clock : Clock) (req : Request P) (requestData : RequestData P)
    (hbody : req.body = some requestData)
    (hlen : requestData.HostInfo.Token.utf8ByteSize = 16)
    (hne : requestData.HostInfo.Token ≠
      lookupToken db.hostandtoken requestData.HostInfo.Hostname) :
    (ReceiveAndStoreSystemMetrics P verifyJWT db clock req).status = 400 ∧
    (ReceiveAndStoreSystemMetrics P verifyJWT db clock req).message = "Unequal string" ∧
    (ReceiveAndStoreSystemMetrics P verifyJWT db clock req).db = db ∧
    (∀ (req' : Request P) (requestData' : RequestData P), req'.body = some requestData' →
      requestData'.HostInfo.Token.utf8ByteSize ≠ 16 →
      (ReceiveAndStoreSystemMetrics P verifyJWT db clock req').status =
        (ReceiveAndStoreSystemMetrics P verifyJWT db clock req).status ∧
      (ReceiveAndStoreSystemMetrics P verifyJWT db clock req').message ≠
        (ReceiveAndStoreSystemMetrics P verifyJWT db clock req).message) := by
  rw [handler_mismatch P verifyJWT db clock req requestData hbody hlen hne]
  refine ⟨rfl, rfl, rfl, ?_⟩
  intro req' requestData' hbody' hlen'
  rw [handler_wrong_length P verifyJWT db clock req' requestData' hbody' hlen']
  refine ⟨rfl, ?_⟩
  show "Wrong token length" ≠ "Unequal string"
  decide

theorem token_mismatch_rejected_witness :
    (ReceiveAndStoreSystemMetrics samplePayloads acceptAll tokenStore sampleClock
      wrongTokenRequest).status = 400 ∧
    (ReceiveAndStoreSystemMetrics samplePayloads acceptAll tokenStore sampleClock
      wrongTokenRequest).message = "Unequal string" :=
  have h := token_mismatch_rejected samplePayloads acceptAll tokenStore sampleClock
    wrongTokenRequest ⟨10, { web01 with Token := "fedcba9876543210" }, 1, 2, 3⟩ rfl
    (by decide) (by decide)
  ⟨h.1, h.2.1⟩

/-- C18, the claim as stated fails: the length the handler tests is a number of
bytes, not of characters.
* The token bound to `web01` has eight characters and sixteen bytes; a
  submission carrying it is not rejected at the static-token stage and is
  answered 201.
* The token bound to `web01` has sixteen characters and thirty-two bytes; a
  submission carrying it, equal to the token looked up, is rejected with status
  400 and the message of a wrong length. -/
theorem token_length_is_counted_in_bytes :
    eightCharToken.length = 8 ∧ eightCharToken.utf8ByteSize = 16 ∧
    lookupToken (tokenStoreOf eightCharToken).hostandtoken "web01" = eightCharToken ∧
    (ReceiveAndStoreSystemMetrics samplePayloads acceptAll (tokenStoreOf eightCharToken)
      sampleClock (requestWithToken eightCharToken)).status = 201 ∧
    ¬ (ReceiveAndStoreSystemMetrics samplePayloads acceptAll (tokenStoreOf eightCharToken)
      sampleClock (requestWithToken eightCharToken)).rejectedAtTokenStage ∧
    sixteenCharToken.length = 16 ∧ sixteenCharToken.utf8ByteSize = 32 ∧
    lookupToken (tokenStoreOf sixteenCharToken).hostandtoken "web01" = sixteenCharToken ∧
    (ReceiveAndStoreSystemMetrics samplePayloads acceptAll (tokenStoreOf sixteenCharToken)
      sampleClock (requestWithToken sixteenCharToken)).status = 400 ∧
    (ReceiveAndStoreSystemMetrics samplePayloads acceptAll (tokenStoreOf sixteenCharToken)
      sampleClock (requestWithToken sixteenCharToken)).message = "Wrong token length" ∧
    (ReceiveAndStoreSystemMetrics samplePayloads acceptAll (tokenStoreOf sixteenCharToken)
      sampleClock (requestWithToken sixteenCharToken)).rejectedAtTokenStage := by
  refine ⟨by decide, by decide, by decide, by decide, ?_, by decide, by decide, by decide,
    by decide, by decide, ?_⟩
  · intro h
    exact absurd h.1 (by decide)
  · exact ⟨by decide, Or.inl (by decide)⟩

/-- C18, as amended.  For a submission whose body binds, the handler does not
reject at the static-token stage if and only if the token has sixteen bytes (Go's
`len` of the string; sixteen characters when the token is made of ASCII
characters) and equals the token looked up for the hostname.  When no token row
is found for the hostname the lookup yields the empty string and the submission
is rejected at that stage with status 400, whatever its token.  A token of
another length in bytes is rejected with status 400 and the message of a wrong
length, whether or not it also differs from the stored token. -/
theorem token_stage_passes_iff (P : Payloads) (verifyJWT : String → Option String)
    (db : Store) (clock : Clock) (req : Request P) (requestData : RequestData P)
    (hbody : req.body = some requestData) :
    (¬ (ReceiveAndStoreSystemMetrics P verifyJWT db clock req).rejectedAtTokenStage ↔
      (requestData.HostInfo.Token.utf8ByteSize = 16 ∧
        requestData.HostInfo.Token =
          lookupToken db.hostandtoken requestData.HostInfo.Hostname)) ∧
    ((db.hostandtoken.find? fun r => r.hostname = some requestData.HostInfo.Hostname) = none →
      lookupToken db.hostandtoken requestData.HostInfo.Hostname = "" ∧
      (ReceiveAndStoreSystemMetrics P verifyJWT db clock req).status = 400 ∧
      (ReceiveAndStoreSystemMetrics P verifyJWT db clock req).rejectedAtTokenStage) ∧
    (requestData.HostInfo.Token.utf8ByteSize ≠ 16 →
      (ReceiveAndStoreSystemMetrics P verifyJWT db clock req).status = 400 ∧
      (ReceiveAndStoreSystemMetrics P verifyJWT db clock req).message = "Wrong token length") ∧
    ((∀ c ∈ requestData.HostInfo.Token.data, c.val < 128) →
      requestData.HostInfo.Token.utf8ByteSize = requestData.HostInfo.Token.length) := by
  have hrej : ¬ (requestData.HostInfo.Token.utf8ByteSize = 16 ∧
      requestData.HostInfo.Token =
        lookupToken db.hostandtoken requestData.HostInfo.Hostname) →
      (ReceiveAndStoreSystemMetrics P verifyJWT db clock req).rejectedAtTokenStage := by
    intro hnot
    by_cases hlen : requestData.HostInfo.Token.utf8ByteSize = 16
    · have hne : requestData.HostInfo.Token ≠
          lookupToken db.hostandtoken requestData.HostInfo.Hostname :=
        fun h => hnot ⟨hlen, h⟩
      rw [handler_mismatch P verifyJWT db clock req requestData hbody hlen hne]
      exact ⟨rfl, Or.inr rfl⟩
    · rw [handler_wrong_length P verifyJWT db clock req requestData hbody hlen]
      exact ⟨rfl, Or.inl rfl⟩
  refine ⟨⟨fun h => ?_, fun h hr => ?_⟩, fun hnone => ?_, fun hlen => ?_, fun hascii => ?_⟩
  · by_contra hnot
    exact h (hrej hnot)
  · exact handler_past_token_stage P verifyJWT db clock req requestData hbody h.1 h.2 hr.1
  · have hempty : lookupToken db.hostandtoken requestData.HostInfo.Hostname = "" := by
      simp [lookupToken, hnone]
    have hnot : ¬ (requestData.HostInfo.Token.utf8ByteSize = 16 ∧
        requestData.HostInfo.Token =
          lookupToken db.hostandtoken requestData.HostInfo.Hostname) := by
      rintro ⟨hlen, heq⟩
      rw [hempty] at heq
      rw [heq] at hlen
      exact absurd hlen (by decide)
    exact ⟨hempty, (hrej hnot).1, hrej hnot⟩
  · rw [handler_wrong_length P verifyJWT db clock req requestData hbody hlen]
    exact ⟨rfl, rfl⟩
  · cases htok : requestData.HostInfo.Token with
    | mk cs =>
      rw [htok] at hascii
      exact utf8ByteSize_of_ascii cs hascii

theorem token_stage_passes_iff_witness :
    ¬ (ReceiveAndStoreSystemMetrics samplePayloads acceptAll tokenStore sampleClock
      (acceptedRequest 0)).rejectedAtTokenStage ∧
    (ReceiveAndStoreSystemMetrics samplePayloads acceptAll Store.empty sampleClock
      (acceptedRequest 0)).status = 400 :=
  ⟨(token_stage_passes_iff samplePayloads acceptAll tokenStore sampleClock (acceptedRequest 0)
      ⟨10, { web01 with ID := 0 }, 1, 2, 3⟩ rfl).1.mpr ⟨by decide, by decide⟩,
   ((token_stage_passes_iff samplePayloads acceptAll Store.empty sampleClock (acceptedRequest 0)
      ⟨10, { web01 with ID := 0 }, 1, 2, 3⟩ rfl).2.1 rfl).2.1⟩


/-! ## The codec, subsets of kinds, and selectors -/

/-- C16.  Round trip of the series codec, for lawful reading codecs: whenever a
sequence of records of one of the four kinds marshals to a JSON value, as
`InsertSystemInfo` marshals an array before storing it, unmarshalling that value,
as `InsertSystemInfo` unmarshals a stored column, gives the sequence back, the
same records in the same order.  When every reading marshals, every sequence has
such an encoding. -/
theorem series_codec_round_trip (P : Payloads) (hP : P.Lawful) :
    (∀ (s : List (CPUData P)) (j : Json), marshalSeries P.cpu s = some j →
      unmarshalSeries P.cpu (some j) = some s) ∧
    (∀ (s : List (MemoryData P)) (j : Json), marshalSeries P.memory s = some j →
      unmarshalSeries P.memory (some j) = some s) ∧
    (∀ (s : List (ProcessData P)) (j : Json), marshalSeries P.process s = some j →
      unmarshalSeries P.process (some j) = some s) ∧
    (∀ (s : List (NetworkData P)) (j : Json), marshalSeries P.network s = some j →
      unmarshalSeries P.network (some j) = some s) ∧
    (P.MarshalTotal →
      (∀ s : List (CPUData P), ∃ j, marshalSeries P.cpu s = some j ∧
        unmarshalSeries P.cpu (some j) = some s) ∧
      (∀ s : List (MemoryData P), ∃ j, marshalSeries P.memory s = some j ∧
        unmarshalSeries P.memory (some j) = some s) ∧
      (∀ s : List (ProcessData P), ∃ j, marshalSeries P.process s = some j ∧
        unmarshalSeries P.process (some j) = some s) ∧
      (∀ s : List (NetworkData P), ∃ j, marshalSeries P.network s = some j ∧
        unmarshalSeries P.network (some j) = some s)) := by
  refine ⟨fun s j h => unmarshalSeries_marshalSeries P.cpu hP.1 s j h,
    fun s j h => unmarshalSeries_marshalSeries P.memory hP.2.1 s j h,
    fun s j h => unmarshalSeries_marshalSeries P.process hP.2.2.1 s j h,
    fun s j h => unmarshalSeries_marshalSeries P.network hP.2.2.2 s j h, fun hM => ?_⟩
  refine ⟨fun s => ?_, fun s => ?_, fun s => ?_, fun s => ?_⟩
  · obtain ⟨j, hj⟩ := marshalSeries_isSome P.cpu hM.1 s
    exact ⟨j, hj, unmarshalSeries_marshalSeries P.cpu hP.1 s j hj⟩
  · obtain ⟨j, hj⟩ := marshalSeries_isSome P.memory hM.2.1 s
    exact ⟨j, hj, unmarshalSeries_marshalSeries P.memory hP.2.1 s j hj⟩
  · obtain ⟨j, hj⟩ := marshalSeries_isSome P.process hM.2.2.1 s
    exact ⟨j, hj, unmarshalSeries_marshalSeries P.process hP.2.2.1 s j hj⟩
  · obtain ⟨j, hj⟩ := marshalSeries_isSome P.network hM.2.2.2 s
    exact ⟨j, hj, unmarshalSeries_marshalSeries P.network hP.2.2.2 s j hj⟩

theorem series_codec_round_trip_witness :
    marshalSeries percentCodec [⟨sampleT1, 10⟩, ⟨sampleT1, 10⟩, ⟨sampleT2, -3⟩] =
      some (.arr [.obj [("time", .str sampleT1), ("data", .obj [("percent", .num 10 0)])],
                  .obj [("time", .str sampleT1), ("data", .obj [("percent", .num 10 0)])],
                  .obj [("time", .str sampleT2), ("data", .obj [("percent", .num (-3) 0)])]]) ∧
    unmarshalSeries percentCodec
      (some (.arr [.obj [("time", .str sampleT1), ("data", .obj [("percent", .num 10 0)])],
                   .obj [("time", .str sampleT1), ("data", .obj [("percent", .num 10 0)])],
                   .obj [("time", .str sampleT2), ("data", .obj [("percent", .num (-3) 0)])]])) =
      some [⟨sampleT1, 10⟩, ⟨sampleT1, 10⟩, ⟨sampleT2, -3⟩] :=
  ⟨rfl, (series_codec_round_trip samplePayloads samplePayloads_lawful).1
    [⟨sampleT1, 10⟩, ⟨sampleT1, 10⟩, ⟨sampleT2, -3⟩] _ rfl⟩

/-- C14, the claim as stated fails.  The series row of host id 1 holds four empty
series.  A submission that carries only the cpu kind binds the three other
readings to their zero value, and the append adds one record to each of the four
series: the memory, process and network series, which the submission does not
carry, each get a record with the zero reading.  The same is seen through the
handler. -/
theorem omitted_kinds_get_a_zero_record :
    decodedSeries samplePayloads emptyColumnStore 1 = some ([], [], [], []) ∧
    decodedSeries samplePayloads
      (InsertSystemInfo samplePayloads emptyColumnStore 1
        (bindRequestData samplePayloads web01 (some 10) none none none).CPUInfo
        (bindRequestData samplePayloads web01 (some 10) none none none).MemInfo
        (bindRequestData samplePayloads web01 (some 10) none none none).ProInfo
        (bindRequestData samplePayloads web01 (some 10) none none none).NetInfo
        sampleT1 100).2 1 =
      some ([⟨sampleT1, 10⟩], [⟨sampleT1, 0⟩], [⟨sampleT1, 0⟩], [⟨sampleT1, 0⟩]) ∧
    (ReceiveAndStoreSystemMetrics samplePayloads acceptAll
      { tokenStore with system_info := emptyColumnStore.system_info, system_info_seq := 2 }
      sampleClock
      ⟨some (bindRequestData samplePayloads { web01 with ID := 1 } (some 10) none none none),
        "Bearer abc"⟩).status = 201 ∧
    decodedSeries samplePayloads
      (ReceiveAndStoreSystemMetrics samplePayloads acceptAll
        { tokenStore with system_info := emptyColumnStore.system_info, system_info_seq := 2 }
        sampleClock
        ⟨some (bindRequestData samplePayloads { web01 with ID := 1 } (some 10) none none none),
          "Bearer abc"⟩).db 1 =
      some ([⟨sampleT1, 10⟩], [⟨sampleT1, 0⟩], [⟨sampleT1, 0⟩], [⟨sampleT1, 0⟩]) :=
  ⟨rfl, rfl, rfl, rfl⟩

/-- C14, as amended.  With lawful reading codecs, ids forming a primary key and a
store clock not behind the stored timestamps, a successful append for a
submission that carries only some of the four kinds adds exactly one record to
each of the four series: for a kind the submission carries, its reading; for a
kind it does not carry, the zero reading; each with the capture time. -/
theorem subset_submission_appends_to_all_kinds (P : Payloads) (hP : P.Lawful)
    (db db' : Store) (hostInfoID : Int) (hostInfo : HostInfo)
    (cpuInfo : Option P.CPUInfo) (memInfo : Option P.MemoryInfo)
    (proInfo : Option P.ProcessInfo) (netInfo : Option P.NetworkInfo)
    (currentTime : String) (dbNow : Int)
    (s1 : List (CPUData P)) (s2 : List (MemoryData P)) (s3 : List (ProcessData P))
    (s4 : List (NetworkData P))
    (hkey : db.SystemInfoKeyed)
    (hclock : ∀ r ∈ rowsOfHost db.system_info hostInfoID, r.created_at ≤ dbNow)
    (hdec : decodedSeries P db hostInfoID = some (s1, s2, s3, s4))
    (hcall : InsertSystemInfo P db hostInfoID
      (bindRequestData P hostInfo cpuInfo memInfo proInfo netInfo).CPUInfo
      (bindRequestData P hostInfo cpuInfo memInfo proInfo netInfo).MemInfo
      (bindRequestData P hostInfo cpuInfo memInfo proInfo netInfo).ProInfo
      (bindRequestData P hostInfo cpuInfo memInfo proInfo netInfo).NetInfo
      currentTime dbNow = (none, db')) :
    decodedSeries P db' hostInfoID =
      some (s1 ++ [⟨currentTime, cpuInfo.getD P.cpu.zero⟩],
            s2 ++ [⟨currentTime, memInfo.getD P.memory.zero⟩],
            s3 ++ [⟨currentTime, proInfo.getD P.process.zero⟩],
            s4 ++ [⟨currentTime, netInfo.getD P.network.zero⟩]) :=
  (InsertSystemInfo_step P hP db db' hostInfoID
    ⟨cpuInfo.getD P.cpu.zero, memInfo.getD P.memory.zero, proInfo.getD P.process.zero,
      netInfo.getD P.network.zero, currentTime, dbNow⟩ s1 s2 s3 s4 hkey hclock hdec hcall).2.2

theorem subset_submission_appends_to_all_kinds_witness :
    ∃ db', InsertSystemInfo samplePayloads emptyColumnStore 1 10 0 0 7 sampleT1 100 = (none, db') ∧
      decodedSeries samplePayloads db' 1 =
        some ([⟨sampleT1, 10⟩], [⟨sampleT1, 0⟩], [⟨sampleT1, 0⟩], [⟨sampleT1, 7⟩]) :=
  ⟨_, rfl, subset_submission_appends_to_all_kinds samplePayloads samplePayloads_lawful
    emptyColumnStore _ 1 web01 (some 10) none none (some 7) sampleT1 100 [] [] [] []
    (by simp [Store.SystemInfoKeyed, emptyColumnStore, Store.empty])
    (by simp [rowsOfHost, emptyColumnStore, Store.empty]) rfl rfl⟩


/-- C15, the claim as stated fails.  For `web01`, whose stored network series has
a record in the window, the selector `network` returns a bundle without any
series, while the selector `all` returns that record for the network kind (under
the key `net`), as does the selector `net`. -/
theorem network_selector_returns_no_series :
    ReadDB parseUTC parseFloat64 seededHostStore "network" sampleT1 sampleT3 "web01" =
      .ok Bundle.empty ∧
    ReadDB parseUTC parseFloat64 seededHostStore "all" sampleT1 sampleT3 "web01" =
      .ok { host := some ⟨1, "web01", "linux", "ubuntu", "x86_64", 40⟩, memory := some [],
            net := some [recordAt sampleT2 5],
            cpu := some [recordAt sampleT1 10, recordAt sampleT2 20], process := some [] } ∧
    ReadDB parseUTC parseFloat64 seededHostStore "net" sampleT1 sampleT3 "web01" =
      .ok { Bundle.empty with net := some [recordAt sampleT2 5] } :=
  ⟨rfl, rfl, rfl⟩

theorem ReadDB_cpu (parse : String → Option Int) (float64 : ToFloat64)
    (db : Store) (from_ to_ hostname : String) :
    ReadDB parse float64 db "cpu" from_ to_ hostname =
      match readRows parse float64 (fun r => r.cpu_info) from_ to_ []
          (rowsOfHostname db.system_info hostname) with
      | .error e => .error e
      | .ok xs => .ok { Bundle.empty with cpu := some xs } := by
  have h1 : ¬ ("cpu" = "host" ∨ "cpu" = "all") := by decide
  have h2 : ¬ ("cpu" = "memory" ∨ "cpu" = "all") := by decide
  have h3 : ¬ ("cpu" = "net" ∨ "cpu" = "all") := by decide
  have h4 : ¬ ("cpu" = "process" ∨ "cpu" = "all") := by decide
  simp only [ReadDB, readHost, readPart, if_neg h1, if_neg h2, if_neg h3, if_neg h4,
    true_or, if_true, ReadCPUInfo]
  cases readRows parse float64 (fun r => r.cpu_info) from_ to_ []
    (rowsOfHostname db.system_info hostname) <;> rfl

theorem ReadDB_memory (parse : String → Option Int) (float64 : ToFloat64)
    (db : Store) (from_ to_ hostname : String) :
    ReadDB parse float64 db "memory" from_ to_ hostname =
      match readRows parse float64 (fun r => r.memory_info) from_ to_ []
          (rowsOfHostname db.system_info hostname) with
      | .error e => .error e
      | .ok xs => .ok { Bundle.empty with memory := some xs } := by
  have h1 : ¬ ("memory" = "host" ∨ "memory" = "all") := by decide
  have h2 : ¬ ("memory" = "cpu" ∨ "memory" = "all") := by decide
  have h3 : ¬ ("memory" = "net" ∨ "memory" = "all") := by decide
  have h4 : ¬ ("memory" = "process" ∨ "memory" = "all") := by decide
  simp only [ReadDB, readHost, readPart, if_neg h1, if_neg h2, if_neg h3, if_neg h4,
    true_or, if_true, ReadMemoryInfo]
  cases readRows parse float64 (fun r => r.memory_info) from_ to_ []
    (rowsOfHostname db.system_info hostname) <;> rfl

theorem ReadDB_process (parse : String → Option Int) (float64 : ToFloat64)
    (db : Store) (from_ to_ hostname : String) :
    ReadDB parse float64 db "process" from_ to_ hostname =
      match readRows parse float64 (fun r => r.process_info) from_ to_ []
          (rowsOfHostname db.system_info hostname) with
      | .error e => .error e
      | .ok xs => .ok { Bundle.empty with process := some xs } := by
  have h1 : ¬ ("process" = "host" ∨ "process" = "all") := by decide
  have h2 : ¬ ("process" = "cpu" ∨ "process" = "all") := by decide
  have h3 : ¬ ("process" = "net" ∨ "process" = "all") := by decide
  have h4 : ¬ ("process" = "memory" ∨ "process" = "all") := by decide
  simp only [ReadDB, readHost, readPart, if_neg h1, if_neg h2, if_neg h3, if_neg h4,
    true_or, if_true, ReadProcessInfo]
  cases readRows parse float64 (fun r => r.process_info) from_ to_ []
    (rowsOfHostname db.system_info hostname) <;> rfl

theorem ReadDB_net (parse : String → Option Int) (float64 : ToFloat64)
    (db : Store) (from_ to_ hostname : String) :
    ReadDB parse float64 db "net" from_ to_ hostname =
      match readRows parse float64 (fun r => r.network_info) from_ to_ []
          (rowsOfHostname db.system_info hostname) with
      | .error e => .error e
      | .ok xs => .ok { Bundle.empty with net := some xs } := by
  have h1 : ¬ ("net" = "host" ∨ "net" = "all") := by decide
  have h2 : ¬ ("net" = "cpu" ∨ "net" = "all") := by decide
  have h3 : ¬ ("net" = "memory" ∨ "net" = "all") := by decide
  have h4 : ¬ ("net" = "process" ∨ "net" = "all") := by decide
  simp only [ReadDB, readHost, readPart, if_neg h1, if_neg h2, if_neg h3, if_neg h4,
    true_or, if_true, ReadNetInfo]
  cases readRows parse float64 (fun r => r.network_info) from_ to_ []
    (rowsOfHostname db.system_info hostname) <;> rfl

theorem ReadDB_network (parse : String → Option Int) (float64 : ToFloat64)
    (db : Store) (from_ to_ hostname : String) :
    ReadDB parse float64 db "network" from_ to_ hostname = .ok Bundle.empty := by
  have h1 : ¬ ("network" = "host" ∨ "network" = "all") := by decide
  have h2 : ¬ ("network" = "cpu" ∨ "network" = "all") := by decide
  have h3 : ¬ ("network" = "memory" ∨ "network" = "all") := by decide
  have h4 : ¬ ("network" = "process" ∨ "network" = "all") := by decide
  have h5 : ¬ ("network" = "net" ∨ "network" = "all") := by decide
  simp only [ReadDB, readHost, readPart, if_neg h1, if_neg h2, if_neg h3, if_neg h4, if_neg h5]

theorem ReadDB_all (parse : String → Option Int) (float64 : ToFloat64)
    (db : Store) (from_ to_ hostname : String)
    (b : Bundle) (h : ReadDB parse float64 db "all" from_ to_ hostname = .ok b) :
    readRows parse float64 (fun r => r.memory_info) from_ to_ []
      (rowsOfHostname db.system_info hostname) = .ok (b.memory.getD []) ∧
    readRows parse float64 (fun r => r.network_info) from_ to_ []
      (rowsOfHostname db.system_info hostname) = .ok (b.net.getD []) ∧
    readRows parse float64 (fun r => r.cpu_info) from_ to_ []
      (rowsOfHostname db.system_info hostname) = .ok (b.cpu.getD []) ∧
    readRows parse float64 (fun r => r.process_info) from_ to_ []
      (rowsOfHostname db.system_info hostname) = .ok (b.process.getD []) ∧
    b.memory.isSome ∧ b.net.isSome ∧ b.cpu.isSome ∧ b.process.isSome ∧ b.host.isSome := by
  simp only [ReadDB, readHost, readPart, or_true, if_true, ReadMemoryInfo, ReadNetInfo,
    ReadCPUInfo, ReadProcessInfo] at h
  cases hh : findHostByName db.host_info hostname with
  | none => simp [hh] at h
  | some row =>
  cases hm : readRows parse float64 (fun r => r.memory_info) from_ to_ []
      (rowsOfHostname db.system_info hostname) with
  | error e => simp [hh, hm] at h
  | ok m =>
  cases hn : readRows parse float64 (fun r => r.network_info) from_ to_ []
      (rowsOfHostname db.system_info hostname) with
  | error e => simp [hh, hm, hn] at h
  | ok n =>
  cases hc : readRows parse float64 (fun r => r.cpu_info) from_ to_ []
      (rowsOfHostname db.system_info hostname) with
  | error e => simp [hh, hm, hn, hc] at h
  | ok c =>
  cases hp : readRows parse float64 (fun r => r.process_info) from_ to_ []
      (rowsOfHostname db.system_info hostname) with
  | error e => simp [hh, hm, hn, hc, hp] at h
  | ok p =>
  simp [hh, hm, hn, hc, hp] at h
  subst h
  simp

theorem some_getD_of_isSome {α : Type} {o : Option α} (h : o.isSome = true) (d : α) :
    some (o.getD d) = o := by
  cases o with
  | none => cases h
  | some x => rfl

/-- C15, as amended.  For each of the selectors `cpu`, `memory`, `process` and
`net`, with well-formed `from` and `to`:
* on readable rows (each column decodes, no number in it outside the float64
  range, each `updated_at` string a timestamp) `ReadDB` succeeds with a bundle
  that holds, under the key of that kind only, the records of the kind, as
  decoded, whose capture time lies in the window, in stored order;
* whenever `ReadDB` succeeds, its bundle is that one.

Whenever the selector `all` succeeds, each of the four selectors returns for its
kind the same sequence that `all` returns for it.  The selector `network` is no
selector of `ReadDB`: it always succeeds with the empty bundle, holding no
series. -/
theorem ReadDB_selector_returns_series_of_kind (parse : String → Option Int)
    (float64 : ToFloat64) (db : Store) (from_ to_ hostname : String) :
    (∀ f t, parse from_ = some f → parse to_ = some t →
      (readable parse float64 (fun r => r.cpu_info)
          (rowsOfHostname db.system_info hostname) = true →
        ReadDB parse float64 db "cpu" from_ to_ hostname =
          .ok { Bundle.empty with cpu := some ((decodedRecords float64 (fun r => r.cpu_info)
            (rowsOfHostname db.system_info hostname)).filter (inRange parse f t)) }) ∧
      (readable parse float64 (fun r => r.memory_info)
          (rowsOfHostname db.system_info hostname) = true →
        ReadDB parse float64 db "memory" from_ to_ hostname =
          .ok { Bundle.empty with memory := some ((decodedRecords float64 (fun r => r.memory_info)
            (rowsOfHostname db.system_info hostname)).filter (inRange parse f t)) }) ∧
      (readable parse float64 (fun r => r.process_info)
          (rowsOfHostname db.system_info hostname) = true →
        ReadDB parse float64 db "process" from_ to_ hostname =
          .ok { Bundle.empty with process := some ((decodedRecords float64
            (fun r => r.process_info)
            (rowsOfHostname db.system_info hostname)).filter (inRange parse f t)) }) ∧
      (readable parse float64 (fun r => r.network_info)
          (rowsOfHostname db.system_info hostname) = true →
        ReadDB parse float64 db "net" from_ to_ hostname =
          .ok { Bundle.empty with net := some ((decodedRecords float64 (fun r => r.network_info)
            (rowsOfHostname db.system_info hostname)).filter (inRange parse f t)) })) ∧
    (∀ f t, parse from_ = some f → parse to_ = some t → ∀ b,
      (ReadDB parse float64 db "cpu" from_ to_ hostname = .ok b →
        b = { Bundle.empty with cpu := some ((decodedRecords float64 (fun r => r.cpu_info)
          (rowsOfHostname db.system_info hostname)).filter (inRange parse f t)) }) ∧
      (ReadDB parse float64 db "memory" from_ to_ hostname = .ok b →
        b = { Bundle.empty with memory := some ((decodedRecords float64 (fun r => r.memory_info)
          (rowsOfHostname db.system_info hostname)).filter (inRange parse f t)) }) ∧
      (ReadDB parse float64 db "process" from_ to_ hostname = .ok b →
        b = { Bundle.empty with process := some ((decodedRecords float64
          (fun r => r.process_info)
          (rowsOfHostname db.system_info hostname)).filter (inRange parse f t)) }) ∧
      (ReadDB parse float64 db "net" from_ to_ hostname = .ok b →
        b = { Bundle.empty with net := some ((decodedRecords float64 (fun r => r.network_info)
          (rowsOfHostname db.system_info hostname)).filter (inRange parse f t)) })) ∧
    (∀ b, ReadDB parse float64 db "all" from_ to_ hostname = .ok b →
      ReadDB parse float64 db "cpu" from_ to_ hostname = .ok { Bundle.empty with cpu := b.cpu } ∧
      ReadDB parse float64 db "memory" from_ to_ hostname =
        .ok { Bundle.empty with memory := b.memory } ∧
      ReadDB parse float64 db "process" from_ to_ hostname =
        .ok { Bundle.empty with process := b.process } ∧
      ReadDB parse float64 db "net" from_ to_ hostname = .ok { Bundle.empty with net := b.net }) ∧
    ReadDB parse float64 db "network" from_ to_ hostname = .ok Bundle.empty := by
  have hsucc : ∀ (f t : Int), parse from_ = some f → parse to_ = some t →
      ∀ (column : SystemInfoRow → Option Json) (g : List Json → Bundle) (b : Bundle),
      (match readRows parse float64 column from_ to_ []
          (rowsOfHostname db.system_info hostname) with
        | .error e => (.error e : Except String Bundle)
        | .ok xs => .ok (g xs)) = .ok b →
      b = g ((decodedRecords float64 column
        (rowsOfHostname db.system_info hostname)).filter (inRange parse f t)) := by
    intro f t hf ht column g b h
    cases hr : readRows parse float64 column from_ to_ []
        (rowsOfHostname db.system_info hostname) with
    | error e => rw [hr] at h; cases h
    | ok xs =>
      have hread := readable_of_readRows_ok parse float64 column from_ to_ _ [] xs hr
      rw [readRows_ok parse float64 column from_ to_ f t hf ht _ [] hread] at h
      exact (Except.ok.inj h).symm
  refine ⟨fun f t hf ht => ⟨fun h => ?_, fun h => ?_, fun h => ?_, fun h => ?_⟩,
    fun f t hf ht b => ⟨fun h => ?_, fun h => ?_, fun h => ?_, fun h => ?_⟩,
    fun b hb => ?_, ReadDB_network parse float64 db from_ to_ hostname⟩
  · rw [ReadDB_cpu, readRows_ok parse float64 _ from_ to_ f t hf ht _ [] h]
    rfl
  · rw [ReadDB_memory, readRows_ok parse float64 _ from_ to_ f t hf ht _ [] h]
    rfl
  · rw [ReadDB_process, readRows_ok parse float64 _ from_ to_ f t hf ht _ [] h]
    rfl
  · rw [ReadDB_net, readRows_ok parse float64 _ from_ to_ f t hf ht _ [] h]
    rfl
  · rw [ReadDB_cpu] at h
    exact hsucc f t hf ht _ (fun xs => { Bundle.empty with cpu := some xs }) b h
  · rw [ReadDB_memory] at h
    exact hsucc f t hf ht _ (fun xs => { Bundle.empty with memory := some xs }) b h
  · rw [ReadDB_process] at h
    exact hsucc f t hf ht _ (fun xs => { Bundle.empty with process := some xs }) b h
  · rw [ReadDB_net] at h
    exact hsucc f t hf ht _ (fun xs => { Bundle.empty with net := some xs }) b h
  · obtain ⟨hm, hn, hc, hp, im, inn, ic, ip, _⟩ :=
      ReadDB_all parse float64 db from_ to_ hostname b hb
    refine ⟨?_, ?_, ?_, ?_⟩
    · rw [ReadDB_cpu, hc]
      show Except.ok { Bundle.empty with cpu := some (b.cpu.getD []) } = _
      rw [some_getD_of_isSome ic]
    · rw [ReadDB_memory, hm]
      show Except.ok { Bundle.empty with memory := some (b.memory.getD []) } = _
      rw [some_getD_of_isSome im]
    · rw [ReadDB_process, hp]
      show Except.ok { Bundle.empty with process := some (b.process.getD []) } = _
      rw [some_getD_of_isSome ip]
    · rw [ReadDB_net, hn]
      show Except.ok { Bundle.empty with net := some (b.net.getD []) } = _
      rw [some_getD_of_isSome inn]

theorem ReadDB_selector_returns_series_of_kind_witness :
    ReadDB parseUTC parseFloat64 seededHostStore "net" sampleT1 sampleT3 "web01" =
      .ok { Bundle.empty with net := some [recordAt sampleT2 5] } ∧
    ReadDB parseUTC parseFloat64 seededHostStore "cpu" sampleT1 sampleT3 "web01" =
      .ok { Bundle.empty with cpu := some [recordAt sampleT1 10, recordAt sampleT2 20] } :=
  have h := ReadDB_selector_returns_series_of_kind parseUTC parseFloat64 seededHostStore
    sampleT1 sampleT3 "web01"
  ⟨((h.1 1741698810 1741698812 (by decide) (by decide)).2.2.2 (by decide)).trans rfl,
   (h.2.2.1 _ rfl).1⟩


/-! ## What an accepted submission writes -/

theorem InsertSystemInfo_keeps_other_tables (P : Payloads) (db : Store) (hostInfoID : Int)
    (cpuInfo : P.CPUInfo) (memoryInfo : P.MemoryInfo) (processInfo : P.ProcessInfo)
    (networkInfo : P.NetworkInfo) (currentTime : String) (dbNow : Int) :
    (InsertSystemInfo P db hostInfoID cpuInfo memoryInfo processInfo networkInfo
        currentTime dbNow).2.hostandtoken = db.hostandtoken ∧
    (InsertSystemInfo P db hostInfoID cpuInfo memoryInfo processInfo networkInfo
        currentTime dbNow).2.hostandtoken_seq = db.hostandtoken_seq ∧
    (InsertSystemInfo P db hostInfoID cpuInfo memoryInfo processInfo networkInfo
        currentTime dbNow).2.host_info = db.host_info := by
  unfold InsertSystemInfo
  simp only
  repeat' split
  all_goals exact ⟨rfl, rfl, rfl⟩

theorem InsertHostInfo_keeps_tokens (db : Store) (hostInfo : HostInfo) (username : String)
    (dbNow : Int) :
    (InsertHostInfo db hostInfo username dbNow).err = none ∧
    (InsertHostInfo db hostInfo username dbNow).db.hostandtoken = db.hostandtoken ∧
    (InsertHostInfo db hostInfo username dbNow).db.hostandtoken_seq = db.hostandtoken_seq ∧
    (InsertHostInfo db hostInfo username dbNow).db.system_info = db.system_info := by
  unfold InsertHostInfo
  split <;> exact ⟨rfl, rfl, rfl, rfl⟩

theorem handler_unauthorized (P : Payloads) (verifyJWT : String → Option String)
    (db : Store) (clock : Clock) (req : Request P) (requestData : RequestData P)
    (hbody : req.body = some requestData)
    (hlen : requestData.HostInfo.Token.utf8ByteSize = 16)
    (heq : requestData.HostInfo.Token =
      lookupToken db.hostandtoken requestData.HostInfo.Hostname)
    (hno : req.authorization = "" ∨ trimBearer req.authorization = none ∨
      ∃ tokenString, trimBearer req.authorization = some tokenString ∧
        verifyJWT tokenString = none) :
    (ReceiveAndStoreSystemMetrics P verifyJWT db clock req).status = 401 ∧
    (ReceiveAndStoreSystemMetrics P verifyJWT db clock req).db = db ∧
    (ReceiveAndStoreSystemMetrics P verifyJWT db clock req).trace = [DbAccess.selectToken] := by
  unfold ReceiveAndStoreSystemMetrics
  rw [hbody]
  simp only [ne_eq]
  rw [if_neg (not_not.mpr hlen), if_neg (not_not.mpr heq)]
  by_cases ha : req.authorization = ""
  · rw [if_pos ha]
    exact ⟨rfl, rfl, rfl⟩
  · rw [if_neg ha]
    rcases hno with h | h | ⟨ts, h, hv⟩
    · exact absurd h ha
    · rw [h]
      exact ⟨rfl, rfl, rfl⟩
    · rw [h]
      simp [hv]

/-- The handler on a submission that passes the token stage and the bearer check:
heartbeat, host upsert, token binding, then the append, whose error decides
between 500 and 201. -/
theorem handler_accepted (P : Payloads) (verifyJWT : String → Option String)
    (db : Store) (clock : Clock) (req : Request P) (requestData : RequestData P)
    (tokenString username : String)
    (hbody : req.body = some requestData)
    (hlen : requestData.HostInfo.Token.utf8ByteSize = 16)
    (heq : requestData.HostInfo.Token =
      lookupToken db.hostandtoken requestData.HostInfo.Hostname)
    (ha : req.authorization ≠ "")
    (hb : trimBearer req.authorization = some tokenString)
    (hv : verifyJWT tokenString = some username) :
    ReceiveAndStoreSystemMetrics P verifyJWT db clock req =
      match (InsertSystemInfo P
          (InsertHostandToken
            (InsertHostInfo (touchHeartbeat db requestData.HostInfo.Hostname clock.heartbeat)
              requestData.HostInfo username clock.hostInfo).db
            requestData.HostInfo.Hostname requestData.HostInfo.Token clock.hostandtoken).2
          requestData.HostInfo.ID requestData.CPUInfo requestData.MemInfo requestData.ProInfo
          requestData.NetInfo clock.currentTime clock.systemInfo) with
      | (some _, db') => ⟨500, "Failed to insert system info", db',
          [DbAccess.selectToken, DbAccess.updateHeartbeat, DbAccess.callInsertHostInfo,
            DbAccess.callInsertHostandToken, DbAccess.callInsertSystemInfo]⟩
      | (none, db') => ⟨201, "System information inserted successfully", db',
          [DbAccess.selectToken, DbAccess.updateHeartbeat, DbAccess.callInsertHostInfo,
            DbAccess.callInsertHostandToken, DbAccess.callInsertSystemInfo]⟩ := by
  unfold ReceiveAndStoreSystemMetrics
  rw [hbody]
  simp only [ne_eq]
  rw [if_neg (not_not.mpr hlen), if_neg (not_not.mpr heq), if_neg ha, hb]
  simp only [hv, (InsertHostInfo_keeps_tokens _ _ _ _).1]
  have hk : ∀ d h t n, (InsertHostandToken d h t n).1 = none := fun _ _ _ _ => rfl
  simp only [hk]
  cases hs : InsertSystemInfo P
      (InsertHostandToken
        (InsertHostInfo (touchHeartbeat db requestData.HostInfo.Hostname clock.heartbeat)
          requestData.HostInfo username clock.hostInfo).db
        requestData.HostInfo.Hostname requestData.HostInfo.Token clock.hostandtoken).2
      requestData.HostInfo.ID requestData.CPUInfo requestData.MemInfo requestData.ProInfo
      requestData.NetInfo clock.currentTime clock.systemInfo with
  | mk e db' =>
    cases e <;> rfl

theorem handler_reach_inv (P : Payloads) (verifyJWT : String → Option String)
    (db : Store) (clock : Clock) (req : Request P) (requestData : RequestData P)
    (hbody : req.body = some requestData)
    (hreach : (ReceiveAndStoreSystemMetrics P verifyJWT db clock req).reachedTokenBinding) :
    requestData.HostInfo.Token.utf8ByteSize = 16 ∧
    requestData.HostInfo.Token = lookupToken db.hostandtoken requestData.HostInfo.Hostname ∧
    req.authorization ≠ "" ∧
    ∃ tokenString username, trimBearer req.authorization = some tokenString ∧
      verifyJWT tokenString = some username := by
  unfold Outcome.reachedTokenBinding at hreach
  by_cases hlen : requestData.HostInfo.Token.utf8ByteSize = 16
  swap
  · rw [handler_wrong_length P verifyJWT db clock req requestData hbody hlen] at hreach
    simp at hreach
  by_cases heq : requestData.HostInfo.Token =
      lookupToken db.hostandtoken requestData.HostInfo.Hostname
  swap
  · rw [handler_mismatch P verifyJWT db clock req requestData hbody hlen heq] at hreach
    simp at hreach
  have hun := handler_unauthorized P verifyJWT db clock req requestData hbody hlen heq
  by_cases ha : req.authorization = ""
  · rw [(hun (Or.inl ha)).2.2] at hreach
    simp at hreach
  cases hb : trimBearer req.authorization with
  | none =>
    rw [(hun (Or.inr (Or.inl hb))).2.2] at hreach
    simp at hreach
  | some tokenString =>
    cases hv : verifyJWT tokenString with
    | none =>
      rw [(hun (Or.inr (Or.inr ⟨tokenString, hb, hv⟩))).2.2] at hreach
      simp at hreach
    | some username => exact ⟨hlen, heq, ha, tokenString, username, rfl, hv⟩

/-- The token table a submission leaves once it has reached the token-binding
step, whatever `InsertSystemInfo` returns afterwards: the old rows, those of the
hostname touched by the heartbeat, followed by one new row. -/
theorem handler_binding_effect (P : Payloads) (verifyJWT : String → Option String)
    (db : Store) (clock : Clock) (req : Request P) (requestData : RequestData P)
    (hbody : req.body = some requestData)
    (hreach : (ReceiveAndStoreSystemMetrics P verifyJWT db clock req).reachedTokenBinding) :
    (ReceiveAndStoreSystemMetrics P verifyJWT db clock req).db.hostandtoken =
      (touchHeartbeat db requestData.HostInfo.Hostname clock.heartbeat).hostandtoken ++
        [⟨db.hostandtoken_seq, some requestData.HostInfo.Hostname, none,
          requestData.HostInfo.Token, clock.hostandtoken, "offline"⟩] := by
  obtain ⟨hlen, heq, ha, tokenString, username, hb, hv⟩ :=
    handler_reach_inv P verifyJWT db clock req requestData hbody hreach
  rw [handler_accepted P verifyJWT db clock req requestData tokenString username hbody hlen heq
    ha hb hv]
  have hi := InsertHostInfo_keeps_tokens
    (touchHeartbeat db requestData.HostInfo.Hostname clock.heartbeat)
    requestData.HostInfo username clock.hostInfo
  have hs := InsertSystemInfo_keeps_other_tables P
    (InsertHostandToken
      (InsertHostInfo (touchHeartbeat db requestData.HostInfo.Hostname clock.heartbeat)
        requestData.HostInfo username clock.hostInfo).db
      requestData.HostInfo.Hostname requestData.HostInfo.Token clock.hostandtoken).2
    requestData.HostInfo.ID requestData.CPUInfo requestData.MemInfo requestData.ProInfo
    requestData.NetInfo clock.currentTime clock.systemInfo
  have hk : (InsertHostandToken
      (InsertHostInfo (touchHeartbeat db requestData.HostInfo.Hostname clock.heartbeat)
        requestData.HostInfo username clock.hostInfo).db
      requestData.HostInfo.Hostname requestData.HostInfo.Token clock.hostandtoken).2.hostandtoken
      = (touchHeartbeat db requestData.HostInfo.Hostname clock.heartbeat).hostandtoken ++
        [⟨db.hostandtoken_seq, some requestData.HostInfo.Hostname, none,
          requestData.HostInfo.Token, clock.hostandtoken, "offline"⟩] := by
    show _ ++ _ = _
    rw [hi.2.1, hi.2.2.1]
    rfl
  cases hcall : InsertSystemInfo P
      (InsertHostandToken
        (InsertHostInfo (touchHeartbeat db requestData.HostInfo.Hostname clock.heartbeat)
          requestData.HostInfo username clock.hostInfo).db
        requestData.HostInfo.Hostname requestData.HostInfo.Token clock.hostandtoken).2
      requestData.HostInfo.ID requestData.CPUInfo requestData.MemInfo requestData.ProInfo
      requestData.NetInfo clock.currentTime clock.systemInfo with
  | mk e db' =>
    rw [hcall] at hs
    have hdb : db'.hostandtoken = _ := hs.1.trans hk
    cases e <;> exact hdb

theorem tokenRowsOf_touchHeartbeat (db : Store) (hostname h : String) (dbNow : Int) :
    (tokenRowsOf (touchHeartbeat db h dbNow) hostname).length = (tokenRowsOf db hostname).length := by
  unfold tokenRowsOf touchHeartbeat
  simp only
  rw [List.filter_map, List.length_map]
  congr 2
  funext r
  by_cases h1 : r.host_name = some h <;> simp [h1]

/-- One submission that reaches the token-binding step adds one token row for its
hostname. -/
theorem handler_adds_one_token_row (P : Payloads) (verifyJWT : String → Option String)
    (db : Store) (clock : Clock) (req : Request P) (requestData : RequestData P)
    (hbody : req.body = some requestData)
    (hreach : (ReceiveAndStoreSystemMetrics P verifyJWT db clock req).reachedTokenBinding) :
    (tokenRowsOf (ReceiveAndStoreSystemMetrics P verifyJWT db clock req).db
        requestData.HostInfo.Hostname).length =
      (tokenRowsOf db requestData.HostInfo.Hostname).length + 1 := by
  have h := handler_binding_effect P verifyJWT db clock req requestData hbody hreach
  have ht := tokenRowsOf_touchHeartbeat db requestData.HostInfo.Hostname
    requestData.HostInfo.Hostname clock.heartbeat
  unfold tokenRowsOf at ht ⊢
  rw [h, List.filter_append, List.length_append, ht]
  simp

theorem submitAll_token_rows (P : Payloads) (verifyJWT : String → Option String)
    (hostname : String) (subs : List (Clock × Request P)) :
    ∀ db : Store, allReachBinding P verifyJWT hostname db subs →
      (tokenRowsOf (submitAll P verifyJWT db subs) hostname).length =
        (tokenRowsOf db hostname).length + subs.length := by
  induction subs with
  | nil => intro db _; rfl
  | cons sub rest ih =>
    intro db hall
    obtain ⟨clock, req⟩ := sub
    obtain ⟨⟨requestData, hbody, hname⟩, hreach, hrest⟩ := hall
    have h1 := handler_adds_one_token_row P verifyJWT db clock req requestData hbody hreach
    rw [hname] at h1
    have h2 := ih _ hrest
    simp only [submitAll, List.length_cons]
    rw [h2, h1]
    omega

/-- C19.  A submission that gets as far as the token-binding step leaves the old
token rows in place (those of its hostname touched by the heartbeat) and adds one
new row binding its token to its hostname; it never reuses a row.  So after `k`
such submissions from one hostname, handled one after the other, the number of
token rows of that hostname has grown by exactly `k`. -/
theorem accepted_submissions_add_token_rows (P : Payloads)
    (verifyJWT : String → Option String) (hostname : String)
    (subs : List (Clock × Request P)) (db : Store)
    (hall : allReachBinding P verifyJWT hostname db subs) :
    (tokenRowsOf (submitAll P verifyJWT db subs) hostname).length =
      (tokenRowsOf db hostname).length + subs.length ∧
    (∀ (db0 : Store) (clock : Clock) (req : Request P) (requestData : RequestData P),
      req.body = some requestData →
      (ReceiveAndStoreSystemMetrics P verifyJWT db0 clock req).reachedTokenBinding →
      (ReceiveAndStoreSystemMetrics P verifyJWT db0 clock req).db.hostandtoken =
        (touchHeartbeat db0 requestData.HostInfo.Hostname clock.heartbeat).hostandtoken ++
          [⟨db0.hostandtoken_seq, some requestData.HostInfo.Hostname, none,
            requestData.HostInfo.Token, clock.hostandtoken, "offline"⟩]) :=
  ⟨submitAll_token_rows P verifyJWT hostname subs db hall,
    fun db0 clock req requestData hbody hreach =>
      handler_binding_effect P verifyJWT db0 clock req requestData hbody hreach⟩

theorem accepted_submissions_add_token_rows_witness :
    (tokenRowsOf tokenStore "web01").length = 1 ∧
    (tokenRowsOf (submitAll samplePayloads acceptAll tokenStore
      [(sampleClock, acceptedRequest 1), (sampleClock, acceptedRequest 1)]) "web01").length = 3 :=
  ⟨by decide,
   (accepted_submissions_add_token_rows samplePayloads acceptAll "web01"
    [(sampleClock, acceptedRequest 1), (sampleClock, acceptedRequest 1)] tokenStore
    ⟨⟨_, rfl, rfl⟩, show DbAccess.callInsertHostandToken ∈ _ from by decide,
     ⟨_, rfl, rfl⟩, show DbAccess.callInsertHostandToken ∈ _ from by decide, trivial⟩).1⟩

/-- C12, the failing input evaluated.  `web01` submits with the host id 99 in its
body.  The submission is accepted with status 201; the host upsert creates the
host row with id 1, and the series row the flow appends to is keyed by 99, the id
of the body.  With 7 in the body the series row is keyed by 7. -/
theorem series_row_is_keyed_by_request_id :
    (ReceiveAndStoreSystemMetrics samplePayloads acceptAll tokenStore sampleClock
      (acceptedRequest 99)).status = 201 ∧
    (InsertHostInfo (touchHeartbeat tokenStore "web01" 100) { web01 with ID := 99 } "alice"
      101).hostInfoID = 1 ∧
    ((ReceiveAndStoreSystemMetrics samplePayloads acceptAll tokenStore sampleClock
      (acceptedRequest 99)).db.host_info.map fun r => (r.id, r.hostname)) = [(1, "web01")] ∧
    ((ReceiveAndStoreSystemMetrics samplePayloads acceptAll tokenStore sampleClock
      (acceptedRequest 99)).db.system_info.map fun r => r.host_info_id) = [some 99] ∧
    (ReceiveAndStoreSystemMetrics samplePayloads acceptAll tokenStore sampleClock
      (acceptedRequest 7)).status = 201 ∧
    ((ReceiveAndStoreSystemMetrics samplePayloads acceptAll tokenStore sampleClock
      (acceptedRequest 7)).db.system_info.map fun r => r.host_info_id) = [some 7] :=
  ⟨rfl, rfl, rfl, rfl, rfl, rfl⟩

/-- C13, the failing input evaluated.  `web01` passes authorization; the latest
series row of the host id in its body has a `NULL` cpu column, so the append fails
and the handler answers 500.  The series rows are as before, but the store is
not: a host row was inserted, the heartbeat and status of the bound token row
were updated, and a token row was inserted. -/
theorem failed_append_leaves_partial_writes :
    (ReceiveAndStoreSystemMetrics samplePayloads acceptAll corruptTokenStore sampleClock
      (acceptedRequest 1)).status = 500 ∧
    (ReceiveAndStoreSystemMetrics samplePayloads acceptAll corruptTokenStore sampleClock
      (acceptedRequest 1)).db.system_info = corruptTokenStore.system_info ∧
    corruptTokenStore.host_info = [] ∧
    ((ReceiveAndStoreSystemMetrics samplePayloads acceptAll corruptTokenStore sampleClock
      (acceptedRequest 1)).db.host_info.map fun r => (r.id, r.hostname)) = [(1, "web01")] ∧
    (corruptTokenStore.hostandtoken.map fun r => (r.id, r.last_heartbeat, r.status)) =
      [(1, 0, "offline")] ∧
    ((ReceiveAndStoreSystemMetrics samplePayloads acceptAll corruptTokenStore sampleClock
      (acceptedRequest 1)).db.hostandtoken.map fun r => (r.id, r.last_heartbeat, r.status)) =
      [(1, 100, "online"), (2, 102, "offline")] :=
  ⟨rfl, rfl, rfl, rfl, rfl, rfl⟩


/-! ## Interleaved calls -/

/-- `InsertSystemInfo` is its query followed at once by the rest of its body. -/
theorem InsertSystemInfo_eq_scan_then_write (P : Payloads) (db : Store) (hostInfoID : Int)
    (cpuInfo : P.CPUInfo) (memoryInfo : P.MemoryInfo) (processInfo : P.ProcessInfo)
    (networkInfo : P.NetworkInfo) (currentTime : String) (dbNow : Int) :
    InsertSystemInfo P db hostInfoID cpuInfo memoryInfo processInfo networkInfo currentTime dbNow =
      appendAndWrite P db hostInfoID (scanLatest db hostInfoID) cpuInfo memoryInfo processInfo
        networkInfo currentTime dbNow :=
  rfl

theorem runSteps_serial (P : Payloads) (hostInfoID : Int) (calls : List (Submission P)) :
    ∀ (db db' : Store) (scans : List (Nat × LatestScan)) (first : Nat),
      insertAll P hostInfoID db calls = some db' →
      runSteps P hostInfoID db scans (serialSteps first calls) = db' := by
  induction calls with
  | nil =>
    intro db db' scans first h
    simp only [insertAll, Option.some.injEq] at h
    subst h
    rfl
  | cons c rest ih =>
    intro db db' scans first h
    simp only [insertAll] at h
    cases hcall : InsertSystemInfo P db hostInfoID c.cpuInfo c.memoryInfo c.processInfo
        c.networkInfo c.currentTime c.dbNow with
    | mk e db1 =>
      rw [hcall] at h
      cases e with
      | some msg => simp at h
      | none =>
        simp only at h
        have hw : (appendAndWrite P db hostInfoID (scanLatest db hostInfoID) c.cpuInfo
            c.memoryInfo c.processInfo c.networkInfo c.currentTime c.dbNow).2 = db1 := by
          rw [← InsertSystemInfo_eq_scan_then_write, hcall]
        simp only [serialSteps, runSteps, scannedBy, if_true, hw]
        exact ih db1 db' _ (first + 1) h

/-- C17, the claim as stated fails.  Two calls for host id 1, whose series are
empty, interleave: both query before either writes.  Both writes succeed, and
the series then hold one record each, the one of the second writer; the record of
the first writer is lost.  From a store without a row for the host the two calls
insert two rows, and the latest row holds one record. -/
theorem interleaved_calls_lose_an_update :
    decodedSeries samplePayloads emptyColumnStore 1 = some ([], [], [], []) ∧
    (appendAndWrite samplePayloads emptyColumnStore 1 (scanLatest emptyColumnStore 1)
      callA.cpuInfo callA.memoryInfo callA.processInfo callA.networkInfo callA.currentTime
      callA.dbNow).1 = none ∧
    (appendAndWrite samplePayloads
      (appendAndWrite samplePayloads emptyColumnStore 1 (scanLatest emptyColumnStore 1)
        callA.cpuInfo callA.memoryInfo callA.processInfo callA.networkInfo callA.currentTime
        callA.dbNow).2 1 (scanLatest emptyColumnStore 1)
      callB.cpuInfo callB.memoryInfo callB.processInfo callB.networkInfo callB.currentTime
      callB.dbNow).1 = none ∧
    decodedSeries samplePayloads
      (runSteps samplePayloads 1 emptyColumnStore [] (interleavedSteps callA callB)) 1 =
      some ([⟨sampleT2, 20⟩], [⟨sampleT2, 4⟩], [⟨sampleT2, 5⟩], [⟨sampleT2, 6⟩]) ∧
    (runSteps samplePayloads 1 Store.empty [] (interleavedSteps callA callB)).system_info.length
      = 2 ∧
    decodedSeries samplePayloads
      (runSteps samplePayloads 1 Store.empty [] (interleavedSteps callA callB)) 1 =
      some ([⟨sampleT2, 20⟩], [⟨sampleT2, 4⟩], [⟨sampleT2, 5⟩], [⟨sampleT2, 6⟩]) :=
  ⟨rfl, rfl, rfl, rfl, rfl, rfl⟩

/-- C17, as amended.  `InsertSystemInfo` is two storage statements, its query and
its write.  When `M` calls for one host id run one after the other, each query
directly followed by its own write, then, with lawful reading codecs, ids forming
a primary key and a store clock that does not run backwards, the run is the
sequence of the `M` calls and, if they all succeed (as they do when every reading
marshals), each series decoded from the host's latest row is the old one followed
by the `M` new records: exactly `M` more, none lost. -/
theorem serial_calls_lose_no_update (P : Payloads) (hP : P.Lawful) (hostInfoID : Int)
    (calls : List (Submission P)) (db : Store) (s1 : List (CPUData P))
    (s2 : List (MemoryData P)) (s3 : List (ProcessData P)) (s4 : List (NetworkData P))
    (hkey : db.SystemInfoKeyed) (hclock : ClockAdvances db hostInfoID calls)
    (hdec : decodedSeries P db hostInfoID = some (s1, s2, s3, s4)) :
    (∀ db', insertAll P hostInfoID db calls = some db' →
      runSteps P hostInfoID db [] (serialSteps 0 calls) = db' ∧
      decodedSeries P (runSteps P hostInfoID db [] (serialSteps 0 calls)) hostInfoID =
        some (s1 ++ (appended P calls).1, s2 ++ (appended P calls).2.1,
              s3 ++ (appended P calls).2.2.1, s4 ++ (appended P calls).2.2.2)) ∧
    (P.MarshalTotal →
      decodedSeries P (runSteps P hostInfoID db [] (serialSteps 0 calls)) hostInfoID =
        some (s1 ++ (appended P calls).1, s2 ++ (appended P calls).2.1,
              s3 ++ (appended P calls).2.2.1, s4 ++ (appended P calls).2.2.2)) ∧
    (appended P calls).1.length = calls.length ∧ (appended P calls).2.1.length = calls.length ∧
    (appended P calls).2.2.1.length = calls.length ∧
    (appended P calls).2.2.2.length = calls.length := by
  have hser : ∀ db', insertAll P hostInfoID db calls = some db' →
      runSteps P hostInfoID db [] (serialSteps 0 calls) = db' ∧
      decodedSeries P (runSteps P hostInfoID db [] (serialSteps 0 calls)) hostInfoID =
        some (s1 ++ (appended P calls).1, s2 ++ (appended P calls).2.1,
              s3 ++ (appended P calls).2.2.1, s4 ++ (appended P calls).2.2.2) := by
    intro db' hrun
    have hr := runSteps_serial P hostInfoID calls db db' [] 0 hrun
    refine ⟨hr, ?_⟩
    rw [hr]
    exact insertAll_decoded P hP hostInfoID calls db db' s1 s2 s3 s4 hkey hclock hdec hrun
  refine ⟨hser, fun hM => ?_, by simp [appended], by simp [appended], by simp [appended],
    by simp [appended]⟩
  obtain ⟨db', hrun⟩ := insertAll_succeeds P hP hM hostInfoID calls db s1 s2 s3 s4 hkey hclock
    hdec
  exact (hser db' hrun).2

theorem serial_calls_lose_no_update_witness :
    decodedSeries samplePayloads
      (runSteps samplePayloads 1 emptyColumnStore [] (serialSteps 0 [callA, callB])) 1 =
      some ([⟨sampleT1, 10⟩, ⟨sampleT2, 20⟩], [⟨sampleT1, 1⟩, ⟨sampleT2, 4⟩],
            [⟨sampleT1, 2⟩, ⟨sampleT2, 5⟩], [⟨sampleT1, 3⟩, ⟨sampleT2, 6⟩]) :=
  (serial_calls_lose_no_update samplePayloads samplePayloads_lawful 1 [callA, callB]
    emptyColumnStore [] [] [] []
    (by simp [Store.SystemInfoKeyed, emptyColumnStore, Store.empty])
    (by simp [ClockAdvances, callA, callB, rowsOfHost, emptyColumnStore, Store.empty])
    rfl).2.1 samplePayloads_marshalTotal


end ServerMonitor
